import Mathlib

/-!
# Verification of the prereview core pipeline

A shallow embedding of the `prereview` package (diff parsing, stable identity
assignment, context building, runtime recomputation and annotation
validation/compilation) together with proofs of the behavioural properties
stated in the design document.

Modelling conventions:

* Python strings are `String`; machine-independent helper functions such as
  `str.strip`, `str.splitlines` and `str(int)` are re-implemented below
  (`pyStrip`, `pySplitlines`, `natRepr`).  `splitlines` is modelled for the
  LF / CRLF / CR line boundaries that occur in diff text.
* Dynamic JSON data (contexts, notes, annotation documents) is modelled by the
  inductive type `JValue`; Python's `None` and JSON `null` are both `.null`,
  which matches `dict.get` returning `None` for a missing key.
* External collaborators (the SHA-1 hash, the git diff source, `fnmatch` glob
  matching and the JSON line parser) are bundled in an explicit `Env`
  parameter; theorems that need collision-freedom of the hash assume
  injectivity.
* Fallible code (`raise ValueError` in the diff parser, `raise RuntimeError`
  in the diff source) is modelled with `Except`.
-/

set_option maxRecDepth 4000

namespace Prereview

/-! ## Python string primitives -/

/-- The whitespace characters stripped by Python's `str.strip()`
(space, tab, LF, CR, vertical tab, form feed). -/
def isPySpace (c : Char) : Bool :=
  c = ' ' || c = '\t' || c = '\n' || c = '\r' || c = Char.ofNat 11 || c = Char.ofNat 12

/-- Python `str.strip()` with no arguments. -/
def pyStrip (s : String) : String :=
  ⟨(((s.data.dropWhile isPySpace).reverse.dropWhile isPySpace).reverse)⟩

/-- Python `str.lstrip()`/split helper: the prefix of `s` before the first tab
(`value.split("\t", 1)[0]`). -/
def beforeTab (s : String) : String :=
  ⟨s.data.takeWhile (fun c => c ≠ '\t')⟩

/-- Python `str.startswith` (code-point prefix test). -/
def pyStartsWith (s pre : String) : Bool := pre.data.isPrefixOf s.data

/-- Python `str.endswith`. -/
def pyEndsWith (s suf : String) : Bool := suf.data.isSuffixOf s.data

/-- Python slicing `s[n:]` by code points. -/
def pyDrop (s : String) (n : Nat) : String := ⟨s.data.drop n⟩

/-- Python slicing `s[:len(s)-n]` by code points. -/
def pyDropRight (s : String) (n : Nat) : String := ⟨s.data.take (s.data.length - n)⟩

/-- Python slicing `s[:n]`. -/
def pyTake (s : String) (n : Nat) : String := ⟨s.data.take n⟩

/-- Helper for `pySplitlines`: split a character list at line boundaries
(`\n`, `\r\n` or `\r`).  The fuel argument makes the recursion structural;
any fuel at least the length of the list is sufficient. -/
def splitlinesAux : Nat → List Char → List Char → List (List Char)
  | _, [], acc => if acc.isEmpty then [] else [acc.reverse]
  | 0, _ :: _, acc => if acc.isEmpty then [] else [acc.reverse]
  | fuel + 1, c :: rest, acc =>
    if c = '\n' then acc.reverse :: splitlinesAux fuel rest []
    else if c = '\r' then
      if rest.head? = some '\n' then acc.reverse :: splitlinesAux fuel rest.tail []
      else acc.reverse :: splitlinesAux fuel rest []
    else splitlinesAux fuel rest (c :: acc)

/-- Python `str.splitlines()`, modelled for LF / CRLF / CR boundaries. -/
def pySplitlines (s : String) : List String :=
  (splitlinesAux s.data.length s.data []).map fun cs => ⟨cs⟩

/-- A string that contains no line boundary characters, so that it survives
`splitlines` intact. -/
def LineSafe (s : String) : Prop :=
  ∀ c ∈ s.data, c ≠ '\n' ∧ c ≠ '\r'

instance (s : String) : Decidable (LineSafe s) := by
  unfold LineSafe; infer_instance

/-- Join lines with terminating newlines: the inverse image of
`pySplitlines` used to build concrete diff texts. -/
def joinLines (ls : List String) : String :=
  ls.foldr (fun l acc => l ++ "\n" ++ acc) ""

/-! ## Decimal representation of numbers (Python `str(int)` / f-strings) -/

/-- The decimal digit character for `n < 10`. -/
def digitChar : Nat → Char
  | 0 => '0' | 1 => '1' | 2 => '2' | 3 => '3' | 4 => '4'
  | 5 => '5' | 6 => '6' | 7 => '7' | 8 => '8' | _ => '9'

/-- Numeric value of a decimal digit character. -/
def digitVal (c : Char) : Nat := c.toNat - 48

/-- Accumulator-style decimal rendering of a natural number.  The fuel
argument makes the recursion structural (hence kernel-computable); any fuel
above the number itself is sufficient. -/
def natReprAux : Nat → Nat → List Char → List Char
  | 0, _, acc => acc
  | fuel + 1, n, acc =>
    if n < 10 then digitChar n :: acc
    else natReprAux fuel (n / 10) (digitChar (n % 10) :: acc)

/-- Python `str(n)` for a natural number. -/
def natRepr (n : Nat) : String := ⟨natReprAux (n + 1) n []⟩

/-- Python `str(i)` for an integer. -/
def intRepr (i : Int) : String :=
  if i < 0 then "-" ++ natRepr i.natAbs else natRepr i.natAbs

/-- Value of a decimal digit string (`int(s)` on the digit strings produced
by the hunk-header regular expression). -/
def digitsToNat (cs : List Char) : Nat :=
  cs.foldl (fun a c => a * 10 + digitVal c) 0

theorem digitVal_digitChar {k : Nat} (h : k < 10) : digitVal (digitChar k) = k := by
  interval_cases k <;> rfl

theorem isDigit_digitChar {k : Nat} (h : k < 10) : (digitChar k).isDigit = true := by
  interval_cases k <;> rfl

theorem natReprAux_fuel_irrel : ∀ (fuel₁ fuel₂ n : Nat), n < fuel₁ → n < fuel₂ →
    ∀ acc, natReprAux fuel₁ n acc = natReprAux fuel₂ n acc := by
  intro fuel₁
  induction fuel₁ with
  | zero => omega
  | succ f₁ ih =>
    intro fuel₂ n h₁ h₂ acc
    match fuel₂, h₂ with
    | f₂ + 1, h₂ =>
      by_cases h : n < 10
      · rw [natReprAux, if_pos h, natReprAux, if_pos h]
      · have hd : n / 10 < n := Nat.div_lt_self (by omega) (by omega)
        rw [natReprAux, if_neg h, natReprAux, if_neg h]
        exact ih f₂ (n / 10) (by omega) (by omega) _

theorem natReprAux_fuel_mono (fuel n : Nat) (h : n < fuel) (acc : List Char) :
    natReprAux fuel n acc = natReprAux (n + 1) n acc :=
  natReprAux_fuel_irrel fuel (n + 1) n h (by omega) acc

theorem natReprAux_append (n : Nat) (acc : List Char) :
    natReprAux (n + 1) n acc = natReprAux (n + 1) n [] ++ acc := by
  induction n using Nat.strong_induction_on generalizing acc with
  | _ n ih =>
    by_cases h : n < 10
    · rw [natReprAux, if_pos h, natReprAux, if_pos h]; rfl
    · rw [natReprAux, if_neg h]
      conv_rhs => rw [natReprAux, if_neg h]
      have hlt : n / 10 < n := Nat.div_lt_self (by omega) (by omega)
      rw [natReprAux_fuel_mono n (n / 10) (by omega),
        natReprAux_fuel_mono n (n / 10) (by omega) (digitChar (n % 10) :: [])]
      rw [ih _ hlt, ih _ hlt [digitChar (n % 10)]]
      simp

theorem digitsToNat_append (xs ys : List Char) :
    digitsToNat (xs ++ ys) = ys.foldl (fun a c => a * 10 + digitVal c) (digitsToNat xs) := by
  simp [digitsToNat, List.foldl_append]

theorem digitsToNat_natReprAux (n : Nat) :
    digitsToNat (natReprAux (n + 1) n []) = n := by
  induction n using Nat.strong_induction_on with
  | _ n ih =>
    by_cases h : n < 10
    · rw [natReprAux, if_pos h]
      simp [digitsToNat, digitVal_digitChar h]
    · have hlt : n / 10 < n := Nat.div_lt_self (by omega) (by omega)
      rw [natReprAux, if_neg h, natReprAux_fuel_mono n (n / 10) (by omega),
        natReprAux_append]
      rw [digitsToNat_append, ih _ hlt]
      simp only [List.foldl_cons, List.foldl_nil,
        digitVal_digitChar (Nat.mod_lt n (by omega))]
      omega

theorem digitsToNat_natRepr (n : Nat) : digitsToNat (natRepr n).data = n :=
  digitsToNat_natReprAux n

theorem natRepr_injective : Function.Injective natRepr := by
  intro m n h
  have : digitsToNat (natRepr m).data = digitsToNat (natRepr n).data := by rw [h]
  rwa [digitsToNat_natRepr, digitsToNat_natRepr] at this

theorem mem_natReprAux_digit {c : Char} {n : Nat} {acc : List Char}
    (h : c ∈ natReprAux (n + 1) n acc) : c.isDigit = true ∨ c ∈ acc := by
  induction n using Nat.strong_induction_on generalizing acc with
  | _ n ih =>
    by_cases hn : n < 10
    · rw [natReprAux, if_pos hn] at h
      rcases List.mem_cons.mp h with h | h
      · exact Or.inl (h ▸ isDigit_digitChar hn)
      · exact Or.inr h
    · rw [natReprAux, if_neg hn,
        natReprAux_fuel_mono n (n / 10) (by omega)] at h
      have hlt : n / 10 < n := Nat.div_lt_self (by omega) (by omega)
      rcases ih _ hlt h with h | h
      · exact Or.inl h
      · rcases List.mem_cons.mp h with h | h
        · exact Or.inl (h ▸ isDigit_digitChar (Nat.mod_lt n (by omega)))
        · exact Or.inr h

theorem mem_natRepr_digit {c : Char} {n : Nat} (h : c ∈ (natRepr n).data) :
    c.isDigit = true := by
  rcases mem_natReprAux_digit h with h | h
  · exact h
  · simp at h

theorem natRepr_ne_nil (n : Nat) : (natRepr n).data ≠ [] := by
  show natReprAux (n + 1) n [] ≠ []
  by_cases h : n < 10
  · rw [natReprAux, if_pos h]; simp
  · rw [natReprAux, if_neg h, natReprAux_fuel_mono n (n / 10) (by omega),
      natReprAux_append]
    simp

/-! ## Separator-based string encodings

The identity keys built with f-strings are colon-separated; these lemmas let
us cancel common prefixes and recover the separated components. -/

theorem string_data_append (s t : String) : (s ++ t).data = s.data ++ t.data := rfl

theorem string_eq_iff_data {s t : String} : s = t ↔ s.data = t.data :=
  ⟨fun h => h ▸ rfl, fun h => by cases s; cases t; exact congrArg String.mk h⟩

theorem append_sep_inj {sep : Char} {xs₁ xs₂ ys₁ ys₂ : List Char}
    (h₁ : ∀ c ∈ xs₁, c ≠ sep) (h₂ : ∀ c ∈ xs₂, c ≠ sep)
    (h : xs₁ ++ sep :: ys₁ = xs₂ ++ sep :: ys₂) : xs₁ = xs₂ ∧ ys₁ = ys₂ := by
  induction xs₁ generalizing xs₂ with
  | nil =>
    cases xs₂ with
    | nil => simpa using h
    | cons b bs =>
      simp only [List.nil_append, List.cons_append, List.cons.injEq] at h
      exact absurd h.1.symm (h₂ b (by simp))
  | cons a as ih =>
    cases xs₂ with
    | nil =>
      simp only [List.nil_append, List.cons_append, List.cons.injEq] at h
      exact absurd h.1 (h₁ a (by simp))
    | cons b bs =>
      simp only [List.cons_append, List.cons.injEq] at h
      obtain ⟨rfl, h⟩ := h
      have := ih (fun c hc => h₁ c (by simp [hc])) (fun c hc => h₂ c (by simp [hc])) h
      exact ⟨by rw [this.1], this.2⟩

/-! ## JSON values -/

/-- Dynamic JSON data (Python dicts/lists as produced by `json.loads`).
Python `None` and JSON `null` are both `.null`.  Objects are association
lists with (in our constructions) unique keys. -/
inductive JValue where
  | null : JValue
  | bool : Bool → JValue
  | num : Int → JValue
  | str : String → JValue
  | arr : List JValue → JValue
  | obj : List (String × JValue) → JValue
deriving Repr, Inhabited

namespace JValue

/-- Raw key lookup in an object (`k in d` uses `(getKey k).isSome`). -/
def getKey : JValue → String → Option JValue
  | .obj fields, k => fields.lookup k
  | _, _ => none

/-- Python `d.get(k)`: `None` for a missing key or a non-dict receiver. -/
def pyGet (j : JValue) (k : String) : JValue := (j.getKey k).getD .null

/-- Python `d.get(k, default)`. -/
def pyGetD (j : JValue) (k : String) (d : JValue) : JValue := (j.getKey k).getD d

/-- Python `k in d`. -/
def hasKey (j : JValue) (k : String) : Bool := (j.getKey k).isSome

/-- Python truthiness of a JSON value (`bool(x)`). -/
def truthy : JValue → Bool
  | .null => false
  | .bool b => b
  | .num n => n ≠ 0
  | .str s => s ≠ ""
  | .arr l => !l.isEmpty
  | .obj l => !l.isEmpty

/-- `isinstance(x, str)` paired with extraction. -/
def asStr : JValue → Option String
  | .str s => some s
  | _ => none

/-- `isinstance(x, list)` paired with extraction. -/
def asArr : JValue → Option (List JValue)
  | .arr l => some l
  | _ => none

/-- `isinstance(x, dict)`. -/
def isObj : JValue → Bool
  | .obj _ => true
  | _ => false

/-- A non-empty string value (`isinstance(x, str) and x`). -/
def isNonemptyStr : JValue → Bool
  | .str s => s ≠ ""
  | _ => false

/-- A string value with non-blank content (`isinstance(x, str) and x.strip()`). -/
def isNonblankStr : JValue → Bool
  | .str s => pyStrip s ≠ ""
  | _ => false

end JValue

/-- Python `str(x)`.  Container and scalar representations follow CPython
(`str` of a container uses `repr`); the container case is an approximation
that is never relied on by the theorems below. -/
def pyStr : JValue → String
  | .null => "None"
  | .bool true => "True"
  | .bool false => "False"
  | .num i => intRepr i
  | .str s => s
  | .arr _ => "[...]"
  | .obj _ => "{...}"

/-! ## Data model (`models.py`) -/

/-- `LineType = Literal["context", "add", "del"]`. -/
inductive LineType where
  | context : LineType
  | add : LineType
  | del : LineType
deriving DecidableEq, Repr

/-- The string literal of a `LineType` as used in the Python source. -/
def LineType.tag : LineType → String
  | .context => "context"
  | .add => "add"
  | .del => "del"

/-- `models.Line`. -/
structure Line where
  line_id : String
  line_type : LineType
  content : String
  old_line : Option Nat
  new_line : Option Nat
deriving DecidableEq, Repr

/-- `models.Hunk`. -/
structure Hunk where
  hunk_id : String
  stable_hunk_id : String
  old_start : Nat
  old_count : Nat
  new_start : Nat
  new_count : Nat
  header : String
  lines : List Line
deriving DecidableEq, Repr

/-- `models.FilePatch`. -/
structure FilePatch where
  file_id : String
  path : String
  old_path : Option String
  new_path : Option String
  is_new : Bool := false
  is_deleted : Bool := false
  is_binary : Bool := false
  is_rename : Bool := false
  hunks : List Hunk := []
deriving DecidableEq, Repr

/-- `FilePatch.additions` (count of added lines). -/
def FilePatch.additions (fp : FilePatch) : Nat :=
  (fp.hunks.map fun h => (h.lines.filter fun l => l.line_type = .add).length).sum

/-- `FilePatch.deletions` (count of deleted lines). -/
def FilePatch.deletions (fp : FilePatch) : Nat :=
  (fp.hunks.map fun h => (h.lines.filter fun l => l.line_type = .del).length).sum

/-- Python `or` on optional paths: `a or b` where `None` and `""` are falsy. -/
def pyOrPath (a b : Option String) : Option String :=
  match a with
  | some s => if s = "" then b else some s
  | none => b

/-- `FilePatch.status`. -/
def FilePatch.status (fp : FilePatch) : String :=
  if fp.is_binary then "binary"
  else if fp.is_new || fp.old_path.isNone then "added"
  else if fp.is_deleted || fp.new_path.isNone then "deleted"
  else if fp.is_rename || fp.old_path ≠ fp.new_path then "renamed"
  else "modified"

/-! ## External collaborators -/

/-- The effectful collaborators of the core pipeline (spec §6): the SHA-1
text hash from `util.hash_text`, the git-driven diff text source behind
`prepare.collect_patch_text_from_source`, `fnmatch.fnmatchcase` used by
path exclusion, the JSON line parser (`json.loads`) used by the notes
reader, the `str(PurePosixPath(...))` normalization used by path exclusion,
and the key-sorted `json.dumps` serialization used for the context id.  The
diff source and the JSON parser return `Except` mirroring `RuntimeError` /
`json.JSONDecodeError`. -/
structure Env where
  hashText : String → String
  collectPatch : JValue → Except String String
  fnmatchcase : String → String → Bool
  jsonParse : String → Except String JValue
  posixStr : String → String
  jsonDumpsSorted : JValue → String

/-! ## Diff parser (`diff_parser.py`) -/

/-- `_normalize_path`. -/
def normalizePath (value : String) : String :=
  let path := pyStrip value
  let path :=
    if pyStartsWith path "\"" && pyEndsWith path "\"" && path.length ≥ 2 then
      pyDropRight (pyDrop path 1) 1
    else path
  if pyStartsWith path "a/" || pyStartsWith path "b/" then pyDrop path 2 else path

/-- `_normalize_header_path` (`/dev/null` denotes "no such side"). -/
def normalizeHeaderPath (value : String) : Option String :=
  let path := beforeTab (pyStrip value)
  if path = "/dev/null" then none else some (normalizePath path)

/-- One `\d+(,\d+)?` group of the hunk-header regular expression; the count
defaults to 1 when omitted.  ASCII digits model Python's `\d`. -/
def parseNumPair (cs : List Char) : Option (Nat × Nat × List Char) :=
  let d1 := cs.takeWhile Char.isDigit
  let r1 := cs.dropWhile Char.isDigit
  if d1.isEmpty then none
  else
    match r1 with
    | ',' :: r2 =>
      let d2 := r2.takeWhile Char.isDigit
      let r3 := r2.dropWhile Char.isDigit
      if d2.isEmpty then none else some (digitsToNat d1, digitsToNat d2, r3)
    | _ => some (digitsToNat d1, 1, r1)

/-- `_HUNK_RE`: `^@@ -(\d+)(?:,(\d+))? \+(\d+)(?:,(\d+))? @@(.*)$`, returning
`(old_start, old_count, new_start, new_count, trailing)`. -/
def hunkReMatch (s : String) : Option (Nat × Nat × Nat × Nat × String) :=
  match s.data with
  | '@' :: '@' :: ' ' :: '-' :: rest =>
    match parseNumPair rest with
    | some (o, oc, r1) =>
      match r1 with
      | ' ' :: '+' :: r2 =>
        match parseNumPair r2 with
        | some (n, nc, r3) =>
          match r3 with
          | ' ' :: '@' :: '@' :: tail => some (o, oc, n, nc, ⟨tail⟩)
          | _ => none
        | none => none
      | _ => none
    | none => none
  | _ => none

/-- Greedy search for the last `" b/"` separator with a non-empty right part,
modelling the backtracking of `.+` in `_DIFF_GIT_RE`. -/
def splitLastSep : List Char → Option (List Char × List Char)
  | [] => none
  | c :: rest =>
    match splitLastSep rest with
    | some (g1, g2) => some (c :: g1, g2)
    | none =>
      if c = ' ' then
        if rest.head? = some 'b' then
          if rest.tail.head? = some '/' then
            if rest.tail.tail.isEmpty then none else some ([], rest.tail.tail)
          else none
        else none
      else none

/-- `_DIFF_GIT_RE`: `^diff --git a/(.+) b/(.+)$`. -/
def diffGitMatch (line : String) : Option (String × String) :=
  if pyStartsWith line "diff --git a/" then
    match splitLastSep (pyDrop line 13).data with
    | some (g1, g2) => if g1.isEmpty then none else some (⟨g1⟩, ⟨g2⟩)
    | none => none
  else none

/-- The position-sensitive hunk identity key
`f"{file_path}:{old_start}:{old_count}:{new_start}:{new_count}:{trailing_header}"`. -/
def hunkKey (path : String) (o oc n nc : Nat) (tr : String) : String :=
  path ++ ":" ++ natRepr o ++ ":" ++ natRepr oc ++ ":" ++ natRepr n ++ ":" ++
    natRepr nc ++ ":" ++ tr

/-- Modelled from the spec: the content key of the position-independent
stable hunk identifier — "hash of `(path, ordered list of (kind, content)
for every line in the hunk)`" (§4.2).  The computation of `stable_hunk_id`
is absent from `diff_parser.py` (the `Hunk` constructor call in
`_parse_hunk` omits the field that `models.py` declares and that
`prepare.py`, `cli.py` and the test suite consume), so it is reconstructed
here from the specification's words. -/
def stableContentKey (path : String) (ls : List Line) : String :=
  path ++ ":" ++ String.intercalate "\n" (ls.map fun l => l.line_type.tag ++ ":" ++ l.content)

/-- The line-consuming loop of `_parse_hunk`: advance the old/new counters
per line kind until the next file separator or hunk header; returns the
parsed lines and the unconsumed remainder. -/
def parseHunkLoop (env : Env) (filePath : String) :
    Nat → Nat → List String → List Line × List String
  | _, _, [] => ([], [])
  | oldLine, newLine, line :: rest =>
    if pyStartsWith line "diff --git " || pyStartsWith line "@@ " then ([], line :: rest)
    else if pyStartsWith line "\\ No newline at end of file" then
      parseHunkLoop env filePath oldLine newLine rest
    else if pyStartsWith line "+" && !pyStartsWith line "+++ " then
      let content := pyDrop line 1
      let res := parseHunkLoop env filePath oldLine (newLine + 1) rest
      (⟨env.hashText (filePath ++ ":add:" ++ natRepr newLine ++ ":" ++ content),
        .add, content, none, some newLine⟩ :: res.1, res.2)
    else if pyStartsWith line "-" && !pyStartsWith line "--- " then
      let content := pyDrop line 1
      let res := parseHunkLoop env filePath (oldLine + 1) newLine rest
      (⟨env.hashText (filePath ++ ":del:" ++ natRepr oldLine ++ ":" ++ content),
        .del, content, some oldLine, none⟩ :: res.1, res.2)
    else
      let content := if pyStartsWith line " " then pyDrop line 1 else line
      let res := parseHunkLoop env filePath (oldLine + 1) (newLine + 1) rest
      (⟨env.hashText (filePath ++ ":ctx:" ++ natRepr oldLine ++ ":" ++ natRepr newLine ++
          ":" ++ content),
        .context, content, some oldLine, some newLine⟩ :: res.1, res.2)

theorem parseHunkLoop_rest_length (env : Env) (filePath : String)
    (oldLine newLine : Nat) (ls : List String) :
    (parseHunkLoop env filePath oldLine newLine ls).2.length ≤ ls.length := by
  induction ls generalizing oldLine newLine with
  | nil => simp [parseHunkLoop]
  | cons line rest ih =>
    simp only [parseHunkLoop]
    split_ifs <;> simp <;> exact le_trans (ih _ _) (Nat.le_succ _)

/-- `_parse_hunk`: match the header, consume the body, and build the hunk.
The `stable_hunk_id` stored here is the bare content hash; the spec-modelled
occurrence disambiguation is applied per file by `assignStableOccurrences`. -/
def parseHunk (env : Env) (headerLine : String) (rest : List String)
    (filePath : String) : Except String (Hunk × List String) :=
  match hunkReMatch headerLine with
  | none => .error ("Invalid hunk header: " ++ headerLine)
  | some (o, oc, n, nc, trailRaw) =>
    let trailing := pyStrip trailRaw
    let res := parseHunkLoop env filePath o n rest
    .ok ({ hunk_id := env.hashText (hunkKey filePath o oc n nc trailing),
           stable_hunk_id := env.hashText (stableContentKey filePath res.1),
           old_start := o, old_count := oc, new_start := n, new_count := nc,
           header := trailing, lines := res.1 }, res.2)

theorem parseHunk_rest_length {env : Env} {headerLine : String} {rest : List String}
    {filePath : String} {hr : Hunk × List String}
    (h : parseHunk env headerLine rest filePath = .ok hr) :
    hr.2.length ≤ rest.length := by
  unfold parseHunk at h
  cases hmatch : hunkReMatch headerLine with
  | none => rw [hmatch] at h; exact absurd h (by simp)
  | some g =>
    obtain ⟨o, oc, n, nc, tw⟩ := g
    rw [hmatch] at h
    simp only [Except.ok.injEq] at h
    subst h
    exact parseHunkLoop_rest_length env filePath o n rest

/-- The scanning loop of `parse_unified_diff`: `cur` is the file section
being accumulated, `acc` the finished sections. -/
def parseLinesLoop (env : Env) :
    Nat → Option FilePatch → List FilePatch → List String → Except String (List FilePatch)
  | 0, cur, acc, _ => .ok (acc ++ cur.toList)
  | fuel + 1, cur, acc, [] => .ok (acc ++ cur.toList)
  | fuel + 1, cur, acc, line :: rest =>
    if pyStartsWith line "diff --git " then
      let acc' := acc ++ cur.toList
      let g := diffGitMatch line
      let op := g.map fun x => normalizePath x.1
      let np := g.map fun x => normalizePath x.2
      let defaultPath :=
        match pyOrPath np op with
        | some s => if s = "" then "unknown" else s
        | none => "unknown"
      parseLinesLoop env fuel
        (some { file_id := env.hashText defaultPath, path := defaultPath,
                old_path := op, new_path := np }) acc' rest
    else
      match cur with
      | none => parseLinesLoop env fuel none acc rest
      | some c =>
        if pyStartsWith line "new file mode " then
          parseLinesLoop env fuel (some { c with is_new := true }) acc rest
        else if pyStartsWith line "deleted file mode " then
          parseLinesLoop env fuel (some { c with is_deleted := true }) acc rest
        else if pyStartsWith line "rename from " then
          parseLinesLoop env fuel
            (some { c with is_rename := true, old_path := some (normalizePath (pyDrop line 12)) })
            acc rest
        else if pyStartsWith line "rename to " then
          parseLinesLoop env fuel
            (some { c with is_rename := true, new_path := some (normalizePath (pyDrop line 10)) })
            acc rest
        else if pyStartsWith line "Binary files " then
          parseLinesLoop env fuel (some { c with is_binary := true }) acc rest
        else if pyStartsWith line "--- " then
          parseLinesLoop env fuel
            (some { c with old_path := normalizeHeaderPath (pyDrop line 4) }) acc rest
        else if pyStartsWith line "+++ " then
          parseLinesLoop env fuel
            (some { c with new_path := normalizeHeaderPath (pyDrop line 4) }) acc rest
        else if pyStartsWith line "@@ " then
          match parseHunk env line rest c.path with
          | .error e => .error e
          | .ok hr =>
            parseLinesLoop env fuel (some { c with hunks := c.hunks ++ [hr.1] }) acc hr.2
        else parseLinesLoop env fuel cur acc rest

/-- Modelled from the spec: the occurrence-index disambiguation of stable
hunk identifiers — "the Nth hunk in file order sharing a given content hash
gets a distinguishing suffix, so duplicates remain individually addressable"
(§4.2).  The first occurrence keeps the bare content hash; the Nth duplicate
is suffixed with its occurrence index. -/
def assignStableOccurrences (seen : List String) : List Hunk → List Hunk
  | [] => []
  | h :: hs =>
    let occ := seen.count h.stable_hunk_id
    let sid := if occ = 0 then h.stable_hunk_id
               else h.stable_hunk_id ++ "#" ++ natRepr occ
    { h with stable_hunk_id := sid } :: assignStableOccurrences (h.stable_hunk_id :: seen) hs

/-- The per-file renormalization at the end of `parse_unified_diff`
(canonical path and path-derived file id), combined with the spec-modelled
stable-id occurrence pass. -/
def normalizeFilePatch (env : Env) (fp : FilePatch) : FilePatch :=
  let canonical :=
    match pyOrPath fp.new_path fp.old_path with
    | some s => if s = "" then fp.path else s
    | none => fp.path
  { fp with file_id := env.hashText canonical, path := canonical,
            hunks := assignStableOccurrences [] fp.hunks }

/-- `parse_unified_diff`. -/
def parseUnifiedDiff (env : Env) (rawPatch : String) : Except String (List FilePatch) :=
  if pyStrip rawPatch = "" then .ok []
  else
    match parseLinesLoop env (pySplitlines rawPatch).length none [] (pySplitlines rawPatch) with
    | .error e => .error e
    | .ok files => .ok (files.map (normalizeFilePatch env))

/-! ## Failure characterization of the diff parser -/

theorem pyStartsWith_head {s p : String} (h : pyStartsWith s p = true)
    (hp : p.data ≠ []) : s.data.head? = p.data.head? := by
  unfold pyStartsWith at h
  cases hpd : p.data with
  | nil => exact absurd hpd hp
  | cons c cs =>
    rw [hpd] at h
    cases hsd : s.data with
    | nil => rw [hsd] at h; simp [List.isPrefixOf] at h
    | cons a as =>
      rw [hsd] at h
      simp only [List.isPrefixOf, Bool.and_eq_true, beq_iff_eq] at h
      simp [h.1]

theorem pyStartsWith_false_of_head {s p q : String} (h : pyStartsWith s p = true)
    (hp : p.data ≠ []) (hq : q.data ≠ []) (hne : p.data.head? ≠ q.data.head?) :
    pyStartsWith s q = false := by
  by_contra hcon
  rw [Bool.not_eq_false] at hcon
  exact hne ((pyStartsWith_head h hp).symm.trans (pyStartsWith_head hcon hq))

/-- The input contains — inside a file section, i.e. after some
`diff --git` separator — a line starting with `"@@ "` that does not match
the hunk header grammar.  This predicate characterizes exactly when
`parse_unified_diff` fails. -/
def hasBadHeader : Bool → List String → Bool
  | _, [] => false
  | inFile, line :: rest =>
    if pyStartsWith line "diff --git " then hasBadHeader true rest
    else if inFile && pyStartsWith line "@@ " && (hunkReMatch line).isNone then true
    else hasBadHeader inFile rest

theorem hasBadHeader_parseHunkLoop (env : Env) (filePath : String)
    (oldLine newLine : Nat) (ls : List String) :
    hasBadHeader true (parseHunkLoop env filePath oldLine newLine ls).2 =
      hasBadHeader true ls := by
  induction ls generalizing oldLine newLine with
  | nil => rfl
  | cons line rest ih =>
    by_cases hstop : (pyStartsWith line "diff --git " || pyStartsWith line "@@ ") = true
    · rw [parseHunkLoop, if_pos hstop]
    · rw [parseHunkLoop, if_neg hstop]
      simp only [Bool.or_eq_true, not_or, Bool.not_eq_true] at hstop
      have hrhs : hasBadHeader true (line :: rest) = hasBadHeader true rest := by
        rw [hasBadHeader, if_neg (by simp [hstop.1]), if_neg (by simp [hstop.2])]
      rw [hrhs]
      split_ifs <;> exact ih _ _

theorem parseLinesLoop_isOk (env : Env) : ∀ (fuel : Nat) (ls : List String),
    ls.length ≤ fuel → ∀ (cur : Option FilePatch) (acc : List FilePatch),
    (parseLinesLoop env fuel cur acc ls).isOk = !hasBadHeader cur.isSome ls := by
  intro fuel
  induction fuel with
  | zero =>
    intro ls hle cur acc
    match ls with
    | [] => rfl
  | succ n ihn =>
    intro ls hle cur acc
    have ih : ∀ ls' : List String, ls'.length ≤ n → ∀ cur acc,
        (parseLinesLoop env n cur acc ls').isOk = !hasBadHeader cur.isSome ls' := ihn
    match ls with
    | [] => rfl
    | line :: rest =>
      by_cases hgit : pyStartsWith line "diff --git " = true
      · rw [parseLinesLoop.eq_def]
        simp only [if_pos hgit]
        rw [hasBadHeader, if_pos hgit]
        exact ih rest (by simp at hle; omega) _ _
      · rw [parseLinesLoop.eq_def]
        simp only [if_neg hgit]
        rw [hasBadHeader, if_neg hgit]
        cases cur with
        | none =>
          simp only [Option.isSome_none, Bool.false_and, Bool.false_eq_true,
            if_false]
          exact ih rest (by simp at hle; omega) none acc
        | some c =>
          simp only [Option.isSome_some, Bool.true_and]
          by_cases h1 : pyStartsWith line "new file mode " = true
          · have : pyStartsWith line "@@ " = false :=
              pyStartsWith_false_of_head h1 (by decide) (by decide) (by decide)
            rw [if_pos h1, if_neg (by simp [this])]
            exact ih rest (by simp at hle; omega) _ _
          · rw [if_neg h1]
            by_cases h2 : pyStartsWith line "deleted file mode " = true
            · have : pyStartsWith line "@@ " = false :=
                pyStartsWith_false_of_head h2 (by decide) (by decide) (by decide)
              rw [if_pos h2, if_neg (by simp [this])]
              exact ih rest (by simp at hle; omega) _ _
            · rw [if_neg h2]
              by_cases h3 : pyStartsWith line "rename from " = true
              · have : pyStartsWith line "@@ " = false :=
                  pyStartsWith_false_of_head h3 (by decide) (by decide) (by decide)
                rw [if_pos h3, if_neg (by simp [this])]
                exact ih rest (by simp at hle; omega) _ _
              · rw [if_neg h3]
                by_cases h4 : pyStartsWith line "rename to " = true
                · have : pyStartsWith line "@@ " = false :=
                    pyStartsWith_false_of_head h4 (by decide) (by decide) (by decide)
                  rw [if_pos h4, if_neg (by simp [this])]
                  exact ih rest (by simp at hle; omega) _ _
                · rw [if_neg h4]
                  by_cases h5 : pyStartsWith line "Binary files " = true
                  · have : pyStartsWith line "@@ " = false :=
                      pyStartsWith_false_of_head h5 (by decide) (by decide) (by decide)
                    rw [if_pos h5, if_neg (by simp [this])]
                    exact ih rest (by simp at hle; omega) _ _
                  · rw [if_neg h5]
                    by_cases h6 : pyStartsWith line "--- " = true
                    · have : pyStartsWith line "@@ " = false :=
                        pyStartsWith_false_of_head h6 (by decide) (by decide) (by decide)
                      rw [if_pos h6, if_neg (by simp [this])]
                      exact ih rest (by simp at hle; omega) _ _
                    · rw [if_neg h6]
                      by_cases h7 : pyStartsWith line "+++ " = true
                      · have : pyStartsWith line "@@ " = false :=
                          pyStartsWith_false_of_head h7 (by decide) (by decide) (by decide)
                        rw [if_pos h7, if_neg (by simp [this])]
                        exact ih rest (by simp at hle; omega) _ _
                      · rw [if_neg h7]
                        by_cases h8 : pyStartsWith line "@@ " = true
                        · rw [if_pos h8]
                          cases hm : hunkReMatch line with
                          | none =>
                            have herr : parseHunk env line rest c.path =
                                .error ("Invalid hunk header: " ++ line) := by
                              unfold parseHunk; rw [hm]
                            rw [herr]
                            simp [hm, h8, Except.isOk, Except.toBool]
                          | some g =>
                            obtain ⟨o, oc, n, nc, tw⟩ := g
                            have hok : parseHunk env line rest c.path = .ok
                                ({ hunk_id := env.hashText (hunkKey c.path o oc n nc (pyStrip tw)),
                                   stable_hunk_id := env.hashText (stableContentKey c.path
                                     (parseHunkLoop env c.path o n rest).1),
                                   old_start := o, old_count := oc, new_start := n,
                                   new_count := nc, header := pyStrip tw,
                                   lines := (parseHunkLoop env c.path o n rest).1 },
                                 (parseHunkLoop env c.path o n rest).2) := by
                              unfold parseHunk; rw [hm]
                            rw [hok]
                            have hlen := parseHunkLoop_rest_length env c.path o n rest
                            rw [ih ((parseHunkLoop env c.path o n rest).2)
                              (by simp at hle; omega) _ _]
                            simp only [hm, Option.isNone_some, Bool.and_false,
                              Bool.false_eq_true, if_false, Option.isSome_some]
                            rw [hasBadHeader_parseHunkLoop]
                        · rw [if_neg h8, if_neg (by simp [h8])]
                          exact ih rest (by simp at hle; omega) _ _

theorem except_error_exists {α β : Type} (x : Except α β) :
    (∃ e, x = .error e) ↔ x.isOk = false := by
  cases x <;> simp [Except.isOk, Except.toBool]

theorem hasBadHeader_true_iff (ls : List String) :
    hasBadHeader true ls = true ↔
      ∃ pre l post, ls = pre ++ l :: post ∧ pyStartsWith l "@@ " = true ∧
        hunkReMatch l = none := by
  induction ls with
  | nil =>
    simp only [hasBadHeader, Bool.false_eq_true, false_iff]
    rintro ⟨pre, l, post, heq, -⟩
    exact absurd heq (by simp)
  | cons line rest ih =>
    rw [hasBadHeader]
    by_cases hgit : pyStartsWith line "diff --git " = true
    · rw [if_pos hgit, ih]
      constructor
      · rintro ⟨pre, l, post, heq, hat, hm⟩
        exact ⟨line :: pre, l, post, by simp [heq], hat, hm⟩
      · rintro ⟨pre, l, post, heq, hat, hm⟩
        cases pre with
        | nil =>
          simp only [List.nil_append, List.cons.injEq] at heq
          have hfalse : pyStartsWith line "@@ " = false :=
            pyStartsWith_false_of_head hgit (by decide) (by decide) (by decide)
          rw [heq.1] at hfalse
          rw [hat] at hfalse
          exact absurd hfalse (by simp)
        | cons p pre' =>
          simp only [List.cons_append, List.cons.injEq] at heq
          exact ⟨pre', l, post, heq.2, hat, hm⟩
    · rw [if_neg hgit]
      by_cases hbad : (true && pyStartsWith line "@@ " && (hunkReMatch line).isNone) = true
      · rw [if_pos hbad]
        simp only [Bool.true_and, Bool.and_eq_true, Option.isNone_iff_eq_none] at hbad
        simp only [true_iff]
        exact ⟨[], line, rest, rfl, hbad.1, hbad.2⟩
      · rw [if_neg hbad, ih]
        simp only [Bool.true_and, Bool.and_eq_true, Option.isNone_iff_eq_none,
          not_and] at hbad
        constructor
        · rintro ⟨pre, l, post, heq, hat, hm⟩
          exact ⟨line :: pre, l, post, by simp [heq], hat, hm⟩
        · rintro ⟨pre, l, post, heq, hat, hm⟩
          cases pre with
          | nil =>
            simp only [List.nil_append, List.cons.injEq] at heq
            exact absurd (heq.1 ▸ hm) (hbad (heq.1 ▸ hat))
          | cons p pre' =>
            simp only [List.cons_append, List.cons.injEq] at heq
            exact ⟨pre', l, post, heq.2, hat, hm⟩

theorem hasBadHeader_false_iff (ls : List String) :
    hasBadHeader false ls = true ↔
      ∃ pre d mid l post, ls = pre ++ d :: (mid ++ l :: post) ∧
        pyStartsWith d "diff --git " = true ∧ pyStartsWith l "@@ " = true ∧
        hunkReMatch l = none := by
  induction ls with
  | nil =>
    simp only [hasBadHeader, Bool.false_eq_true, false_iff]
    rintro ⟨pre, d, mid, l, post, heq, -⟩
    exact absurd heq (by simp)
  | cons line rest ih =>
    rw [hasBadHeader]
    by_cases hgit : pyStartsWith line "diff --git " = true
    · rw [if_pos hgit, hasBadHeader_true_iff]
      constructor
      · rintro ⟨pre, l, post, heq, hat, hm⟩
        exact ⟨[], line, pre, l, post, by simp [heq], hgit, hat, hm⟩
      · rintro ⟨pre, d, mid, l, post, heq, hd, hat, hm⟩
        cases pre with
        | nil =>
          simp only [List.nil_append, List.cons.injEq] at heq
          exact ⟨mid, l, post, heq.2, hat, hm⟩
        | cons p pre' =>
          simp only [List.cons_append, List.cons.injEq] at heq
          exact ⟨pre' ++ d :: mid, l, post, by simp [heq.2], hat, hm⟩
    · rw [if_neg hgit]
      have hcond : (false && pyStartsWith line "@@ " && (hunkReMatch line).isNone) = false := by
        simp
      rw [hcond, if_neg (by simp), ih]
      constructor
      · rintro ⟨pre, d, mid, l, post, heq, hd, hat, hm⟩
        exact ⟨line :: pre, d, mid, l, post, by simp [heq], hd, hat, hm⟩
      · rintro ⟨pre, d, mid, l, post, heq, hd, hat, hm⟩
        cases pre with
        | nil =>
          simp only [List.nil_append, List.cons.injEq] at heq
          rw [heq.1] at hgit
          exact absurd hd hgit
        | cons p pre' =>
          simp only [List.cons_append, List.cons.injEq] at heq
          exact ⟨pre', d, mid, l, post, heq.2, hd, hat, hm⟩

theorem pyStrip_eq_empty_iff (s : String) :
    pyStrip s = "" ↔ ∀ c ∈ s.data, isPySpace c = true := by
  rw [string_eq_iff_data]
  show (((s.data.dropWhile isPySpace).reverse.dropWhile isPySpace).reverse) = [] ↔ _
  rw [List.reverse_eq_nil_iff, List.dropWhile_eq_nil_iff]
  constructor
  · intro h c hc
    rcases List.mem_append.mp
        ((List.takeWhile_append_dropWhile (p := isPySpace) (l := s.data)) ▸ hc) with
      h1 | h1
    · exact List.mem_takeWhile_imp h1
    · exact h c (by simpa using h1)
  · intro h c hc
    exact h c ((List.dropWhile_sublist (l := s.data) (p := isPySpace)).mem
      (by simpa using hc))

theorem mem_splitlinesAux_mem {fuel : Nat} {cs b l : List Char}
    (hfuel : cs.length ≤ fuel)
    (hl : l ∈ splitlinesAux fuel cs b) {c : Char} (hc : c ∈ l) :
    c ∈ cs ∨ c ∈ b := by
  induction fuel generalizing cs b with
  | zero =>
    match cs with
    | [] =>
      rw [splitlinesAux] at hl
      split_ifs at hl with hac
      · simp at hl
      · simp only [List.mem_singleton] at hl
        exact Or.inr (List.mem_reverse.mp (hl ▸ hc))
  | succ fuel ihn =>
    match cs with
    | [] =>
      rw [splitlinesAux] at hl
      split_ifs at hl with hac
      · simp at hl
      · simp only [List.mem_singleton] at hl
        exact Or.inr (List.mem_reverse.mp (hl ▸ hc))
    | a :: rest =>
      have hr : rest.length ≤ fuel := by simp at hfuel; omega
      rw [splitlinesAux] at hl
      split_ifs at hl with h1 h2 h3
      · rcases List.mem_cons.mp hl with h | h
        · exact Or.inr (List.mem_reverse.mp (h ▸ hc))
        · rcases ihn (b := []) hr h with h4 | h4
          · exact Or.inl (by simp [h4])
          · simp at h4
      · rcases List.mem_cons.mp hl with h | h
        · exact Or.inr (List.mem_reverse.mp (h ▸ hc))
        · have htl : rest.tail.length ≤ fuel := by
            have : rest.tail.length ≤ rest.length := by cases rest <;> simp
            omega
          rcases ihn (b := []) htl h with h4 | h4
          · exact Or.inl (by simp [List.mem_of_mem_tail h4])
          · simp at h4
      · rcases List.mem_cons.mp hl with h | h
        · exact Or.inr (List.mem_reverse.mp (h ▸ hc))
        · rcases ihn (b := []) hr h with h4 | h4
          · exact Or.inl (by simp [h4])
          · simp at h4
      · rcases ihn (b := a :: b) hr hl with h4 | h4
        · exact Or.inl (by simp [h4])
        · rcases List.mem_cons.mp h4 with h | h
          · exact Or.inl (by simp [h])
          · exact Or.inr h

/-- A concrete environment used by witness theorems: an injective and
never-empty hash, a fixed diff source, no glob matches, a failing JSON
parser. -/
def envW : Env where
  hashText s := "#" ++ s
  collectPatch _ := .ok ""
  fnmatchcase _ _ := false
  jsonParse _ := .error "Expecting value"
  posixStr s := s
  jsonDumpsSorted _ := "\x7b\x7d"

/-- C4: `parse_unified_diff` returns the empty list for blank
(whitespace-only) input, and it fails if and only if the input contains,
inside a file section (i.e. after some `diff --git` separator line), a line
starting with `"@@ "` that does not match the hunk-header grammar; every
other malformed input is handled without failure and parsing returns a
`FilePatch` list. -/
theorem parse_blank_and_failure_iff_bad_hunk_header (env : Env) (raw : String) :
    (pyStrip raw = "" → parseUnifiedDiff env raw = .ok []) ∧
    ((∃ e, parseUnifiedDiff env raw = .error e) ↔
      ∃ pre d mid l post, pySplitlines raw = pre ++ d :: (mid ++ l :: post) ∧
        pyStartsWith d "diff --git " = true ∧ pyStartsWith l "@@ " = true ∧
        hunkReMatch l = none) := by
  constructor
  · intro h
    rw [parseUnifiedDiff, if_pos h]
  · by_cases hblank : pyStrip raw = ""
    · constructor
      · rintro ⟨e, he⟩
        rw [parseUnifiedDiff, if_pos hblank] at he
        exact absurd he (by simp)
      · rintro ⟨pre, d, mid, l, post, heq, hd, -, -⟩
        exfalso
        have hdmem : d ∈ pySplitlines raw := by rw [heq]; simp
        obtain ⟨cs, hcs, hdef⟩ := List.mem_map.mp hdmem
        have hhead : d.data.head? = some 'd' :=
          (pyStartsWith_head hd (by decide)).trans rfl
        have hdd : 'd' ∈ d.data := by
          cases hcase : d.data with
          | nil => rw [hcase] at hhead; exact absurd hhead (by simp)
          | cons c0 ctl =>
            rw [hcase] at hhead
            simp only [List.head?_cons, Option.some.injEq] at hhead
            rw [hhead]
            exact List.mem_cons_self _ _
        have hmem : 'd' ∈ raw.data ∨ 'd' ∈ ([] : List Char) := by
          refine mem_splitlinesAux_mem le_rfl hcs ?_
          have : d.data = cs := by rw [← hdef]
          rwa [this] at hdd
        have hspace := (pyStrip_eq_empty_iff raw).mp hblank 'd' (by simpa using hmem)
        exact absurd hspace (by decide)
    · have hiso := parseLinesLoop_isOk env (pySplitlines raw).length
        (pySplitlines raw) le_rfl none []
      cases hplr : parseLinesLoop env (pySplitlines raw).length none []
          (pySplitlines raw) with
      | error e =>
        rw [hplr] at hiso
        have hbad : hasBadHeader false (pySplitlines raw) = true := by
          by_contra hcon
          rw [Bool.not_eq_true] at hcon
          rw [show (Option.none : Option FilePatch).isSome = false from rfl, hcon] at hiso
          exact absurd hiso (by simp [Except.isOk, Except.toBool])
        constructor
        · intro _
          exact (hasBadHeader_false_iff _).mp hbad
        · intro _
          refine ⟨e, ?_⟩
          rw [parseUnifiedDiff, if_neg hblank, hplr]
      | ok fs =>
        rw [hplr] at hiso
        have hgood : hasBadHeader false (pySplitlines raw) = false := by
          by_contra hcon
          rw [Bool.not_eq_false] at hcon
          rw [show (Option.none : Option FilePatch).isSome = false from rfl, hcon] at hiso
          exact absurd hiso (by simp [Except.isOk, Except.toBool])
        constructor
        · rintro ⟨e, he⟩
          rw [parseUnifiedDiff, if_neg hblank, hplr] at he
          exact absurd he (by simp)
        · intro hr
          rw [(hasBadHeader_false_iff _).mpr hr] at hgood
          exact absurd hgood (by simp)

/-- Witness for C4: blank input parses to the empty list; a malformed hunk
header inside a file section is a hard parse error. -/
theorem parse_blank_and_failure_iff_bad_hunk_header_witness :
    parseUnifiedDiff envW " \n\t " = .ok [] ∧
    (∃ e, parseUnifiedDiff envW "diff --git a/x b/x\n@@ bad\n" = .error e) :=
  ⟨(parse_blank_and_failure_iff_bad_hunk_header envW " \n\t ").1 (by decide),
   (parse_blank_and_failure_iff_bad_hunk_header envW
       "diff --git a/x b/x\n@@ bad\n").2.mpr
     ⟨[], "diff --git a/x b/x", [], "@@ bad", [], by decide, by decide, by decide, rfl⟩⟩

/-! ## Parsing synthetic single-file diffs

Infrastructure for the stable-identity properties: a diff text is built from
a path, hunk headers and a typed hunk body, and its parse is computed in
closed form. -/

theorem pyStartsWith_append (a b : String) : pyStartsWith (a ++ b) a = true := by
  rw [pyStartsWith, List.isPrefixOf_iff_prefix, string_data_append]
  exact List.prefix_append a.data b.data

theorem pyStartsWith_false_of_ne_head {s q : String} {a b : Char}
    (hs : s.data.head? = some a) (hq : q.data.head? = some b) (hne : a ≠ b) :
    pyStartsWith s q = false := by
  by_contra hcon
  rw [Bool.not_eq_false] at hcon
  have := pyStartsWith_head hcon (by intro h; rw [h] at hq; exact absurd hq (by simp))
  rw [hs, hq] at this
  exact hne (Option.some.inj this)

theorem takeWhile_append_stop {p : Char → Bool} {xs : List Char} {y : Char}
    (ys : List Char) (hxs : ∀ x ∈ xs, p x = true) (hy : p y = false) :
    (xs ++ y :: ys).takeWhile p = xs := by
  induction xs with
  | nil => simp [List.takeWhile, hy]
  | cons x xs ih =>
    rw [List.cons_append, List.takeWhile_cons, hxs x (by simp), if_pos rfl,
      ih (fun x hx => hxs x (by simp [hx]))]

theorem dropWhile_append_stop {p : Char → Bool} {xs : List Char} {y : Char}
    (ys : List Char) (hxs : ∀ x ∈ xs, p x = true) (hy : p y = false) :
    (xs ++ y :: ys).dropWhile p = y :: ys := by
  induction xs with
  | nil => simp [List.dropWhile, hy]
  | cons x xs ih =>
    rw [List.cons_append, List.dropWhile_cons, hxs x (by simp), if_pos rfl]
    exact ih (fun x hx => hxs x (by simp [hx]))

theorem dropWhile_eq_self_of_all_false {p : Char → Bool} {l : List Char}
    (h : ∀ c ∈ l, p c = false) : l.dropWhile p = l := by
  cases l with
  | nil => rfl
  | cons x xs => rw [List.dropWhile_cons, h x (by simp)]; simp

theorem takeWhile_eq_self_of_all_true {p : Char → Bool} {l : List Char}
    (h : ∀ c ∈ l, p c = true) : l.takeWhile p = l := by
  induction l with
  | nil => rfl
  | cons x xs ih =>
    rw [List.takeWhile_cons, h x (by simp), if_pos rfl,
      ih (fun c hc => h c (by simp [hc]))]

theorem pyStrip_eq_self_of_no_space {s : String}
    (h : ∀ c ∈ s.data, isPySpace c = false) : pyStrip s = s := by
  rw [pyStrip, string_eq_iff_data]
  show ((s.data.dropWhile isPySpace).reverse.dropWhile isPySpace).reverse = s.data
  rw [dropWhile_eq_self_of_all_false h,
    dropWhile_eq_self_of_all_false (fun c hc => h c (by simpa using hc)),
    List.reverse_reverse]

theorem natRepr_no_newline {n : Nat} {c : Char} (h : c ∈ (natRepr n).data) :
    c ≠ '\n' ∧ c ≠ '\r' := by
  have hd := mem_natRepr_digit h
  constructor <;> intro hrfl <;> rw [hrfl] at hd <;> exact absurd hd (by decide)

theorem natRepr_not_colon {n : Nat} {c : Char} (h : c ∈ (natRepr n).data) :
    c ≠ ':' := by
  have hd := mem_natRepr_digit h
  intro hrfl; rw [hrfl] at hd; exact absurd hd (by decide)

theorem splitLastSep_none {cs : List Char} (h : ' ' ∉ cs) : splitLastSep cs = none := by
  induction cs with
  | nil => rfl
  | cons c rest ih =>
    rw [splitLastSep, ih (fun hmem => h (by simp [hmem]))]
    have hc : c ≠ ' ' := fun hrfl => h (by simp [hrfl])
    simp only [if_neg hc]

theorem splitLastSep_mid {p : String} (hsp : ' ' ∉ p.data) (hne : p.data ≠ []) :
    splitLastSep (p.data ++ ' ' :: 'b' :: '/' :: p.data) = some (p.data, p.data) := by
  suffices H : ∀ (xs tail : List Char), ' ' ∉ xs → ' ' ∉ tail → tail ≠ [] →
      splitLastSep (xs ++ ' ' :: 'b' :: '/' :: tail) = some (xs, tail) from
    H p.data p.data hsp hsp hne
  intro xs tail hxs htail hne
  induction xs with
  | nil =>
    rw [List.nil_append, splitLastSep,
      splitLastSep_none (by
        intro hmem
        simp only [List.mem_cons] at hmem
        rcases hmem with h | h | h
        · exact absurd h.symm (by decide)
        · exact absurd h.symm (by decide)
        · exact htail h)]
    cases tail with
    | nil => exact absurd rfl hne
    | cons t ts => simp
  | cons x xs ih =>
    have hx : x ≠ ' ' := fun hrfl => hxs (by simp [hrfl])
    rw [List.cons_append, splitLastSep,
      ih (fun hmem => hxs (by simp [hmem]))]

/-- Render one typed hunk-body line with its diff marker. -/
def renderDiffLine : LineType × String → String
  | (.context, c) => " " ++ c
  | (.add, c) => "+" ++ c
  | (.del, c) => "-" ++ c

/-- One hunk of a synthetic diff: the four `@@` header numbers, the header
trailer and the typed body. -/
structure HunkSpec where
  o : Nat
  oc : Nat
  n : Nat
  nc : Nat
  tr : String
  body : List (LineType × String)

/-- The `@@ -o,oc +n,nc @@tr` header line. -/
def buildHunkHeader (o oc n nc : Nat) (tr : String) : String :=
  "@@ -" ++ natRepr o ++ "," ++ natRepr oc ++ " +" ++ natRepr n ++ "," ++
    natRepr nc ++ " @@" ++ tr

/-- The lines of one hunk section. -/
def hunkSectionLines (hs : HunkSpec) : List String :=
  buildHunkHeader hs.o hs.oc hs.n hs.nc hs.tr :: hs.body.map renderDiffLine

/-- A synthetic single-file unified diff wrapping the given hunk sections. -/
def buildDiffText (p : String) (sections : List HunkSpec) : String :=
  joinLines (("diff --git a/" ++ (p ++ " b/" ++ p)) :: ("--- " ++ ("a/" ++ p)) ::
    ("+++ " ++ ("b/" ++ p)) :: (sections.map hunkSectionLines).join)

/-- A path free of whitespace, quotes and `a/`-style prefixes, so that the
parser returns it verbatim. -/
def PathSafe (p : String) : Prop :=
  p ≠ "" ∧ (∀ c ∈ p.data, isPySpace c = false ∧ c ≠ '"') ∧
    pyStartsWith p "a/" = false ∧ pyStartsWith p "b/" = false

instance (p : String) : Decidable (PathSafe p) := by
  unfold PathSafe; infer_instance

/-- Safety of one hunk section: its trailer and body survive line splitting. -/
def HunkSpecSafe (hs : HunkSpec) : Prop :=
  LineSafe hs.tr ∧ ∀ x ∈ hs.body, LineSafe x.2

instance (hs : HunkSpec) : Decidable (HunkSpecSafe hs) := by
  unfold HunkSpecSafe; infer_instance

theorem parseNumPair_comma (a b : Nat) {z : Char} (hz : z.isDigit = false)
    (zs : List Char) :
    parseNumPair ((natRepr a).data ++ ',' :: ((natRepr b).data ++ z :: zs)) =
      some (a, b, z :: zs) := by
  rw [parseNumPair]
  rw [takeWhile_append_stop _ (fun x hx => mem_natRepr_digit hx) (by decide)]
  rw [dropWhile_append_stop _ (fun x hx => mem_natRepr_digit hx) (by decide)]
  rw [if_neg (by simpa [List.isEmpty_iff] using natRepr_ne_nil a)]
  simp only []
  rw [takeWhile_append_stop _ (fun x hx => mem_natRepr_digit hx) hz]
  rw [dropWhile_append_stop _ (fun x hx => mem_natRepr_digit hx) hz]
  rw [if_neg (by simpa [List.isEmpty_iff] using natRepr_ne_nil b)]
  rw [digitsToNat_natRepr, digitsToNat_natRepr]

theorem hunkReMatch_build (o oc n nc : Nat) (tr : String) :
    hunkReMatch (buildHunkHeader o oc n nc tr) = some (o, oc, n, nc, tr) := by
  have hdata : (buildHunkHeader o oc n nc tr).data =
      '@' :: '@' :: ' ' :: '-' ::
        ((natRepr o).data ++ ',' :: ((natRepr oc).data ++ ' ' :: '+' ::
          ((natRepr n).data ++ ',' :: ((natRepr nc).data ++ ' ' :: '@' :: '@' ::
            tr.data)))) := by
    have h1 : ("@@ -" : String).data = ['@', '@', ' ', '-'] := rfl
    have h2 : ("," : String).data = [','] := rfl
    have h3 : (" +" : String).data = [' ', '+'] := rfl
    have h4 : (" @@" : String).data = [' ', '@', '@'] := rfl
    simp [buildHunkHeader, string_data_append, h1, h2, h3, h4]
  rw [hunkReMatch, hdata]
  simp [parseNumPair_comma o oc (z := ' ') (by decide),
    parseNumPair_comma n nc (z := ' ') (by decide)]

theorem splitlinesAux_fuel_irrel : ∀ (fuel₁ fuel₂ : Nat) (cs acc : List Char),
    cs.length ≤ fuel₁ → cs.length ≤ fuel₂ →
    splitlinesAux fuel₁ cs acc = splitlinesAux fuel₂ cs acc := by
  intro fuel₁
  induction fuel₁ with
  | zero =>
    intro fuel₂ cs acc h₁ h₂
    match cs with
    | [] =>
      cases fuel₂ with
      | zero => rfl
      | succ f => rfl
  | succ f₁ ih =>
    intro fuel₂ cs acc h₁ h₂
    match cs with
    | [] =>
      cases fuel₂ with
      | zero => rfl
      | succ f => rfl
    | c :: rest =>
      match fuel₂, h₂ with
      | f₂ + 1, h₂ =>
        have hr : rest.length ≤ f₁ := by simp at h₁; omega
        have hr₂ : rest.length ≤ f₂ := by simp at h₂; omega
        have htl : rest.tail.length ≤ rest.length := by cases rest <;> simp
        rw [splitlinesAux, splitlinesAux]
        split_ifs
        · rw [ih f₂ rest [] hr hr₂]
        · rw [ih f₂ rest.tail [] (by omega) (by omega)]
        · rw [ih f₂ rest [] hr hr₂]
        · rw [ih f₂ rest (c :: acc) hr hr₂]

theorem splitlinesAux_safe_line (cs rest acc : List Char)
    (hsafe : ∀ c ∈ cs, c ≠ '\n' ∧ c ≠ '\r') :
    ∀ fuel, (cs ++ '\n' :: rest).length ≤ fuel →
    splitlinesAux fuel (cs ++ '\n' :: rest) acc =
      (acc.reverse ++ cs) :: splitlinesAux rest.length rest [] := by
  induction cs generalizing acc with
  | nil =>
    intro fuel hfuel
    match fuel, hfuel with
    | f + 1, hfuel =>
      rw [List.nil_append, splitlinesAux, if_pos rfl]
      rw [splitlinesAux_fuel_irrel f rest.length rest [] (by simp at hfuel; omega) le_rfl]
      simp
  | cons c cs' ih =>
    intro fuel hfuel
    match fuel, hfuel with
    | f + 1, hfuel =>
      have hc := hsafe c (by simp)
      rw [List.cons_append, splitlinesAux, if_neg hc.1, if_neg hc.2]
      rw [ih (c :: acc) (fun x hx => hsafe x (by simp [hx])) f (by simp at hfuel ⊢; omega)]
      simp

theorem joinLines_cons_data (l : String) (rest : List String) :
    (joinLines (l :: rest)).data = l.data ++ '\n' :: (joinLines rest).data := by
  show (l ++ "\n" ++ joinLines rest).data = _
  simp [string_data_append]

theorem pySplitlines_joinLines (ls : List String) (h : ∀ l ∈ ls, LineSafe l) :
    pySplitlines (joinLines ls) = ls := by
  induction ls with
  | nil => rfl
  | cons l rest ih =>
    rw [pySplitlines]
    rw [joinLines_cons_data]
    rw [splitlinesAux_safe_line l.data (joinLines rest).data []
      (h l (by simp)) _ le_rfl]
    simp only [List.reverse_nil, List.nil_append, List.map_cons]
    rw [show (⟨l.data⟩ : String) = l from rfl]
    rw [show ((splitlinesAux (joinLines rest).data.length (joinLines rest).data []).map
      fun cs => (⟨cs⟩ : String)) = pySplitlines (joinLines rest) from rfl]
    rw [ih (fun x hx => h x (by simp [hx]))]

theorem pathSafe_no_space {p : String} (hp : PathSafe p) :
    ∀ c ∈ p.data, isPySpace c = false := fun c hc => (hp.2.1 c hc).1

theorem pathSafe_head {p : String} (hp : PathSafe p) :
    ∃ c cs, p.data = c :: cs ∧ c ≠ '"' ∧ isPySpace c = false := by
  cases hpd : p.data with
  | nil => exact absurd (string_eq_iff_data.mpr (by simp [hpd])) hp.1
  | cons c cs =>
    exact ⟨c, cs, rfl, (hp.2.1 c (by simp [hpd])).2, (hp.2.1 c (by simp [hpd])).1⟩

theorem pathSafe_quote_false {p : String} (hp : PathSafe p) :
    pyStartsWith p "\"" = false := by
  obtain ⟨c, cs, hpd, hne, -⟩ := pathSafe_head hp
  exact pyStartsWith_false_of_ne_head (by simp [hpd]) rfl hne

theorem normalizePath_safe (p : String) (hp : PathSafe p) : normalizePath p = p := by
  rw [normalizePath, pyStrip_eq_self_of_no_space (pathSafe_no_space hp)]
  rw [pathSafe_quote_false hp]
  simp only [Bool.false_and, Bool.false_eq_true, if_false]
  rw [hp.2.2.1, hp.2.2.2]
  simp

theorem data_a_slash (p : String) : ("a/" ++ p).data = 'a' :: '/' :: p.data := by
  simp [string_data_append, show ("a/" : String).data = ['a', '/'] from rfl]

theorem data_b_slash (p : String) : ("b/" ++ p).data = 'b' :: '/' :: p.data := by
  simp [string_data_append, show ("b/" : String).data = ['b', '/'] from rfl]

theorem no_space_a_slash {p : String} (hp : PathSafe p) :
    ∀ c ∈ ("a/" ++ p).data, isPySpace c = false := by
  rw [data_a_slash]
  intro c hc
  rcases List.mem_cons.mp hc with h | h
  · rw [h]; decide
  · rcases List.mem_cons.mp h with h | h
    · rw [h]; decide
    · exact pathSafe_no_space hp c h

theorem no_space_b_slash {p : String} (hp : PathSafe p) :
    ∀ c ∈ ("b/" ++ p).data, isPySpace c = false := by
  rw [data_b_slash]
  intro c hc
  rcases List.mem_cons.mp hc with h | h
  · rw [h]; decide
  · rcases List.mem_cons.mp h with h | h
    · rw [h]; decide
    · exact pathSafe_no_space hp c h

theorem normalizePath_a_slash (p : String) (hp : PathSafe p) :
    normalizePath ("a/" ++ p) = p := by
  rw [normalizePath, pyStrip_eq_self_of_no_space (no_space_a_slash hp)]
  rw [pyStartsWith_false_of_ne_head (s := "a/" ++ p) (q := "\"") (a := 'a') (b := '"')
    (by rw [data_a_slash]; rfl) rfl (by decide)]
  simp only [Bool.false_and, Bool.false_eq_true, if_false]
  rw [pyStartsWith_append]
  simp only [Bool.true_or, if_true]
  rw [pyDrop, data_a_slash]
  rfl

theorem normalizePath_b_slash (p : String) (hp : PathSafe p) :
    normalizePath ("b/" ++ p) = p := by
  rw [normalizePath, pyStrip_eq_self_of_no_space (no_space_b_slash hp)]
  rw [pyStartsWith_false_of_ne_head (s := "b/" ++ p) (q := "\"") (a := 'b') (b := '"')
    (by rw [data_b_slash]; rfl) rfl (by decide)]
  simp only [Bool.false_and, Bool.false_eq_true, if_false]
  rw [pyStartsWith_append]
  simp only [Bool.or_true, if_true]
  rw [pyDrop, data_b_slash]
  rfl

theorem beforeTab_eq_self {s : String} (h : ∀ c ∈ s.data, isPySpace c = false ∨ c ≠ '\t') :
    beforeTab s = s := by
  rw [beforeTab, string_eq_iff_data]
  refine takeWhile_eq_self_of_all_true (fun c hc => decide_eq_true ?_)
  rcases h c hc with h1 | h1
  · intro hrfl; rw [hrfl] at h1; exact absurd h1 (by decide)
  · exact h1

theorem normalizeHeaderPath_a_slash (p : String) (hp : PathSafe p) :
    normalizeHeaderPath ("a/" ++ p) = some p := by
  rw [normalizeHeaderPath, pyStrip_eq_self_of_no_space (no_space_a_slash hp)]
  rw [beforeTab_eq_self (fun c hc => Or.inl (no_space_a_slash hp c hc))]
  rw [if_neg (by
    intro hdev
    have := string_eq_iff_data.mp hdev
    rw [data_a_slash] at this
    simp at this)]
  rw [normalizePath_a_slash p hp]

theorem normalizeHeaderPath_b_slash (p : String) (hp : PathSafe p) :
    normalizeHeaderPath ("b/" ++ p) = some p := by
  rw [normalizeHeaderPath, pyStrip_eq_self_of_no_space (no_space_b_slash hp)]
  rw [beforeTab_eq_self (fun c hc => Or.inl (no_space_b_slash hp c hc))]
  rw [if_neg (by
    intro hdev
    have := string_eq_iff_data.mp hdev
    rw [data_b_slash] at this
    simp at this)]
  rw [normalizePath_b_slash p hp]

theorem diffGitMatch_build (p : String) (hp : PathSafe p) :
    diffGitMatch ("diff --git a/" ++ (p ++ " b/" ++ p)) = some (p, p) := by
  have hnospace : ' ' ∉ p.data := by
    intro hmem
    have := pathSafe_no_space hp ' ' hmem
    exact absurd this (by decide)
  have hne : p.data ≠ [] := by
    obtain ⟨c, cs, hpd, -⟩ := pathSafe_head hp
    simp [hpd]
  rw [diffGitMatch, if_pos (pyStartsWith_append _ _)]
  have hdrop : (pyDrop ("diff --git a/" ++ (p ++ " b/" ++ p)) 13).data =
      p.data ++ ' ' :: 'b' :: '/' :: p.data := by
    rw [pyDrop]
    show (("diff --git a/" ++ (p ++ " b/" ++ p)).data.drop 13) = _
    rw [string_data_append]
    rw [show (13 : Nat) = ("diff --git a/" : String).data.length from rfl,
      List.drop_left]
    rw [string_data_append, string_data_append]
    simp [show (" b/" : String).data = [' ', 'b', '/'] from rfl]
  rw [hdrop, splitLastSep_mid hnospace hne]
  simp only []
  rw [if_neg (by simpa [List.isEmpty_iff] using hne)]

theorem renderDiffLine_head (x : LineType × String) :
    (renderDiffLine x).data.head? = some ' ' ∨ (renderDiffLine x).data.head? = some '+' ∨
      (renderDiffLine x).data.head? = some '-' := by
  obtain ⟨k, c⟩ := x
  cases k with
  | context =>
    left
    show ((" " ++ c : String)).data.head? = _
    rw [string_data_append]; rfl
  | add =>
    right; left
    show (("+" ++ c : String)).data.head? = _
    rw [string_data_append]; rfl
  | del =>
    right; right
    show (("-" ++ c : String)).data.head? = _
    rw [string_data_append]; rfl

theorem renderDiffLine_not_stop (x : LineType × String) :
    (pyStartsWith (renderDiffLine x) "diff --git " ||
      pyStartsWith (renderDiffLine x) "@@ ") = false ∧
    pyStartsWith (renderDiffLine x) "\\ No newline at end of file" = false := by
  rcases renderDiffLine_head x with h | h | h <;>
    exact ⟨by
      rw [pyStartsWith_false_of_ne_head (q := "diff --git ") (b := 'd') h rfl (by decide),
        pyStartsWith_false_of_ne_head (q := "@@ ") (b := '@') h rfl (by decide)]
      rfl,
      pyStartsWith_false_of_ne_head (q := "\\ No newline at end of file") (b := '\\')
        h rfl (by decide)⟩

/-- The tail following a hunk body in a synthetic diff: empty, or a further
section starting with a file separator or another hunk header. -/
def IsSectionStop (rest : List String) : Prop :=
  rest = [] ∨ ∃ l rs, rest = l :: rs ∧
    (pyStartsWith l "diff --git " || pyStartsWith l "@@ ") = true

theorem parseHunkLoop_rendered (env : Env) (p : String)
    (body : List (LineType × String)) (rest : List String)
    (hstop : IsSectionStop rest) : ∀ o n,
    parseHunkLoop env p o n (body.map renderDiffLine ++ rest) =
      ((parseHunkLoop env p o n (body.map renderDiffLine)).1, rest) := by
  induction body with
  | nil =>
    intro o n
    rcases hstop with h | ⟨l, rs, h, hcond⟩
    · subst h; rfl
    · subst h
      rw [List.map_nil, List.nil_append]
      conv_lhs => rw [parseHunkLoop]
      rw [if_pos hcond]
      rfl
  | cons x body' ih =>
    intro o n
    have hs := renderDiffLine_not_stop x
    rw [List.map_cons, List.cons_append, parseHunkLoop, if_neg (by simp [hs.1]),
      if_neg (by simp [hs.2])]
    conv_rhs => rw [parseHunkLoop, if_neg (by simp [hs.1]), if_neg (by simp [hs.2])]
    split_ifs <;> simp only [ih]

theorem parseHunkLoop_counters_proj (env : Env) (p : String) (ls : List String) :
    ∀ o n o' n',
    (parseHunkLoop env p o n ls).1.map (fun l => (l.line_type, l.content)) =
      (parseHunkLoop env p o' n' ls).1.map (fun l => (l.line_type, l.content)) := by
  induction ls with
  | nil => intro o n o' n'; rfl
  | cons line rest ih =>
    intro o n o' n'
    rw [parseHunkLoop]
    conv_rhs => rw [parseHunkLoop]
    split_ifs
    · rfl
    · exact ih o n o' n'
    · simp only [List.map_cons, List.cons.injEq]
      exact ⟨trivial, ih o (n + 1) o' (n' + 1)⟩
    · simp only [List.map_cons, List.cons.injEq]
      exact ⟨trivial, ih (o + 1) n (o' + 1) n'⟩
    · simp only [List.map_cons, List.cons.injEq]
      exact ⟨trivial, ih (o + 1) (n + 1) (o' + 1) (n' + 1)⟩
    · simp only [List.map_cons, List.cons.injEq]
      exact ⟨trivial, ih (o + 1) (n + 1) (o' + 1) (n' + 1)⟩

/-! ## A closed form for parsing synthetic single-file diffs -/

theorem pyDrop_append (a s : String) : pyDrop (a ++ s) a.data.length = s := by
  rw [pyDrop, string_data_append, List.drop_left]

theorem lineSafe_append {a b : String} (ha : LineSafe a) (hb : LineSafe b) :
    LineSafe (a ++ b) := by
  intro c hc
  rw [string_data_append] at hc
  rcases List.mem_append.mp hc with h | h
  · exact ha c h
  · exact hb c h

theorem lineSafe_of_pathSafe {p : String} (hp : PathSafe p) : LineSafe p := by
  intro c hc
  have h := (hp.2.1 c hc).1
  constructor <;> intro e <;> rw [e] at h <;> exact absurd h (by decide)

theorem buildHunkHeader_data (o oc n nc : Nat) (tr : String) :
    (buildHunkHeader o oc n nc tr).data =
      '@' :: '@' :: ' ' :: '-' ::
        ((natRepr o).data ++ ',' :: ((natRepr oc).data ++ ' ' :: '+' ::
          ((natRepr n).data ++ ',' :: ((natRepr nc).data ++ ' ' :: '@' :: '@' ::
            tr.data)))) := by
  have h1 : ("@@ -" : String).data = ['@', '@', ' ', '-'] := rfl
  have h2 : ("," : String).data = [','] := rfl
  have h3 : (" +" : String).data = [' ', '+'] := rfl
  have h4 : (" @@" : String).data = [' ', '@', '@'] := rfl
  simp [buildHunkHeader, string_data_append, h1, h2, h3, h4]

theorem buildHunkHeader_head (o oc n nc : Nat) (tr : String) :
    (buildHunkHeader o oc n nc tr).data.head? = some '@' := by
  rw [buildHunkHeader_data]; rfl

theorem buildHunkHeader_startsWith (o oc n nc : Nat) (tr : String) :
    pyStartsWith (buildHunkHeader o oc n nc tr) "@@ " = true := by
  rw [pyStartsWith, List.isPrefixOf_iff_prefix, buildHunkHeader_data]
  exact ⟨'-' :: ((natRepr o).data ++ ',' :: ((natRepr oc).data ++ ' ' :: '+' ::
    ((natRepr n).data ++ ',' :: ((natRepr nc).data ++ ' ' :: '@' :: '@' ::
      tr.data)))), rfl⟩

theorem buildHunkHeader_lineSafe (o oc n nc : Nat) (tr : String)
    (htr : LineSafe tr) : LineSafe (buildHunkHeader o oc n nc tr) := by
  intro c hc
  rw [buildHunkHeader_data] at hc
  simp only [List.mem_cons, List.mem_append] at hc
  have hcases : c = '@' ∨ c = ' ' ∨ c = '-' ∨ c = ',' ∨ c = '+' ∨
      c ∈ (natRepr o).data ∨ c ∈ (natRepr oc).data ∨ c ∈ (natRepr n).data ∨
      c ∈ (natRepr nc).data ∨ c ∈ tr.data := by tauto
  rcases hcases with rfl | rfl | rfl | rfl | rfl | h | h | h | h | h
  · exact ⟨by decide, by decide⟩
  · exact ⟨by decide, by decide⟩
  · exact ⟨by decide, by decide⟩
  · exact ⟨by decide, by decide⟩
  · exact ⟨by decide, by decide⟩
  · exact natRepr_no_newline h
  · exact natRepr_no_newline h
  · exact natRepr_no_newline h
  · exact natRepr_no_newline h
  · exact htr c h

theorem renderDiffLine_lineSafe (x : LineType × String) (hx : LineSafe x.2) :
    LineSafe (renderDiffLine x) := by
  obtain ⟨k, c⟩ := x
  cases k with
  | context => exact lineSafe_append (by decide) hx
  | add => exact lineSafe_append (by decide) hx
  | del => exact lineSafe_append (by decide) hx

theorem sectionsJoin_stop (secs : List HunkSpec) :
    IsSectionStop ((secs.map hunkSectionLines).join) := by
  cases secs with
  | nil => exact Or.inl rfl
  | cons s ss =>
    refine Or.inr ⟨buildHunkHeader s.o s.oc s.n s.nc s.tr,
      s.body.map renderDiffLine ++ ((ss.map hunkSectionLines).join), ?_, ?_⟩
    · simp [hunkSectionLines]
    · rw [buildHunkHeader_startsWith]; simp

theorem startsWith_diff_git (x : String) :
    pyStartsWith ("diff --git a/" ++ x) "diff --git " = true := by
  rw [pyStartsWith, List.isPrefixOf_iff_prefix, string_data_append]
  exact ⟨'a' :: '/' :: x.data, rfl⟩

/-- The hunk that `_parse_hunk` produces for one synthetic hunk section of
`buildDiffText` (before the occurrence-disambiguation pass). -/
def sectionHunk (env : Env) (path : String) (hs : HunkSpec) : Hunk :=
  { hunk_id := env.hashText (hunkKey path hs.o hs.oc hs.n hs.nc (pyStrip hs.tr)),
    stable_hunk_id := env.hashText (stableContentKey path
      (parseHunkLoop env path hs.o hs.n (hs.body.map renderDiffLine)).1),
    old_start := hs.o, old_count := hs.oc, new_start := hs.n, new_count := hs.nc,
    header := pyStrip hs.tr,
    lines := (parseHunkLoop env path hs.o hs.n (hs.body.map renderDiffLine)).1 }

theorem parseLinesLoop_step_git (env : Env) (fuel : Nat) (acc : List FilePatch)
    (p : String) (hp : PathSafe p) (rest : List String) :
    parseLinesLoop env (fuel + 1) none acc
        (("diff --git a/" ++ (p ++ " b/" ++ p)) :: rest) =
      parseLinesLoop env fuel
        (some { file_id := env.hashText p, path := p,
                old_path := some p, new_path := some p }) acc rest := by
  have h0 := startsWith_diff_git (p ++ " b/" ++ p)
  simp only [parseLinesLoop, h0, if_true, diffGitMatch_build p hp,
    Option.map_some', normalizePath_safe p hp, pyOrPath, if_neg hp.1,
    Option.toList_none, List.append_nil]

theorem parseLinesLoop_step_minus (env : Env) (fuel : Nat) (c : FilePatch)
    (acc : List FilePatch) (p : String) (hp : PathSafe p) (rest : List String) :
    parseLinesLoop env (fuel + 1) (some c) acc (("--- " ++ ("a/" ++ p)) :: rest) =
      parseLinesLoop env fuel (some { c with old_path := some p }) acc rest := by
  have hhead : ("--- " ++ ("a/" ++ p) : String).data.head? = some '-' := by
    rw [string_data_append]; rfl
  have h0 : pyStartsWith ("--- " ++ ("a/" ++ p)) "diff --git " = false :=
    pyStartsWith_false_of_ne_head hhead rfl (by decide)
  have h1 : pyStartsWith ("--- " ++ ("a/" ++ p)) "new file mode " = false :=
    pyStartsWith_false_of_ne_head hhead rfl (by decide)
  have h2 : pyStartsWith ("--- " ++ ("a/" ++ p)) "deleted file mode " = false :=
    pyStartsWith_false_of_ne_head hhead rfl (by decide)
  have h3 : pyStartsWith ("--- " ++ ("a/" ++ p)) "rename from " = false :=
    pyStartsWith_false_of_ne_head hhead rfl (by decide)
  have h4 : pyStartsWith ("--- " ++ ("a/" ++ p)) "rename to " = false :=
    pyStartsWith_false_of_ne_head hhead rfl (by decide)
  have h5 : pyStartsWith ("--- " ++ ("a/" ++ p)) "Binary files " = false :=
    pyStartsWith_false_of_ne_head hhead rfl (by decide)
  have h6 : pyStartsWith ("--- " ++ ("a/" ++ p)) "--- " = true :=
    pyStartsWith_append _ _
  have hdrop : pyDrop ("--- " ++ ("a/" ++ p)) 4 = "a/" ++ p := by
    rw [show (4 : Nat) = ("--- " : String).data.length from rfl, pyDrop_append]
  simp only [parseLinesLoop, h0, h1, h2, h3, h4, h5, h6, Bool.false_eq_true,
    if_false, if_true, hdrop, normalizeHeaderPath_a_slash p hp]

theorem parseLinesLoop_step_plus (env : Env) (fuel : Nat) (c : FilePatch)
    (acc : List FilePatch) (p : String) (hp : PathSafe p) (rest : List String) :
    parseLinesLoop env (fuel + 1) (some c) acc (("+++ " ++ ("b/" ++ p)) :: rest) =
      parseLinesLoop env fuel (some { c with new_path := some p }) acc rest := by
  have hhead : ("+++ " ++ ("b/" ++ p) : String).data.head? = some '+' := by
    rw [string_data_append]; rfl
  have h0 : pyStartsWith ("+++ " ++ ("b/" ++ p)) "diff --git " = false :=
    pyStartsWith_false_of_ne_head hhead rfl (by decide)
  have h1 : pyStartsWith ("+++ " ++ ("b/" ++ p)) "new file mode " = false :=
    pyStartsWith_false_of_ne_head hhead rfl (by decide)
  have h2 : pyStartsWith ("+++ " ++ ("b/" ++ p)) "deleted file mode " = false :=
    pyStartsWith_false_of_ne_head hhead rfl (by decide)
  have h3 : pyStartsWith ("+++ " ++ ("b/" ++ p)) "rename from " = false :=
    pyStartsWith_false_of_ne_head hhead rfl (by decide)
  have h4 : pyStartsWith ("+++ " ++ ("b/" ++ p)) "rename to " = false :=
    pyStartsWith_false_of_ne_head hhead rfl (by decide)
  have h5 : pyStartsWith ("+++ " ++ ("b/" ++ p)) "Binary files " = false :=
    pyStartsWith_false_of_ne_head hhead rfl (by decide)
  have h6 : pyStartsWith ("+++ " ++ ("b/" ++ p)) "--- " = false :=
    pyStartsWith_false_of_ne_head hhead rfl (by decide)
  have h7 : pyStartsWith ("+++ " ++ ("b/" ++ p)) "+++ " = true :=
    pyStartsWith_append _ _
  have hdrop : pyDrop ("+++ " ++ ("b/" ++ p)) 4 = "b/" ++ p := by
    rw [show (4 : Nat) = ("+++ " : String).data.length from rfl, pyDrop_append]
  simp only [parseLinesLoop, h0, h1, h2, h3, h4, h5, h6, h7, Bool.false_eq_true,
    if_false, if_true, hdrop, normalizeHeaderPath_b_slash p hp]

theorem parseLinesLoop_step_hunk (env : Env) (fuel : Nat) (c : FilePatch)
    (acc : List FilePatch) (hs : HunkSpec) (tail : List String)
    (hstop : IsSectionStop tail) :
    parseLinesLoop env (fuel + 1) (some c) acc
        (buildHunkHeader hs.o hs.oc hs.n hs.nc hs.tr ::
          (hs.body.map renderDiffLine ++ tail)) =
      parseLinesLoop env fuel
        (some { c with hunks := c.hunks ++ [sectionHunk env c.path hs] }) acc tail := by
  have hhead := buildHunkHeader_head hs.o hs.oc hs.n hs.nc hs.tr
  have h0 : pyStartsWith (buildHunkHeader hs.o hs.oc hs.n hs.nc hs.tr)
      "diff --git " = false :=
    pyStartsWith_false_of_ne_head hhead rfl (by decide)
  have h1 : pyStartsWith (buildHunkHeader hs.o hs.oc hs.n hs.nc hs.tr)
      "new file mode " = false :=
    pyStartsWith_false_of_ne_head hhead rfl (by decide)
  have h2 : pyStartsWith (buildHunkHeader hs.o hs.oc hs.n hs.nc hs.tr)
      "deleted file mode " = false :=
    pyStartsWith_false_of_ne_head hhead rfl (by decide)
  have h3 : pyStartsWith (buildHunkHeader hs.o hs.oc hs.n hs.nc hs.tr)
      "rename from " = false :=
    pyStartsWith_false_of_ne_head hhead rfl (by decide)
  have h4 : pyStartsWith (buildHunkHeader hs.o hs.oc hs.n hs.nc hs.tr)
      "rename to " = false :=
    pyStartsWith_false_of_ne_head hhead rfl (by decide)
  have h5 : pyStartsWith (buildHunkHeader hs.o hs.oc hs.n hs.nc hs.tr)
      "Binary files " = false :=
    pyStartsWith_false_of_ne_head hhead rfl (by decide)
  have h6 : pyStartsWith (buildHunkHeader hs.o hs.oc hs.n hs.nc hs.tr)
      "--- " = false :=
    pyStartsWith_false_of_ne_head hhead rfl (by decide)
  have h7 : pyStartsWith (buildHunkHeader hs.o hs.oc hs.n hs.nc hs.tr)
      "+++ " = false :=
    pyStartsWith_false_of_ne_head hhead rfl (by decide)
  have h8 := buildHunkHeader_startsWith hs.o hs.oc hs.n hs.nc hs.tr
  simp only [parseLinesLoop, h0, h1, h2, h3, h4, h5, h6, h7, h8,
    Bool.false_eq_true, if_false, if_true, parseHunk,
    hunkReMatch_build hs.o hs.oc hs.n hs.nc hs.tr,
    parseHunkLoop_rendered env c.path hs.body tail hstop hs.o hs.n, sectionHunk]

theorem parseLinesLoop_sections (env : Env) :
    ∀ (secs : List HunkSpec) (fuel : Nat) (c : FilePatch) (acc : List FilePatch),
    ((secs.map hunkSectionLines).join).length ≤ fuel →
    parseLinesLoop env fuel (some c) acc ((secs.map hunkSectionLines).join) =
      .ok (acc ++ [{ c with hunks := c.hunks ++ secs.map (sectionHunk env c.path) }]) := by
  intro secs
  induction secs with
  | nil =>
    intro fuel c acc _
    cases fuel <;> simp [parseLinesLoop]
  | cons s ss ih =>
    intro fuel c acc hfuel
    have hjoin : (((s :: ss).map hunkSectionLines).join) =
        buildHunkHeader s.o s.oc s.n s.nc s.tr ::
          (s.body.map renderDiffLine ++ ((ss.map hunkSectionLines).join)) := by
      simp [hunkSectionLines]
    rw [hjoin] at hfuel ⊢
    match fuel, hfuel with
    | fuel + 1, hfuel =>
      rw [parseLinesLoop_step_hunk env fuel c acc s _ (sectionsJoin_stop ss)]
      rw [ih fuel _ acc (by simp only [List.length_cons, List.length_append] at hfuel; omega)]
      simp [List.append_assoc]

theorem parseUnifiedDiff_build (env : Env) (p : String) (hp : PathSafe p)
    (secs : List HunkSpec) (hsec : ∀ s ∈ secs, HunkSpecSafe s) :
    parseUnifiedDiff env (buildDiffText p secs) =
      .ok [{ file_id := env.hashText p, path := p, old_path := some p,
             new_path := some p,
             hunks := assignStableOccurrences [] (secs.map (sectionHunk env p)) }] := by
  have hsafe : ∀ l ∈ ("diff --git a/" ++ (p ++ " b/" ++ p)) ::
      ("--- " ++ ("a/" ++ p)) :: ("+++ " ++ ("b/" ++ p)) ::
      (secs.map hunkSectionLines).join, LineSafe l := by
    intro l hl
    have hpl := lineSafe_of_pathSafe hp
    simp only [List.mem_cons] at hl
    rcases hl with rfl | rfl | rfl | hl
    · exact lineSafe_append (by decide)
        (lineSafe_append (lineSafe_append hpl (by decide)) hpl)
    · exact lineSafe_append (by decide) (lineSafe_append (by decide) hpl)
    · exact lineSafe_append (by decide) (lineSafe_append (by decide) hpl)
    · rcases List.mem_join.mp hl with ⟨ys, hys, hly⟩
      rcases List.mem_map.mp hys with ⟨s, hsmem, rfl⟩
      rcases List.mem_cons.mp hly with rfl | hbody
      · exact buildHunkHeader_lineSafe s.o s.oc s.n s.nc s.tr (hsec s hsmem).1
      · rcases List.mem_map.mp hbody with ⟨x, hx, rfl⟩
        exact renderDiffLine_lineSafe x ((hsec s hsmem).2 x hx)
  have hsplit : pySplitlines (buildDiffText p secs) =
      ("diff --git a/" ++ (p ++ " b/" ++ p)) :: ("--- " ++ ("a/" ++ p)) ::
        ("+++ " ++ ("b/" ++ p)) :: (secs.map hunkSectionLines).join :=
    pySplitlines_joinLines _ hsafe
  have hne : ¬(pyStrip (buildDiffText p secs) = "") := by
    rw [pyStrip_eq_empty_iff]
    intro hall
    have hd : 'd' ∈ (buildDiffText p secs).data := by
      rw [show buildDiffText p secs = joinLines (("diff --git a/" ++ (p ++ " b/" ++ p)) ::
        ("--- " ++ ("a/" ++ p)) :: ("+++ " ++ ("b/" ++ p)) ::
        (secs.map hunkSectionLines).join) from rfl, joinLines_cons_data]
      refine List.mem_append.mpr (Or.inl ?_)
      rw [string_data_append]
      exact List.mem_append.mpr (Or.inl (by decide))
    exact absurd (hall 'd' hd) (by decide)
  rw [parseUnifiedDiff, if_neg hne, hsplit]
  have hlen : (("diff --git a/" ++ (p ++ " b/" ++ p)) :: ("--- " ++ ("a/" ++ p)) ::
      ("+++ " ++ ("b/" ++ p)) :: (secs.map hunkSectionLines).join).length =
      (((secs.map hunkSectionLines).join.length + 1) + 1) + 1 := by
    simp
  rw [hlen]
  rw [parseLinesLoop_step_git env _ _ p hp _]
  rw [parseLinesLoop_step_minus env _ _ _ p hp _]
  rw [parseLinesLoop_step_plus env _ _ _ p hp _]
  rw [parseLinesLoop_sections env secs _ _ _ le_rfl]
  simp only [List.nil_append, List.map_cons, List.map_nil]
  rw [normalizeFilePatch]
  simp only [pyOrPath, if_neg hp.1]

theorem hunkKey_data (p : String) (a b c d : Nat) (tr : String) :
    (hunkKey p a b c d tr).data =
      p.data ++ ':' :: ((natRepr a).data ++ ':' :: ((natRepr b).data ++ ':' ::
        ((natRepr c).data ++ ':' :: ((natRepr d).data ++ ':' :: tr.data)))) := by
  simp [hunkKey, string_data_append, List.append_assoc,
    show (":" : String).data = [':'] from rfl]

theorem hunkKey_inj_nums {p tr : String} {o oc n nc o' oc' n' nc' : Nat}
    (h : hunkKey p o oc n nc tr = hunkKey p o' oc' n' nc' tr) :
    o = o' ∧ oc = oc' ∧ n = n' ∧ nc = nc' := by
  have hd := string_eq_iff_data.mp h
  rw [hunkKey_data, hunkKey_data] at hd
  have h1 := List.append_cancel_left hd
  simp only [List.cons.injEq, true_and] at h1
  obtain ⟨e1, h2⟩ := append_sep_inj (fun c hc => natRepr_not_colon hc)
    (fun c hc => natRepr_not_colon hc) h1
  obtain ⟨e2, h3⟩ := append_sep_inj (fun c hc => natRepr_not_colon hc)
    (fun c hc => natRepr_not_colon hc) h2
  obtain ⟨e3, h4⟩ := append_sep_inj (fun c hc => natRepr_not_colon hc)
    (fun c hc => natRepr_not_colon hc) h3
  obtain ⟨e4, -⟩ := append_sep_inj (fun c hc => natRepr_not_colon hc)
    (fun c hc => natRepr_not_colon hc) h4
  exact ⟨natRepr_injective (string_eq_iff_data.mpr e1),
    natRepr_injective (string_eq_iff_data.mpr e2),
    natRepr_injective (string_eq_iff_data.mpr e3),
    natRepr_injective (string_eq_iff_data.mpr e4)⟩

theorem stableContentKey_proj_eq {path : String} {ls₁ ls₂ : List Line}
    (h : ls₁.map (fun l => (l.line_type, l.content)) =
      ls₂.map (fun l => (l.line_type, l.content))) :
    stableContentKey path ls₁ = stableContentKey path ls₂ := by
  unfold stableContentKey
  have h2 := congrArg (List.map
    (fun x : LineType × String => x.1.tag ++ ":" ++ x.2)) h
  simp only [List.map_map, Function.comp_def] at h2
  rw [h2]

theorem assignStable_singleton (g : Hunk) :
    assignStableOccurrences [] [g] = [g] := by
  simp [assignStableOccurrences]

theorem assignStable_pair (g : Hunk) :
    assignStableOccurrences [] [g, g] =
      [g, { g with stable_hunk_id := g.stable_hunk_id ++ "#" ++ natRepr 1 }] := by
  simp [assignStableOccurrences]

theorem envW_hashText_injective : Function.Injective envW.hashText := by
  intro a b h
  have h' : ("#" ++ a : String) = "#" ++ b := h
  have hd := string_eq_iff_data.mp h'
  rw [string_data_append, string_data_append] at hd
  exact string_eq_iff_data.mpr (List.append_cancel_left hd)

/-- C1: wrapping the same hunk body (and header trailer) in different `@@`
header numbers yields, for each variant, a single parsed file with a single
hunk; the two hunks' `stable_hunk_id` values are equal while their `hunk_id`
values differ (assuming the text hash is collision-free). -/
theorem stable_id_invariant_under_header_shift (env : Env)
    (hinj : Function.Injective env.hashText) (p : String) (hp : PathSafe p)
    (tr : String) (body : List (LineType × String)) (htr : LineSafe tr)
    (hbody : ∀ x ∈ body, LineSafe x.2)
    (o oc n nc o' oc' n' nc' : Nat)
    (hne : (o, oc, n, nc) ≠ (o', oc', n', nc')) :
    ∃ h₁ h₂ : Hunk,
      parseUnifiedDiff env (buildDiffText p [⟨o, oc, n, nc, tr, body⟩]) =
        .ok [{ file_id := env.hashText p, path := p, old_path := some p,
               new_path := some p, hunks := [h₁] }] ∧
      parseUnifiedDiff env (buildDiffText p [⟨o', oc', n', nc', tr, body⟩]) =
        .ok [{ file_id := env.hashText p, path := p, old_path := some p,
               new_path := some p, hunks := [h₂] }] ∧
      h₁.stable_hunk_id = h₂.stable_hunk_id ∧ h₁.hunk_id ≠ h₂.hunk_id := by
  refine ⟨sectionHunk env p ⟨o, oc, n, nc, tr, body⟩,
    sectionHunk env p ⟨o', oc', n', nc', tr, body⟩, ?_, ?_, ?_, ?_⟩
  · rw [parseUnifiedDiff_build env p hp _
      (by intro s hs; simp at hs; subst hs; exact ⟨htr, hbody⟩)]
    simp [assignStable_singleton]
  · rw [parseUnifiedDiff_build env p hp _
      (by intro s hs; simp at hs; subst hs; exact ⟨htr, hbody⟩)]
    simp [assignStable_singleton]
  · exact congrArg env.hashText (stableContentKey_proj_eq
      (parseHunkLoop_counters_proj env p (body.map renderDiffLine) o n o' n'))
  · intro heq
    have hkey : hunkKey p o oc n nc (pyStrip tr) =
        hunkKey p o' oc' n' nc' (pyStrip tr) := hinj heq
    obtain ⟨e1, e2, e3, e4⟩ := hunkKey_inj_nums hkey
    exact hne (by simp [e1, e2, e3, e4])

theorem stable_id_invariant_under_header_shift_witness :
    ∃ h₁ h₂ : Hunk,
      parseUnifiedDiff envW (buildDiffText "x"
          [⟨1, 2, 3, 4, "", [(LineType.context, "c")]⟩]) =
        .ok [{ file_id := envW.hashText "x", path := "x", old_path := some "x",
               new_path := some "x", hunks := [h₁] }] ∧
      parseUnifiedDiff envW (buildDiffText "x"
          [⟨5, 2, 3, 4, "", [(LineType.context, "c")]⟩]) =
        .ok [{ file_id := envW.hashText "x", path := "x", old_path := some "x",
               new_path := some "x", hunks := [h₂] }] ∧
      h₁.stable_hunk_id = h₂.stable_hunk_id ∧ h₁.hunk_id ≠ h₂.hunk_id :=
  stable_id_invariant_under_header_shift envW envW_hashText_injective "x"
    (by decide) "" [(LineType.context, "c")] (by decide) (by decide)
    1 2 3 4 5 2 3 4 (by decide)

/-- C5: a file containing two hunks with byte-identical (kind, content) line
sequences parses into two hunks with distinct `stable_hunk_id`s: the second
(duplicate) occurrence carries the `"#1"` occurrence-index suffix of the
first one's id. -/
theorem duplicate_hunks_get_occurrence_suffix (env : Env) (p : String)
    (hp : PathSafe p) (tr : String) (htr : LineSafe tr)
    (body : List (LineType × String)) (hbody : ∀ x ∈ body, LineSafe x.2)
    (o oc n nc : Nat) :
    ∃ h₁ h₂ : Hunk,
      parseUnifiedDiff env (buildDiffText p
          [⟨o, oc, n, nc, tr, body⟩, ⟨o, oc, n, nc, tr, body⟩]) =
        .ok [{ file_id := env.hashText p, path := p, old_path := some p,
               new_path := some p, hunks := [h₁, h₂] }] ∧
      h₂.stable_hunk_id = h₁.stable_hunk_id ++ "#1" ∧
      h₂.stable_hunk_id ≠ h₁.stable_hunk_id := by
  refine ⟨sectionHunk env p ⟨o, oc, n, nc, tr, body⟩,
    { sectionHunk env p ⟨o, oc, n, nc, tr, body⟩ with
      stable_hunk_id :=
        (sectionHunk env p ⟨o, oc, n, nc, tr, body⟩).stable_hunk_id ++ "#" ++
          natRepr 1 }, ?_, ?_, ?_⟩
  · rw [parseUnifiedDiff_build env p hp _
      (by intro s hs; simp at hs; rcases hs with rfl | rfl <;> exact ⟨htr, hbody⟩)]
    simp [assignStable_pair]
  · show _ ++ "#" ++ natRepr 1 = _ ++ "#1"
    rw [string_eq_iff_data]
    simp [string_data_append, show (natRepr 1).data = ['1'] from rfl,
      show ("#" : String).data = ['#'] from rfl,
      show ("#1" : String).data = ['#', '1'] from rfl]
  · intro heq
    have hlen := congrArg (fun s : String => s.data.length) heq
    simp only [string_data_append, List.length_append,
      show (natRepr 1).data = ['1'] from rfl,
      show ("#" : String).data = ['#'] from rfl,
      List.length_cons, List.length_nil] at hlen
    omega

theorem duplicate_hunks_get_occurrence_suffix_witness :
    ∃ h₁ h₂ : Hunk,
      parseUnifiedDiff envW (buildDiffText "x"
          [⟨1, 2, 3, 4, "", [(LineType.add, "c")]⟩,
           ⟨1, 2, 3, 4, "", [(LineType.add, "c")]⟩]) =
        .ok [{ file_id := envW.hashText "x", path := "x", old_path := some "x",
               new_path := some "x", hunks := [h₁, h₂] }] ∧
      h₂.stable_hunk_id = h₁.stable_hunk_id ++ "#1" ∧
      h₂.stable_hunk_id ≠ h₁.stable_hunk_id :=
  duplicate_hunks_get_occurrence_suffix envW "x" (by decide) "" (by decide)
    [(LineType.add, "c")] (by decide) 1 2 3 4

/-! ## Annotation layer: shared infrastructure -/

/-- Python `repr` of a string as interpolated by `!r` in f-strings (the
single-quoted form; escaping inside the string is not modelled, which is
exact for the quote-free identifiers these messages carry). -/
def pyReprStr (s : String) : String := "'" ++ s ++ "'"

/-- Python dict assignment `d[k] = v`: overwrite keeps the original
insertion position, a new key is appended. -/
def alistSet {α : Type} (k : String) (v : α) : List (String × α) → List (String × α)
  | [] => [(k, v)]
  | (k', v') :: rest => if k' = k then (k, v) :: rest else (k', v') :: alistSet k v rest

/-- Python dict lookup `d.get(k)` / `k in d` over the association list. -/
def alistGet? {α : Type} (k : String) : List (String × α) → Option α
  | [] => none
  | (k', v) :: rest => if k' = k then some v else alistGet? k rest

/-- Python `d.setdefault(k, []).append(v)`. -/
def alistAppend {α : Type} (k : String) (v : α) : List (String × List α) → List (String × List α)
  | [] => [(k, [v])]
  | (k', vs) :: rest =>
    if k' = k then (k', vs ++ [v]) :: rest else (k', vs) :: alistAppend k v rest

/-- `x is None` for a JSON value (also the result of `dict.get` misses). -/
def JValue.isNull : JValue → Bool
  | .null => true
  | _ => false

/-- Equality of a JSON value with a string literal (`x == "s"`). -/
def JValue.isStrVal (j : JValue) (s : String) : Bool :=
  match j with
  | .str t => t = s
  | _ => false

/-- Python `str.lstrip("./")`. -/
def pyLstripDotSlash (s : String) : String :=
  ⟨s.data.dropWhile (fun c => c = '.' || c = '/')⟩

/-- Python `str.rstrip("/")`. -/
def pyRstripSlash (s : String) : String :=
  ⟨(s.data.reverse.dropWhile (fun c => c = '/')).reverse⟩

/-- Python `str.split()` with no arguments: whitespace-run separated words,
empty runs dropped. -/
def pyWords (s : String) : List String :=
  let p := s.data.foldr
    (fun c (p : List (List Char) × List Char) =>
      if isPySpace c then (if p.2.isEmpty then p else (p.2 :: p.1, []))
      else (p.1, c :: p.2)) ([], [])
  ((if p.2.isEmpty then p.1 else p.2 :: p.1).map fun g => (⟨g⟩ : String))

/-- One issue dict as built by `_issue` / `_error` / `_warning`. -/
structure Issue where
  level : String
  code : String
  message : String
  location : String
deriving DecidableEq, Repr

/-- `annotations._error`. -/
def _error (code message location : String) : Issue :=
  ⟨"error", code, message, location⟩

/-- `annotations._warning` (also `review_io._warning`). -/
def _warning (code message location : String) : Issue :=
  ⟨"warning", code, message, location⟩

/-- `validate._issue`. -/
def _issue (level code message location : String) : Issue :=
  ⟨level, code, message, location⟩

/-- The strict-mode promotion applied to one issue (`validate.py` lines
144-147): warnings become errors in place. -/
def promoteIssue (i : Issue) : Issue :=
  if i.level = "warning" then { i with level := "error" } else i

/-- `_ALLOWED_SEVERITIES` (a set; only membership is used). -/
def _ALLOWED_SEVERITIES : List String := ["info", "note", "warning", "risk"]

/-- `severity not in _ALLOWED_SEVERITIES` for a JSON value: only string
members of the set pass. -/
def severityAllowed (j : JValue) : Bool :=
  match j with
  | .str s => _ALLOWED_SEVERITIES.contains s
  | _ => false


/-! ## `annotations.py`: schema validation -/

/-- The overview checks shared by both validators (`annotations.py` lines
37-56 and 202-221): non-list or blank entries are an error, more than eight
lines a warning, absent (`None`) passes. -/
def overviewIssues (ov : JValue) : List Issue :=
  if ov.isNull then []
  else
    match ov.asArr with
    | some l =>
      if l.all (fun x => x.isNonblankStr) then
        if l.length > 8 then
          [_warning "overview_length"
            "overview should typically be 2-5 lines for reviewer readability."
            "$.overview"]
        else []
      else [_error "overview_type" "overview must be a list of non-empty strings."
        "$.overview"]
    | none => [_error "overview_type" "overview must be a list of non-empty strings."
        "$.overview"]

/-- The per-anchor field checks shared verbatim by both validators:
`what_changed`, `why_changed`, `title`, `reviewer_focus`, `risk` and
`severity` (`annotations.py` lines 117-168 = lines 257-306). -/
def anchorCommonIssues (anchor_loc : String) (anchor : JValue) : List Issue :=
  (if (anchor.pyGet "what_changed").isNonblankStr then []
   else [_error "what_changed" "what_changed must be a non-empty string."
     (anchor_loc ++ ".what_changed")]) ++
  (if (anchor.pyGet "why_changed").isNonblankStr then []
   else [_error "why_changed" "why_changed must be a non-empty string."
     (anchor_loc ++ ".why_changed")]) ++
  (if anchor.hasKey "title" && (anchor.pyGet "title").asStr.isNone then
     [_error "title_type" "title must be a string." (anchor_loc ++ ".title")]
   else []) ++
  (if anchor.hasKey "reviewer_focus" && (anchor.pyGet "reviewer_focus").asStr.isNone then
     [_error "reviewer_focus_type" "reviewer_focus must be a string."
       (anchor_loc ++ ".reviewer_focus")]
   else []) ++
  (if anchor.hasKey "risk" && (anchor.pyGet "risk").asStr.isNone then
     [_error "risk_type" "risk must be a string." (anchor_loc ++ ".risk")]
   else []) ++
  (if !(anchor.pyGet "severity").isNull && !severityAllowed (anchor.pyGet "severity") then
     [_error "bad_severity" "severity must be one of info, note, warning, or risk."
       (anchor_loc ++ ".severity")]
   else [])

/-- One entry of the `files` loop of `validate_annotation_schema`
(`annotations.py` lines 63-168). -/
def fileEntryIssues (file_idx : Nat) (file_entry : JValue) : List Issue :=
  let location := "$.files[" ++ natRepr file_idx ++ "]"
  match file_entry with
  | .obj _ =>
    (if (file_entry.pyGet "path").isNonemptyStr then []
     else [_error "file_path" "files.path must be a non-empty string."
       (location ++ ".path")]) ++
    (if file_entry.hasKey "summary" && (file_entry.pyGet "summary").asStr.isNone then
       [_error "summary_type" "summary must be a string." (location ++ ".summary")]
     else []) ++
    (match (file_entry.pyGet "anchors").asArr with
     | none => [_error "anchors_type" "files.anchors must be a list."
         (location ++ ".anchors")]
     | some anchors =>
       (anchors.enum.map fun p =>
         let anchor_loc := location ++ ".anchors[" ++ natRepr p.1 ++ "]"
         match p.2 with
         | .obj _ =>
           (if (p.2.pyGet "anchor_id").isNonemptyStr then []
            else [_error "anchor_id" "anchor_id must be a non-empty string."
              (anchor_loc ++ ".anchor_id")]) ++
           anchorCommonIssues anchor_loc p.2
         | _ => [_error "anchor_type" "Anchor must be an object." anchor_loc]).join)
  | _ => [_error "file_type" "Each files entry must be an object." location]

/-- `validate_annotation_schema`. -/
def validate_annotation_schema (annotations : JValue) : List Issue :=
  match annotations with
  | .obj _ =>
    (if (annotations.pyGet "version").isStrVal "2" then []
     else [_error "bad_version" "version must be the string '2'." "$.version"]) ++
    (if (annotations.pyGet "target_context_id").isNonemptyStr then []
     else [_error "missing_target" "target_context_id must be a non-empty string."
       "$.target_context_id"]) ++
    overviewIssues (annotations.pyGet "overview") ++
    (match (annotations.pyGet "files").asArr with
     | none => [_error "files_type" "files must be a list." "$.files"]
     | some files => (files.enum.map fun p => fileEntryIssues p.1 p.2).join)
  | _ => [_error "root_type" "Annotations must be a JSON object." "$"]

/-- The anchors loop of `validate_annotation_notes_schema` (`annotations.py`
lines 228-306): threads the set of anchor ids seen so far to flag
duplicates. -/
def notesAnchorIssues : Nat → List String → List JValue → List Issue
  | _, _, [] => []
  | anchor_idx, seen, anchor :: rest =>
    let anchor_loc := "$.anchors[" ++ natRepr anchor_idx ++ "]"
    match anchor with
    | .obj _ =>
      let idStep : List Issue × List String :=
        match (anchor.pyGet "anchor_id").asStr with
        | some s =>
          if s = "" then
            ([_error "anchor_id" "anchor_id must be a non-empty string."
              (anchor_loc ++ ".anchor_id")], seen)
          else if seen.contains s then
            ([_error "duplicate_anchor_id"
              ("anchor_id " ++ pyReprStr s ++ " is duplicated in notes.")
              (anchor_loc ++ ".anchor_id")], seen)
          else ([], s :: seen)
        | none =>
          ([_error "anchor_id" "anchor_id must be a non-empty string."
            (anchor_loc ++ ".anchor_id")], seen)
      idStep.1 ++ anchorCommonIssues anchor_loc anchor ++
        notesAnchorIssues (anchor_idx + 1) idStep.2 rest
    | _ =>
      [_error "anchor_type" "Anchor note must be an object." anchor_loc] ++
        notesAnchorIssues (anchor_idx + 1) seen rest

/-- One entry of the `file_summaries` loop of
`validate_annotation_notes_schema` (`annotations.py` lines 319-347). -/
def fileSummaryEntryIssues (summary_idx : Nat) (summary_entry : JValue) : List Issue :=
  let location := "$.file_summaries[" ++ natRepr summary_idx ++ "]"
  match summary_entry with
  | .obj _ =>
    (if (summary_entry.pyGet "path").isNonemptyStr then []
     else [_error "file_summary_path" "file_summaries.path must be a non-empty string."
       (location ++ ".path")]) ++
    (if (summary_entry.pyGet "summary").isNonblankStr then []
     else [_error "file_summary_text" "file_summaries.summary must be a non-empty string."
       (location ++ ".summary")])
  | _ => [_error "file_summary_type" "file summary must be an object." location]

/-- `validate_annotation_notes_schema`. -/
def validate_annotation_notes_schema (notes : JValue) : List Issue :=
  match notes with
  | .obj _ =>
    (if (notes.pyGet "version").isStrVal "1" then []
     else [_error "bad_version" "version must be the string '1'." "$.version"]) ++
    (if (notes.pyGet "target_context_id").isNonemptyStr then []
     else [_error "missing_target" "target_context_id must be a non-empty string."
       "$.target_context_id"]) ++
    overviewIssues (notes.pyGet "overview") ++
    (match (notes.pyGet "anchors").asArr with
     | none => [_error "anchors_type" "anchors must be a list." "$.anchors"]
     | some anchors =>
       notesAnchorIssues 0 [] anchors ++
       (let fs := notes.pyGet "file_summaries"
        if fs.isNull then []
        else
          match fs.asArr with
          | none => [_error "file_summaries_type" "file_summaries must be a list."
              "$.file_summaries"]
          | some l => (l.enum.map fun p => fileSummaryEntryIssues p.1 p.2).join))
  | _ => [_error "root_type" "Annotation notes must be a JSON object." "$"]

/-! ## `annotations.py`: compiling notes into an annotations document -/

/-- The per-anchor step of the context scan of
`compile_annotations_from_notes` (`annotations.py` lines 373-384): record
the anchor's file path and its default title. -/
def scanAnchorStep (path : String)
    (m : List (String × String) × List (String × String)) (anchor : JValue) :
    List (String × String) × List (String × String) :=
  if !anchor.isObj then m
  else
    match (anchor.pyGet "anchor_id").asStr with
    | none => m
    | some anchor_id =>
      if anchor_id = "" then m
      else
        let m1 := alistSet anchor_id path m.1
        let m2 :=
          match (anchor.pyGet "title").asStr with
          | some title =>
            if pyStrip title ≠ "" then alistSet anchor_id title m.2
            else m.2
          | none => m.2
        (m1, m2)

/-- The per-file step of the context scan of `compile_annotations_from_notes`
(`annotations.py` lines 364-384). -/
def scanFileStep
    (acc : List String × List (String × String) × List (String × String))
    (file_entry : JValue) :
    List String × List (String × String) × List (String × String) :=
  if !file_entry.isObj then acc
  else
    match (file_entry.pyGet "path").asStr with
    | none => acc
    | some path =>
      if path = "" then acc
      else
        let anchors := ((file_entry.pyGetD "anchors" (.arr [])).asArr).getD []
        let maps := anchors.foldl (scanAnchorStep path) (acc.2.1, acc.2.2)
        (acc.1 ++ [path], maps.1, maps.2)

/-- The context scan of `compile_annotations_from_notes` (`annotations.py`
lines 362-384): file order, anchor-to-path map and default titles.  The
`known_paths` set coincides with the collected `file_order` list, so only
the list is materialized. -/
def compileContextScan (contextFiles : List JValue) :
    List String × List (String × String) × List (String × String) :=
  contextFiles.foldl scanFileStep ([], [], [])

/-- One compiled anchor object (`annotations.py` lines 407-429). -/
def compiledAnchor (anchor_default_title : List (String × String))
    (anchor_id : String) (anchor_note : JValue) : JValue :=
  .obj
    ([("anchor_id", .str anchor_id),
      ("what_changed", .str (pyStrip (pyStr (anchor_note.pyGetD "what_changed" (.str ""))))),
      ("why_changed", .str (pyStrip (pyStr (anchor_note.pyGetD "why_changed" (.str "")))))] ++
     (match (anchor_note.pyGet "title").asStr with
      | some title =>
        if pyStrip title ≠ "" then [("title", JValue.str (pyStrip title))]
        else
          match alistGet? anchor_id anchor_default_title with
          | some t => [("title", JValue.str t)]
          | none => []
      | none =>
        match alistGet? anchor_id anchor_default_title with
        | some t => [("title", JValue.str t)]
        | none => []) ++
     (match (anchor_note.pyGet "reviewer_focus").asStr with
      | some s => if pyStrip s ≠ "" then [("reviewer_focus", JValue.str (pyStrip s))] else []
      | none => []) ++
     (match (anchor_note.pyGet "risk").asStr with
      | some s => if pyStrip s ≠ "" then [("risk", JValue.str (pyStrip s))] else []
      | none => []) ++
     (match (anchor_note.pyGet "severity").asStr with
      | some s => if pyStrip s ≠ "" then [("severity", JValue.str (pyStrip s))] else []
      | none => []))

/-- The notes-anchors loop of `compile_annotations_from_notes`
(`annotations.py` lines 386-431): group compiled anchors by their context
file and record unknown-anchor errors. -/
def compileNotesAnchors (anchor_to_path : List (String × String))
    (anchor_default_title : List (String × String)) :
    Nat → List (String × List JValue) → List Issue → List JValue →
      List (String × List JValue) × List Issue
  | _, abf, issues, [] => (abf, issues)
  | anchor_idx, abf, issues, anchor_note :: rest =>
    if !anchor_note.isObj then
      compileNotesAnchors anchor_to_path anchor_default_title (anchor_idx + 1) abf issues rest
    else
      match (anchor_note.pyGet "anchor_id").asStr with
      | none =>
        compileNotesAnchors anchor_to_path anchor_default_title (anchor_idx + 1) abf issues rest
      | some anchor_id =>
        if anchor_id = "" then
          compileNotesAnchors anchor_to_path anchor_default_title (anchor_idx + 1) abf issues rest
        else
          match alistGet? anchor_id anchor_to_path with
          | none =>
            compileNotesAnchors anchor_to_path anchor_default_title (anchor_idx + 1) abf
              (issues ++ [_error "unknown_anchor"
                ("anchor_id " ++ pyReprStr anchor_id ++ " was not found in context.")
                ("$.anchors[" ++ natRepr anchor_idx ++ "].anchor_id")]) rest
          | some path =>
            compileNotesAnchors anchor_to_path anchor_default_title (anchor_idx + 1)
              (alistAppend path (compiledAnchor anchor_default_title anchor_id anchor_note) abf)
              issues rest

/-- The file-summaries loop of `compile_annotations_from_notes`
(`annotations.py` lines 433-453). -/
def compileFileSummaries (known_paths : List String) :
    Nat → List (String × String) → List Issue → List JValue →
      List (String × String) × List Issue
  | _, sbp, issues, [] => (sbp, issues)
  | summary_idx, sbp, issues, summary_entry :: rest =>
    if !summary_entry.isObj then
      compileFileSummaries known_paths (summary_idx + 1) sbp issues rest
    else
      match (summary_entry.pyGet "path").asStr with
      | none => compileFileSummaries known_paths (summary_idx + 1) sbp issues rest
      | some path =>
        if path = "" then
          compileFileSummaries known_paths (summary_idx + 1) sbp issues rest
        else if !known_paths.contains path then
          compileFileSummaries known_paths (summary_idx + 1) sbp
            (issues ++ [_error "unknown_file"
              ("file summary path " ++ pyReprStr path ++ " was not found in context.")
              ("$.file_summaries[" ++ natRepr summary_idx ++ "].path")]) rest
        else
          match (summary_entry.pyGet "summary").asStr with
          | some summary =>
            if pyStrip summary ≠ "" then
              compileFileSummaries known_paths (summary_idx + 1)
                (alistSet path (pyStrip summary) sbp) issues rest
            else compileFileSummaries known_paths (summary_idx + 1) sbp issues rest
          | none => compileFileSummaries known_paths (summary_idx + 1) sbp issues rest

/-- `compile_annotations_from_notes`: returns the compiled annotations
document and the accumulated issues. -/
def compile_annotations_from_notes (context notes : JValue) : JValue × List Issue :=
  let issues0 := validate_annotation_notes_schema notes
  let notes_obj := if notes.isObj then notes else .obj []
  let context_obj := if context.isObj then context else .obj []
  let scan := compileContextScan
    (((context_obj.pyGetD "files" (.arr [])).asArr).getD [])
  let file_order := scan.1
  let anchor_to_path := scan.2.1
  let anchor_default_title := scan.2.2
  let na :=
    match (notes_obj.pyGet "anchors").asArr with
    | some l => compileNotesAnchors anchor_to_path anchor_default_title 0 [] [] l
    | none => ([], [])
  let anchors_by_file := na.1
  let fs :=
    match (notes_obj.pyGet "file_summaries").asArr with
    | some l => compileFileSummaries file_order 0 [] [] l
    | none => ([], [])
  let summary_by_path := fs.1
  let annotation_files := file_order.filterMap fun path =>
    let anchors := (alistGet? path anchors_by_file).getD []
    let summary := alistGet? path summary_by_path
    if anchors.isEmpty && summary.isNone then none
    else some (JValue.obj
      ([("path", JValue.str path), ("anchors", JValue.arr anchors)] ++
       (match summary with
        | some s => [("summary", JValue.str s)]
        | none => [])))
  let overview := notes_obj.pyGet "overview"
  (.obj
    [("version", .str "2"),
     ("target_context_id", notes_obj.pyGetD "target_context_id" (.str "")),
     ("overview", .arr ((overview.asArr).getD [])),
     ("files", .arr annotation_files)],
   issues0 ++ na.2 ++ fs.2)

/-! ## `prepare.py`: context building and runtime recomputation -/

/-- Python `sub in s` substring containment. -/
def strContains (s sub : String) : Bool := decide (List.IsInfix sub.data s.data)

/-- `prepare._line_excerpt` (the default limit 88 is always used). -/
def _line_excerpt (value : String) : String :=
  let compact := String.intercalate " " (pyWords (pyStrip value))
  if compact = "" then "<empty>"
  else if compact.data.length ≤ 88 then compact
  else ⟨compact.data.take 87⟩ ++ "â€¦"

/-- `prepare._risk_hint`: the first risky token found in an added line. -/
def _risk_hint (lines : List Line) : Option String :=
  let risky_tokens : List (String × String) :=
    [("subprocess", "process execution behavior changed"),
     ("check=False", "error handling behavior changed"),
     ("shell=True", "command execution safety assumptions changed"),
     ("re.compile(", "pattern matching/parsing behavior changed"),
     ("exclude_path", "review scoping behavior changed"),
     ("strict", "validation strictness behavior changed"),
     ("raise ", "error propagation behavior changed"),
     ("except ", "error handling branches changed")]
  lines.findSome? fun line =>
    if line.line_type ≠ .add then none
    else risky_tokens.findSome? fun t =>
      if strContains line.content t.1 then some t.2 else none

/-- The statement openers recognized by `_focus_snippets`. -/
def focusOpeners : List String :=
  ["def ", "class ", "if ", "for ", "while ", "with ", "return ", "raise ",
   "try:", "except "]

/-- The collecting loop of `prepare._focus_snippets` (limit 3, stopping as
soon as three snippets are collected). -/
def focusSnippetsAux : List Line → List String → List String
  | [], acc => acc
  | line :: rest, acc =>
    if line.line_type ≠ .add then focusSnippetsAux rest acc
    else
      let content := pyStrip line.content
      if content = "" then focusSnippetsAux rest acc
      else
        let acc' :=
          if focusOpeners.any (fun opener => pyStartsWith content opener) ||
              (strContains content "=" && !pyStartsWith content "#") then
            acc ++ [_line_excerpt content]
          else acc
        if acc'.length ≥ 3 then acc' else focusSnippetsAux rest acc'

/-- `prepare._focus_snippets` with its first-added-line fallback. -/
def _focus_snippets (lines : List Line) : List String :=
  let snippets := focusSnippetsAux lines []
  if snippets.isEmpty then
    match lines.findSome? (fun line =>
        if line.line_type = .add ∧ pyStrip line.content ≠ "" then
          some (_line_excerpt line.content)
        else none) with
    | some s => [s]
    | none => []
  else snippets

/-- `prepare._anchor_id`. -/
def _anchor_id (env : Env) (path : String) (hunk : Hunk) : String :=
  env.hashText (path ++ ":" ++ hunk.stable_hunk_id)

/-- `prepare._anchor_title`. -/
def _anchor_title (path : String) (hunk_index : Nat) : String :=
  path ++ " change focus " ++ natRepr hunk_index

/-- `prepare._is_excluded` (posix normalization and glob matching delegated
to the environment). -/
def _is_excluded (env : Env) (path : String) (exclude_paths : List String) : Bool :=
  let normalized := pyLstripDotSlash (env.posixStr path)
  exclude_paths.any fun pattern =>
    let normalized_pattern := pyLstripDotSlash (pyStrip pattern)
    if normalized_pattern = "" then false
    else
      (if pyEndsWith normalized_pattern "/**" then
        let pfx := pyRstripSlash (pyDropRight normalized_pattern 3)
        normalized = pfx || pyStartsWith normalized (pfx ++ "/")
       else false) ||
      env.fnmatchcase normalized normalized_pattern

/-- `prepare._parse_files`: parse, then apply the path and binary filters. -/
def _parse_files (env : Env) (raw_patch : String) (exclude_paths : List String)
    (exclude_binary : Bool) : Except String (List FilePatch) :=
  match parseUnifiedDiff env raw_patch with
  | .error e => .error e
  | .ok files =>
    let files :=
      if !exclude_paths.isEmpty then
        files.filter fun file => !_is_excluded env file.path exclude_paths
      else files
    .ok (if exclude_binary then files.filter (fun file => !file.is_binary) else files)

/-- The `stats` dict built by `prepare._stats`. -/
structure Stats where
  files_changed : Nat
  additions : Nat
  deletions : Nat
deriving DecidableEq, Repr

/-- `prepare._stats`. -/
def _stats (files : List FilePatch) : Stats :=
  ⟨files.length, (files.map FilePatch.additions).sum, (files.map FilePatch.deletions).sum⟩

/-- The `stats` dict as JSON (used inside the context payload). -/
def statsJ (s : Stats) : JValue :=
  .obj [("files_changed", .num s.files_changed),
        ("additions", .num s.additions),
        ("deletions", .num s.deletions)]

/-- The `exclude_paths` read from a source spec (`source_spec.get` with the
list check and `str` coercion, as in `build_review_context` and
`recompute_runtime_from_context`). -/
def specExcludePaths (source_spec : JValue) : List String :=
  match (source_spec.pyGetD "exclude_paths" (.arr [])).asArr with
  | some l => l.map pyStr
  | none => []

/-- The `exclude_binary` flag read from a source spec. -/
def specExcludeBinary (source_spec : JValue) : Bool :=
  (source_spec.pyGetD "exclude_binary" (.bool true)).truthy

/-- `prepare._build_context_files`. -/
def _build_context_files (env : Env) (files : List FilePatch) : List JValue :=
  files.map fun file_patch =>
    .obj [("path", .str file_patch.path),
          ("status", .str file_patch.status),
          ("anchors", .arr (file_patch.hunks.enum.map fun p =>
            .obj [("anchor_id", .str (_anchor_id env file_patch.path p.2)),
                  ("title", .str (_anchor_title file_patch.path (p.1 + 1))),
                  ("focus_snippets", .arr ((_focus_snippets p.2.lines).map JValue.str)),
                  ("risk_hint",
                    match _risk_hint p.2.lines with
                    | some s => .str s
                    | none => .null)]))]

/-- The payload serialized (key-sorted) and hashed into `context_id`
(`prepare.py` lines 338-353). -/
def contextIdPayload (source_spec : JValue) (diff_fingerprint : String)
    (context_files : List JValue) : JValue :=
  .obj [("source_spec", source_spec),
        ("diff_fingerprint", .str diff_fingerprint),
        ("files", .arr (context_files.map fun file_entry =>
          .obj [("path", file_entry.pyGet "path"),
                ("anchors", .arr
                  ((((file_entry.pyGet "anchors").asArr).getD []).map fun a =>
                    a.pyGet "anchor_id"))]))]

/-- `prepare.build_review_context` (the `generated_at` timestamp is passed
in; a diff that fails to parse propagates the `ValueError`). -/
def build_review_context (env : Env) (raw_patch : String) (source_spec : JValue)
    (generated_at : String) : Except String JValue :=
  match _parse_files env raw_patch (specExcludePaths source_spec)
      (specExcludeBinary source_spec) with
  | .error e => .error e
  | .ok files =>
    let diff_fingerprint := env.hashText raw_patch
    let context_files := _build_context_files env files
    .ok (.obj
      [("version", .str "2"),
       ("generated_at", .str generated_at),
       ("source_spec", source_spec),
       ("diff_fingerprint", .str diff_fingerprint),
       ("stats", statsJ (_stats files)),
       ("files", .arr context_files),
       ("context_id", .str (env.hashText (env.jsonDumpsSorted
         (contextIdPayload source_spec diff_fingerprint context_files))))])

/-- One resolved anchor of the runtime `anchor_index`
(`prepare.py` lines 398-409).  The `to_dict` representation that
`recompute_runtime_from_context` walks is reproduced field-by-field from the
`FilePatch` records, on which it is lossless for every field read here. -/
structure AnchorMeta where
  anchor_id : String
  hunk_id : String
  stable_hunk_id : String
  new_start : Nat
  new_end : Nat
  anchor_line : Option Nat
deriving DecidableEq, Repr

/-- `anchor_line`: the first added line carrying a new line number. -/
def anchorLineOf (h : Hunk) : Option Nat :=
  h.lines.findSome? fun line =>
    if line.line_type = .add then line.new_line else none

/-- The resolved anchor entry for one hunk. -/
def anchorMetaOf (env : Env) (path : String) (h : Hunk) : AnchorMeta :=
  { anchor_id := env.hashText (path ++ ":" ++ h.stable_hunk_id),
    hunk_id := h.hunk_id,
    stable_hunk_id := h.stable_hunk_id,
    new_start := h.new_start,
    new_end := h.new_start + (h.new_count - 1),
    anchor_line := anchorLineOf h }

/-- The per-file anchor map of the runtime `anchor_index`; hunks whose
stable id is the empty string are skipped (`prepare.py` lines 384-386). -/
def fileAnchorMapOf (env : Env) (f : FilePatch) : List (String × AnchorMeta) :=
  f.hunks.foldl
    (fun m h =>
      if h.stable_hunk_id = "" then m
      else alistSet (env.hashText (f.path ++ ":" ++ h.stable_hunk_id))
        (anchorMetaOf env f.path h) m) []

/-- The runtime `anchor_index` keyed by file path. -/
def anchorIndexOf (env : Env) (files : List FilePatch) :
    List (String × List (String × AnchorMeta)) :=
  files.foldl (fun idx f => alistSet f.path (fileAnchorMapOf env f) idx) []

/-- Modelled from the spec: the runtime mapping layer carries "the parsed
`FilePatch` objects of the current diff" (spec section 3).
`recompute_runtime_from_context` in `prepare.py` stores
`[file_patch.to_dict() ...]` under `"files"`, while every consumer —
`evaluate_annotations` (`file_entry.path`), `materialize_annotations_for_render`
(`runtime_file.path`) and the test suite (`entry.path`,
`file_patch.to_dict()`) — reads attribute-style `FilePatch` records, so the
field is modelled as the structured records the spec and the consumers
agree on. -/
structure Runtime where
  diff_fingerprint : String
  stats : Stats
  files : List FilePatch
  anchor_index : List (String × List (String × AnchorMeta))
deriving DecidableEq, Repr

/-- A propagating Python exception: `RuntimeError` is caught by
`evaluate_annotations`, `ValueError` (from the diff parser) is not. -/
inductive PyErr where
  | runtimeError : String → PyErr
  | valueError : String → PyErr
deriving DecidableEq, Repr

/-- `prepare.recompute_runtime_from_context`. -/
def recompute_runtime_from_context (env : Env) (context : JValue) :
    Except PyErr Runtime :=
  let source_spec := context.pyGet "source_spec"
  if !source_spec.isObj then .error (.runtimeError "Context is missing source_spec.")
  else
    match env.collectPatch source_spec with
    | .error e => .error (.runtimeError e)
    | .ok raw_patch =>
      match _parse_files env raw_patch (specExcludePaths source_spec)
          (specExcludeBinary source_spec) with
      | .error e => .error (.valueError e)
      | .ok files =>
        .ok { diff_fingerprint := env.hashText raw_patch,
              stats := _stats files,
              files := files,
              anchor_index := anchorIndexOf env files }

/-! ## `validate.py`: evaluation and materialization -/

/-- `annotations.iter_file_anchors`: the dict entries of the `anchors` list
(defaulting to an empty list). -/
def iter_file_anchors (fileAnn : JValue) : List JValue :=
  match (fileAnn.pyGetD "anchors" (.arr [])).asArr with
  | some l => l.filter JValue.isObj
  | none => []

/-- `validate._ensure_terminal_punctuation` (the second ellipsis alternative
is the mojibake byte sequence present in the source). -/
def _ensure_terminal_punctuation (text : String) : String :=
  let trimmed := pyStrip text
  if trimmed = "" then trimmed
  else if pyEndsWith trimmed "..." || pyEndsWith trimmed "â€¦" ||
      pyEndsWith trimmed "." || pyEndsWith trimmed "!" || pyEndsWith trimmed "?" then
    trimmed
  else trimmed ++ "."

/-- The report `stats` dict. -/
structure ReportStats where
  mapped_anchors : Nat
  unmapped_anchors : Nat
  files_with_annotations : Nat
deriving DecidableEq, Repr

/-- The report dict returned by `evaluate_annotations`. -/
structure Report where
  valid : Bool
  issues : List Issue
  stats : ReportStats
deriving DecidableEq, Repr

/-- The per-file anchor loop of `evaluate_annotations` (`validate.py` lines
126-142): returns (mapped, unmapped, issues) for one annotation file. -/
def walkFileAnchors (strict : Bool) (location path : String)
    (file_anchor_index : List (String × AnchorMeta)) :
    Nat → List JValue → Nat × Nat × List Issue
  | _, [] => (0, 0, [])
  | anchor_idx, anchor :: rest =>
    let tail := walkFileAnchors strict location path file_anchor_index
      (anchor_idx + 1) rest
    match (anchor.pyGet "anchor_id").asStr with
    | none => tail
    | some anchor_id =>
      if (alistGet? anchor_id file_anchor_index).isNone then
        (tail.1, tail.2.1 + 1,
         _issue (if strict then "error" else "warning") "unknown_anchor"
           ("anchor_id " ++ pyReprStr anchor_id ++ " was not found for file " ++
             pyReprStr path ++ ".")
           (location ++ ".anchors[" ++ natRepr anchor_idx ++ "].anchor_id") :: tail.2.2)
      else (tail.1 + 1, tail.2.1, tail.2.2)

/-- The files loop of `evaluate_annotations` (`validate.py` lines 104-142):
returns (mapped, unmapped, files_with_annotations, issues). -/
def walkFiles (strict : Bool) (runtimePaths : List String)
    (anchor_index : List (String × List (String × AnchorMeta))) :
    Nat → List JValue → Nat × Nat × Nat × List Issue
  | _, [] => (0, 0, 0, [])
  | file_idx, fileAnn :: rest =>
    let tail := walkFiles strict runtimePaths anchor_index (file_idx + 1) rest
    if !fileAnn.isObj then tail
    else
      let location := "$.files[" ++ natRepr file_idx ++ "]"
      match (fileAnn.pyGet "path").asStr with
      | none => (tail.1, tail.2.1, tail.2.2.1 + 1, tail.2.2.2)
      | some path =>
        if !runtimePaths.contains path then
          (tail.1, tail.2.1, tail.2.2.1 + 1,
           _issue (if strict then "error" else "warning") "unknown_file"
             ("Annotation file path " ++ pyReprStr path ++
               " not found in recomputed diff.")
             (location ++ ".path") :: tail.2.2.2)
        else
          let fai := (alistGet? path anchor_index).getD []
          let r := walkFileAnchors strict location path fai 0
            (iter_file_anchors fileAnn)
          (r.1 + tail.1, r.2.1 + tail.2.1, tail.2.2.1 + 1, r.2.2 ++ tail.2.2.2)

/-- `validate.evaluate_annotations`.  A `ValueError` escaping the runtime
recomputation propagates (only `RuntimeError` is caught); the returned
`Except.error` models that uncaught exception. -/
def evaluate_annotations (env : Env) (context annotations : JValue)
    (strict : Bool) : Except String (Report × Option Runtime) :=
  let issues0 := validate_annotation_schema annotations
  if !context.isObj then
    .ok ({ valid := false,
           issues := issues0 ++
             [_issue "error" "context_type" "Context must be a JSON object." "$"],
           stats := ⟨0, 0, 0⟩ }, none)
  else
    let mismatch :=
      match (context.pyGet "context_id").asStr,
            (if annotations.isObj then (annotations.pyGet "target_context_id").asStr
             else none) with
      | some context_id, some target =>
        if target ≠ context_id then
          [_issue "error" "context_mismatch"
            "target_context_id does not match context_id." "$.target_context_id"]
        else []
      | _, _ => []
    let issues1 := issues0 ++ mismatch
    match recompute_runtime_from_context env context with
    | .error (.valueError e) => .error e
    | .error (.runtimeError e) =>
      let issues2 := issues1 ++
        [_issue "error" "runtime_recompute_failed"
          ("Failed to recompute diff from source_spec: " ++ e) "$.source_spec"]
      let issuesF := if strict then issues2.map promoteIssue else issues2
      .ok ({ valid := !issuesF.any (fun i => i.level = "error"),
             issues := issuesF, stats := ⟨0, 0, 0⟩ }, none)
    | .ok runtime =>
      let staleIssues :=
        match (context.pyGet "diff_fingerprint").asStr with
        | some expected =>
          if expected ≠ runtime.diff_fingerprint then
            [_issue "error" "context_stale"
              "Current diff fingerprint does not match context; regenerate context before validating/building."
              "$.diff_fingerprint"]
          else []
        | none => []
      let issues2 := issues1 ++ staleIssues
      let walk :=
        if annotations.isObj then
          match (annotations.pyGet "files").asArr with
          | some fl =>
            walkFiles strict (runtime.files.map FilePatch.path) runtime.anchor_index 0 fl
          | none => (0, 0, 0, [])
        else (0, 0, 0, [])
      let issues3 := issues2 ++ walk.2.2.2
      let issuesF := if strict then issues3.map promoteIssue else issues3
      .ok ({ valid := !issuesF.any (fun i => i.level = "error"),
             issues := issuesF,
             stats := ⟨walk.1, walk.2.1, walk.2.2.1⟩ }, some runtime)

/-- The strict promotion as a report transform: every warning becomes an
error and validity is recomputed over the promoted issues. -/
def promoteReport (report : Report) : Report :=
  let issues := report.issues.map promoteIssue
  { valid := !issues.any (fun i => i.level = "error"),
    issues := issues, stats := report.stats }

/-- The severity selected for one anchor during materialization
(`validate.py` line 215): the anchor's own value, defaulting to the literal
`"note"` when the key is absent. -/
def materializeAnchorSeverity (anchor : JValue) : JValue :=
  if anchor.hasKey "severity" then anchor.pyGet "severity" else .str "note"

/-- The per-anchor materialization of `materialize_annotations_for_render`
(`validate.py` lines 201-275).  `none` models a raised exception
(`KeyError` / `AttributeError` on a malformed anchor); `some none` an
anchor skipped by a `continue`. -/
def materializeAnchor (per_file_anchor_index : List (String × AnchorMeta))
    (anchor : JValue) : Option (Option JValue) :=
  match anchor.getKey "anchor_id" with
  | none => none
  | some aidv =>
    match aidv.asStr with
    | none => some none
    | some anchor_id =>
      match alistGet? anchor_id per_file_anchor_index with
      | none => some none
      | some resolved =>
        match anchor.getKey "what_changed", anchor.getKey "why_changed" with
        | some wv, some yv =>
          match wv.asStr, yv.asStr with
          | some what0, some why0 =>
            let reviewer_focus? : Option String :=
              if anchor.hasKey "reviewer_focus" then
                ((anchor.pyGet "reviewer_focus").asStr).map pyStrip
              else some ""
            let risk? : Option String :=
              if anchor.hasKey "risk" then ((anchor.pyGet "risk").asStr).map pyStrip
              else some ""
            match reviewer_focus?, risk? with
            | some reviewer_focus, some risk =>
              let what_changed := pyStrip what0
              let why_changed := pyStrip why0
              let severity := materializeAnchorSeverity anchor
              let note_fields := JValue.obj
                ([("what_changed", .str (_ensure_terminal_punctuation what_changed)),
                  ("why_changed", .str (_ensure_terminal_punctuation why_changed))] ++
                 (if reviewer_focus ≠ "" then
                    [("reviewer_focus",
                      JValue.str (_ensure_terminal_punctuation reviewer_focus))]
                  else []) ++
                 (if risk ≠ "" then
                    [("risk", JValue.str (_ensure_terminal_punctuation risk))]
                  else []))
              let explanation := String.intercalate " "
                (["What changed: " ++ _ensure_terminal_punctuation what_changed,
                  "Why: " ++ _ensure_terminal_punctuation why_changed] ++
                 (if reviewer_focus ≠ "" then
                    ["Reviewer focus: " ++ _ensure_terminal_punctuation reviewer_focus]
                  else []) ++
                 (if risk ≠ "" then
                    ["Risk: " ++ _ensure_terminal_punctuation risk]
                  else []))
              let title :=
                let t := if anchor.hasKey "title" then anchor.pyGet "title" else .str ""
                if t.truthy then t else .str "Review focus"
              let comments : List JValue :=
                match resolved.anchor_line with
                | some anchor_line =>
                  if (match severity.asStr with
                      | some s => s = "warning" || s = "risk"
                      | none => false) then
                    let text_bits :=
                      (if reviewer_focus ≠ "" then
                        ["Reviewer focus: " ++ _ensure_terminal_punctuation reviewer_focus]
                       else []) ++
                      (if risk ≠ "" then
                        ["Risk: " ++ _ensure_terminal_punctuation risk]
                       else [])
                    if text_bits.isEmpty then []
                    else [JValue.obj
                      [("line_start", .num anchor_line),
                       ("text", .str (String.intercalate " " text_bits)),
                       ("severity", severity),
                       ("author", .str "prereview")]]
                  else []
                | none => []
              some (some (JValue.obj
                [("hunk_id", .str resolved.hunk_id),
                 ("new_start", .num resolved.new_start),
                 ("new_end", .num resolved.new_end),
                 ("title", title),
                 ("note_fields", note_fields),
                 ("explanation", .str explanation),
                 ("comments", .arr comments)]))
            | _, _ => none
          | _, _ => none
        | _, _ => none

/-- The `annotations_by_file` index of `materialize_annotations_for_render`
(`validate.py` lines 168-182). -/
def annotationsByFile (files : List JValue) : Option (List (String × JValue)) :=
  files.foldlM
    (fun m fileAnn => do
      let pathv ← fileAnn.getKey "path"
      let path ← pathv.asStr
      let breadcrumbs :=
        if fileAnn.hasKey "breadcrumbs" then fileAnn.pyGet "breadcrumbs"
        else .arr ((path.splitOn "/").map JValue.str)
      let summary :=
        if fileAnn.hasKey "summary" then fileAnn.pyGet "summary"
        else .null
      let anchors ← fileAnn.getKey "anchors"
      pure (alistSet path
        (JValue.obj [("path", .str path), ("breadcrumbs", breadcrumbs),
          ("summary", summary), ("anchors", anchors)]) m))
    []

/-- One render file of `materialize_annotations_for_render` (`validate.py`
lines 185-277). -/
def materializeFile (annotations_by_file : List (String × JValue))
    (anchor_index : List (String × List (String × AnchorMeta)))
    (runtime_file : FilePatch) : Option JValue := do
  let path := runtime_file.path
  let fileAnn :=
    match alistGet? path annotations_by_file with
    | some fa => fa
    | none => JValue.obj
        [("breadcrumbs", .arr ((path.splitOn "/").map JValue.str)),
         ("summary", .null), ("anchors", .arr [])]
  let breadcrumbs ← fileAnn.getKey "breadcrumbs"
  let summary ← fileAnn.getKey "summary"
  let per_file_anchor_index := (alistGet? path anchor_index).getD []
  let hunks? ← (iter_file_anchors fileAnn).mapM
    (materializeAnchor per_file_anchor_index)
  pure (JValue.obj
    [("path", .str path), ("breadcrumbs", breadcrumbs), ("summary", summary),
     ("comments", .arr []), ("hunks", .arr (hunks?.filterMap id))])

/-- `validate.materialize_annotations_for_render` (`none` models a raised
exception on malformed input). -/
def materialize_annotations_for_render (runtime : Runtime) (annotations : JValue) :
    Option JValue := do
  let filesv ← annotations.getKey "files"
  let fl ← filesv.asArr
  let annotations_by_file ← annotationsByFile fl
  let render_files ← runtime.files.mapM
    (materializeFile annotations_by_file runtime.anchor_index)
  let overview ← annotations.getKey "overview"
  pure (JValue.obj
    [("version", .str "render-2"), ("overview", overview),
     ("files", .arr render_files)])

/-! ## `review_io.py`: the notes JSONL reader -/

/-- Python `str.lower()` (ASCII, which covers the severity tokens). -/
def pyLower (s : String) : String := ⟨s.data.map Char.toLower⟩

/-- A rejected-record payload: raw line text for JSON failures, the decoded
record otherwise. -/
inductive RejectedPayload where
  | raw : String → RejectedPayload
  | record : JValue → RejectedPayload
deriving Repr, Inhabited

/-- One entry of the `rejected` list of `parse_review_notes_jsonl`. -/
structure Rejected where
  line : Nat
  code : String
  message : String
  payload : RejectedPayload
deriving Repr, Inhabited

/-- The mutable state of the `parse_review_notes_jsonl` line loop. -/
structure NotesState where
  overview : List String
  file_summaries_by_path : List (String × String)
  anchors_by_id : List (String × JValue)
  issues : List Issue
  rejected : List Rejected
deriving Repr, Inhabited

/-- The context scan of `parse_review_notes_jsonl` (`review_io.py` lines
161-180): file order, anchor order and the anchor-to-file map. -/
def reviewContextScan (context : JValue) :
    List String × List String × List (String × String) :=
  (((context.pyGetD "files" (.arr [])).asArr).getD []).foldl
    (fun acc file_entry =>
      if !file_entry.isObj then acc
      else
        match (file_entry.pyGet "path").asStr with
        | none => acc
        | some file_path =>
          if file_path = "" then acc
          else
            let anchors := ((file_entry.pyGetD "anchors" (.arr [])).asArr).getD []
            let inner := anchors.foldl
              (fun (p : List String × List (String × String)) anchor =>
                if !anchor.isObj then p
                else
                  match (anchor.pyGet "anchor_id").asStr with
                  | none => p
                  | some anchor_id =>
                    if anchor_id = "" then p
                    else (p.1 ++ [anchor_id], alistSet anchor_id file_path p.2))
              (acc.2.1, acc.2.2)
            (acc.1 ++ [file_path], inner.1, inner.2))
    ([], [], [])

/-- The `overview` record branch of the line loop (`review_io.py` lines
252-272), as the effect on (payload, issues, rejected). -/
def overviewLineEffect (location : String) (line_no : Nat) (record : JValue)
    (overview : List String) (file_summaries_by_path : List (String × String))
    (anchors_by_id : List (String × JValue)) :
    (List String × List (String × String) × List (String × JValue)) ×
      List Issue × List Rejected :=
  match (record.pyGet "text").asStr with
  | some text =>
    if pyStrip text ≠ "" then
      ((overview ++ [pyStrip text], file_summaries_by_path, anchors_by_id), [], [])
    else
      ((overview, file_summaries_by_path, anchors_by_id),
       [_warning "overview_text"
         ("Rejected line " ++ natRepr line_no ++ ": overview.text must be non-empty.")
         location],
       [⟨line_no, "overview_text", "overview.text must be non-empty", .record record⟩])
  | none =>
    ((overview, file_summaries_by_path, anchors_by_id),
     [_warning "overview_text"
       ("Rejected line " ++ natRepr line_no ++ ": overview.text must be non-empty.")
       location],
     [⟨line_no, "overview_text", "overview.text must be non-empty", .record record⟩])

/-- The `file_summary` record branch of the line loop (`review_io.py` lines
274-337). -/
def fileSummaryLineEffect (known_paths : List String) (location : String)
    (line_no : Nat) (record : JValue) (overview : List String)
    (file_summaries_by_path : List (String × String))
    (anchors_by_id : List (String × JValue)) :
    (List String × List (String × String) × List (String × JValue)) ×
      List Issue × List Rejected :=
  match (record.pyGet "path").asStr with
  | some file_path =>
    if file_path = "" then
      ((overview, file_summaries_by_path, anchors_by_id),
       [_warning "file_summary_path"
         ("Rejected line " ++ natRepr line_no ++ ": file_summary.path is required.")
         location],
       [⟨line_no, "file_summary_path", "file_summary.path is required",
         .record record⟩])
    else if !known_paths.contains file_path then
      ((overview, file_summaries_by_path, anchors_by_id),
       [_warning "unknown_file"
         ("Rejected line " ++ natRepr line_no ++ ": unknown file path " ++
           pyReprStr file_path ++ ".") location],
       [⟨line_no, "unknown_file", "unknown file path " ++ pyReprStr file_path,
         .record record⟩])
    else
      match (record.pyGet "summary").asStr with
      | some summary =>
        if pyStrip summary = "" then
          ((overview, file_summaries_by_path, anchors_by_id),
           [_warning "file_summary_text"
             ("Rejected line " ++ natRepr line_no ++
               ": file_summary.summary must be non-empty.") location],
           [⟨line_no, "file_summary_text", "file_summary.summary must be non-empty",
             .record record⟩])
        else
          ((overview, alistSet file_path (pyStrip summary) file_summaries_by_path,
            anchors_by_id),
           (if (alistGet? file_path file_summaries_by_path).isSome then
             [_warning "duplicate_file_summary"
               ("Duplicate file_summary for " ++ pyReprStr file_path ++
                 "; keeping the latest.") location]
            else []),
           [])
      | none =>
        ((overview, file_summaries_by_path, anchors_by_id),
         [_warning "file_summary_text"
           ("Rejected line " ++ natRepr line_no ++
             ": file_summary.summary must be non-empty.") location],
         [⟨line_no, "file_summary_text", "file_summary.summary must be non-empty",
           .record record⟩])
  | none =>
    ((overview, file_summaries_by_path, anchors_by_id),
     [_warning "file_summary_path"
       ("Rejected line " ++ natRepr line_no ++ ": file_summary.path is required.")
       location],
     [⟨line_no, "file_summary_path", "file_summary.path is required",
       .record record⟩])

/-- The optional fields of an anchor-note record (`title`,
`reviewer_focus`, `risk`), stripped when non-blank strings. -/
def anchorNoteOptFields (record : JValue) : List (String × JValue) :=
  (match (record.pyGet "title").asStr with
   | some t => if pyStrip t ≠ "" then [("title", JValue.str (pyStrip t))] else []
   | none => []) ++
  (match (record.pyGet "reviewer_focus").asStr with
   | some t => if pyStrip t ≠ "" then [("reviewer_focus", JValue.str (pyStrip t))] else []
   | none => []) ++
  (match (record.pyGet "risk").asStr with
   | some t => if pyStrip t ≠ "" then [("risk", JValue.str (pyStrip t))] else []
   | none => [])

/-- The severity handling of an anchor-note record (`review_io.py` lines
430-451): `none` is the rejection, `some fields` the (possibly empty)
normalized severity field. -/
def anchorNoteSeverity (record : JValue) : Option (List (String × JValue)) :=
  match (record.pyGet "severity").asStr with
  | some severity =>
    if pyStrip severity ≠ "" then
      if _ALLOWED_SEVERITIES.contains (pyLower (pyStrip severity)) then
        some [("severity", JValue.str (pyLower (pyStrip severity)))]
      else none
    else some []
  | none => some []

/-- The `anchor_note` record branch of the line loop (`review_io.py` lines
339-462). -/
def anchorNoteLineEffect (known_anchors : List (String × String))
    (location : String) (line_no : Nat) (record : JValue) (overview : List String)
    (file_summaries_by_path : List (String × String))
    (anchors_by_id : List (String × JValue)) :
    (List String × List (String × String) × List (String × JValue)) ×
      List Issue × List Rejected :=
  match (record.pyGet "anchor_id").asStr with
  | some anchor_id =>
    if anchor_id = "" then
      ((overview, file_summaries_by_path, anchors_by_id),
       [_warning "missing_anchor_id"
         ("Rejected line " ++ natRepr line_no ++ ": anchor_note.anchor_id is required.")
         location],
       [⟨line_no, "missing_anchor_id", "anchor_note.anchor_id is required",
         .record record⟩])
    else if (alistGet? anchor_id known_anchors).isNone then
      ((overview, file_summaries_by_path, anchors_by_id),
       [_warning "unknown_anchor_id"
         ("Rejected line " ++ natRepr line_no ++ ": unknown anchor_id " ++
           pyReprStr anchor_id ++ ".") location],
       [⟨line_no, "unknown_anchor_id", "unknown anchor_id " ++ pyReprStr anchor_id,
         .record record⟩])
    else
      match (record.pyGet "what_changed").asStr with
      | some what_changed =>
        if pyStrip what_changed = "" then
          ((overview, file_summaries_by_path, anchors_by_id),
           [_warning "missing_what_changed"
             ("Rejected line " ++ natRepr line_no ++ ": what_changed is required.")
             location],
           [⟨line_no, "missing_what_changed", "what_changed is required",
             .record record⟩])
        else
          match (record.pyGet "why_changed").asStr with
          | some why_changed =>
            if pyStrip why_changed = "" then
              ((overview, file_summaries_by_path, anchors_by_id),
               [_warning "missing_why_changed"
                 ("Rejected line " ++ natRepr line_no ++ ": why_changed is required.")
                 location],
               [⟨line_no, "missing_why_changed", "why_changed is required",
                 .record record⟩])
            else
              match anchorNoteSeverity record with
              | none =>
                ((overview, file_summaries_by_path, anchors_by_id),
                 [_warning "bad_severity"
                   ("Rejected line " ++ natRepr line_no ++ ": bad severity " ++
                     pyReprStr (pyStr (record.pyGet "severity")) ++ ".") location],
                 [⟨line_no, "bad_severity",
                   "bad severity " ++ pyReprStr (pyStr (record.pyGet "severity")),
                   .record record⟩])
              | some sevFields =>
                ((overview, file_summaries_by_path,
                  alistSet anchor_id
                    (JValue.obj
                      (("anchor_id", JValue.str anchor_id) ::
                       ("what_changed", JValue.str (pyStrip what_changed)) ::
                       ("why_changed", JValue.str (pyStrip why_changed)) ::
                       (anchorNoteOptFields record ++ sevFields)))
                    anchors_by_id),
                 (if (alistGet? anchor_id anchors_by_id).isSome then
                   [_warning "duplicate_anchor_note"
                     ("Duplicate anchor note for " ++ pyReprStr anchor_id ++
                       "; keeping the latest.") location]
                  else []),
                 [])
          | none =>
            ((overview, file_summaries_by_path, anchors_by_id),
             [_warning "missing_why_changed"
               ("Rejected line " ++ natRepr line_no ++ ": why_changed is required.")
               location],
             [⟨line_no, "missing_why_changed", "why_changed is required",
               .record record⟩])
      | none =>
        ((overview, file_summaries_by_path, anchors_by_id),
         [_warning "missing_what_changed"
           ("Rejected line " ++ natRepr line_no ++ ": what_changed is required.")
           location],
         [⟨line_no, "missing_what_changed", "what_changed is required",
           .record record⟩])
  | none =>
    ((overview, file_summaries_by_path, anchors_by_id),
     [_warning "missing_anchor_id"
       ("Rejected line " ++ natRepr line_no ++ ": anchor_note.anchor_id is required.")
       location],
     [⟨line_no, "missing_anchor_id", "anchor_note.anchor_id is required",
       .record record⟩])

/-- One iteration of the `parse_review_notes_jsonl` line loop
(`review_io.py` lines 187-478), presented as the effect on the loop state:
the new payload (overview, file summaries, anchor notes) — which the line
reads and writes — plus the issues and rejected entries the line appends.
The payload maps are consulted only for the duplicate warnings. -/
def noteLineEffect (env : Env) (fileName : String) (known_paths : List String)
    (known_anchors : List (String × String)) (overview : List String)
    (file_summaries_by_path : List (String × String))
    (anchors_by_id : List (String × JValue)) (line_no : Nat) (raw_line : String) :
    (List String × List (String × String) × List (String × JValue)) ×
      List Issue × List Rejected :=
  let stripped := pyStrip raw_line
  if stripped = "" || pyStartsWith stripped "#" then
    ((overview, file_summaries_by_path, anchors_by_id), [], [])
  else
    let location := fileName ++ ":" ++ natRepr line_no
    match env.jsonParse stripped with
    | .error msg =>
      ((overview, file_summaries_by_path, anchors_by_id),
       [_warning "invalid_jsonl"
         ("Rejected line " ++ natRepr line_no ++ ": invalid JSON (" ++ msg ++ ").")
         location],
       [⟨line_no, "invalid_jsonl", msg, .raw raw_line⟩])
    | .ok record =>
      if !record.isObj then
        ((overview, file_summaries_by_path, anchors_by_id),
         [_warning "record_type"
           ("Rejected line " ++ natRepr line_no ++ ": record must be a JSON object.")
           location],
         [⟨line_no, "record_type", "record must be a JSON object", .record record⟩])
      else
        match (record.pyGet "type").asStr with
        | none =>
          ((overview, file_summaries_by_path, anchors_by_id),
           [_warning "missing_type"
             ("Rejected line " ++ natRepr line_no ++ ": missing record type.") location],
           [⟨line_no, "missing_type", "missing record type", .record record⟩])
        | some record_type =>
          if pyStrip record_type = "" then
            ((overview, file_summaries_by_path, anchors_by_id),
             [_warning "missing_type"
               ("Rejected line " ++ natRepr line_no ++ ": missing record type.") location],
             [⟨line_no, "missing_type", "missing record type", .record record⟩])
          else if record_type = "overview" then
            overviewLineEffect location line_no record overview
              file_summaries_by_path anchors_by_id
          else if record_type = "file_summary" then
            fileSummaryLineEffect known_paths location line_no record overview
              file_summaries_by_path anchors_by_id
          else if record_type = "anchor_note" then
            anchorNoteLineEffect known_anchors location line_no record overview
              file_summaries_by_path anchors_by_id
          else
            ((overview, file_summaries_by_path, anchors_by_id),
             [_warning "unknown_type"
               ("Rejected line " ++ natRepr line_no ++ ": unsupported record type " ++
                 pyReprStr record_type ++ ".") location],
             [⟨line_no, "unknown_type",
               "unsupported record type " ++ pyReprStr record_type, .record record⟩])

/-- One iteration of the line loop as a state update: the effect applied to
the running state (issues and rejected entries always append). -/
def processNoteLine (env : Env) (fileName : String) (known_paths : List String)
    (known_anchors : List (String × String)) (st : NotesState) (line_no : Nat)
    (raw_line : String) : NotesState :=
  let e := noteLineEffect env fileName known_paths known_anchors st.overview
    st.file_summaries_by_path st.anchors_by_id line_no raw_line
  { overview := e.1.1, file_summaries_by_path := e.1.2.1, anchors_by_id := e.1.2.2,
    issues := st.issues ++ e.2.1, rejected := st.rejected ++ e.2.2 }

/-- `review_io.parse_review_notes_jsonl` over the file's text (the caller
reads the file; a missing file contributes no lines). -/
def parse_review_notes_jsonl (env : Env) (fileName : String) (text : String)
    (context : JValue) : JValue × List Issue × List Rejected :=
  let scan := reviewContextScan context
  let file_order := scan.1
  let anchor_order := scan.2.1
  let known_anchors := scan.2.2
  let st := (pySplitlines text).enum.foldl
    (fun st p => processNoteLine env fileName file_order known_anchors st (p.1 + 1) p.2)
    ⟨[], [], [], [], []⟩
  let target_context_id :=
    match (context.pyGet "context_id").asStr with
    | some s => s
    | none => ""
  let anchor_entries := anchor_order.filterMap
    (fun anchor_id => alistGet? anchor_id st.anchors_by_id)
  let file_summary_entries := file_order.filterMap
    (fun file_path => (alistGet? file_path st.file_summaries_by_path).map
      (fun s => JValue.obj [("path", .str file_path), ("summary", .str s)]))
  (.obj
    ([("version", .str "1"),
      ("target_context_id", .str target_context_id),
      ("overview", .arr (st.overview.map JValue.str)),
      ("anchors", .arr anchor_entries)] ++
     (if file_summary_entries.isEmpty then []
      else [("file_summaries", .arr file_summary_entries)])),
   st.issues, st.rejected)

/-! ## C8: the severity set and its default -/

theorem mem_ite_nil {c : Prop} [Decidable c] {e i : Issue}
    (h : i ∈ (if c then ([] : List Issue) else [e])) : i = e := by
  split at h
  · simp at h
  · simpa using h

theorem mem_ite_nil' {c : Prop} [Decidable c] {e i : Issue}
    (h : i ∈ (if c then [e] else ([] : List Issue))) : i = e ∧ c := by
  split at h
  · exact ⟨by simpa using h, by assumption⟩
  · simp at h

/-- C8 (corrected): an anchor's `severity` must be a member of the fixed set
info/note/warning/risk — a present value outside the set is exactly what
raises the `bad_severity` schema error — and an anchor carrying no severity
is materialized with the literal default `"note"` (not the set's mildest
member `"info"`). -/
theorem severity_enum_and_note_default (anchor_loc : String) (anchor : JValue) :
    ((∃ i ∈ anchorCommonIssues anchor_loc anchor, i.code = "bad_severity") ↔
      ((anchor.pyGet "severity").isNull = false ∧
        severityAllowed (anchor.pyGet "severity") = false)) ∧
    (∀ j : JValue, severityAllowed j = true ↔
      ∃ s, j = JValue.str s ∧ s ∈ _ALLOWED_SEVERITIES) ∧
    (anchor.hasKey "severity" = false →
      materializeAnchorSeverity anchor = JValue.str "note") := by
  refine ⟨?_, ?_, ?_⟩
  · constructor
    · rintro ⟨i, hi, hcode⟩
      unfold anchorCommonIssues at hi
      rcases List.mem_append.mp hi with h | h
      · rcases List.mem_append.mp h with h | h
        · rcases List.mem_append.mp h with h | h
          · rcases List.mem_append.mp h with h | h
            · rcases List.mem_append.mp h with h | h
              · rw [mem_ite_nil h] at hcode; simp [_error] at hcode
              · rw [mem_ite_nil h] at hcode; simp [_error] at hcode
            · rw [(mem_ite_nil' h).1] at hcode; simp [_error] at hcode
          · rw [(mem_ite_nil' h).1] at hcode; simp [_error] at hcode
        · rw [(mem_ite_nil' h).1] at hcode; simp [_error] at hcode
      · have := mem_ite_nil' h
        constructor
        · by_contra hnull
          simp only [Bool.not_eq_false] at hnull
          simp [hnull] at this
        · by_contra hall
          simp only [Bool.not_eq_false] at hall
          simp [hall] at this
    · rintro ⟨hnull, hall⟩
      refine ⟨_error "bad_severity" "severity must be one of info, note, warning, or risk."
        (anchor_loc ++ ".severity"), List.mem_append.mpr (Or.inr ?_), rfl⟩
      simp [hnull, hall]
  · intro j
    cases j <;> simp [severityAllowed, _ALLOWED_SEVERITIES]
  · intro h
    unfold materializeAnchorSeverity
    simp [h]

theorem severity_enum_and_note_default_witness :
    ((∃ i ∈ anchorCommonIssues "$.anchors[0]" (JValue.obj []),
        i.code = "bad_severity") ↔
      (((JValue.obj []).pyGet "severity").isNull = false ∧
        severityAllowed ((JValue.obj []).pyGet "severity") = false)) ∧
    (∀ j : JValue, severityAllowed j = true ↔
      ∃ s, j = JValue.str s ∧ s ∈ _ALLOWED_SEVERITIES) ∧
    ((JValue.obj []).hasKey "severity" = false →
      materializeAnchorSeverity (JValue.obj []) = JValue.str "note") :=
  severity_enum_and_note_default "$.anchors[0]" (JValue.obj [])

/-- C8 counterexample to the claimed default: an anchor with no `severity`
key is materialized with severity `"note"`, which is not the mildest member
`"info"` of the allowed set. -/
theorem severity_default_is_note_not_mildest :
    materializeAnchorSeverity
        (JValue.obj [("anchor_id", JValue.str "a"),
          ("what_changed", JValue.str "w"), ("why_changed", JValue.str "y")]) =
      JValue.str "note" ∧
    _ALLOWED_SEVERITIES.head? = some "info" ∧ ("note" : String) ≠ "info" :=
  ⟨rfl, rfl, by decide⟩

/-! ## C7: duplicate anchor ids -/

theorem anchorCommonIssues_code_ne (anchor_loc : String) (anchor : JValue) :
    ∀ i ∈ anchorCommonIssues anchor_loc anchor, i.code ≠ "duplicate_anchor_id" := by
  intro i hi
  unfold anchorCommonIssues at hi
  rcases List.mem_append.mp hi with h | h
  · rcases List.mem_append.mp h with h | h
    · rcases List.mem_append.mp h with h | h
      · rcases List.mem_append.mp h with h | h
        · rcases List.mem_append.mp h with h | h
          · rw [mem_ite_nil h]; simp [_error]
          · rw [mem_ite_nil h]; simp [_error]
        · rw [(mem_ite_nil' h).1]; simp [_error]
      · rw [(mem_ite_nil' h).1]; simp [_error]
    · rw [(mem_ite_nil' h).1]; simp [_error]
  · rw [(mem_ite_nil' h).1]; simp [_error]

theorem overviewIssues_code_ne (ov : JValue) :
    ∀ i ∈ overviewIssues ov, i.code ≠ "duplicate_anchor_id" := by
  intro i hi
  unfold overviewIssues at hi
  split at hi
  · simp at hi
  · split at hi
    · split at hi
      · split at hi
        · simp only [List.mem_singleton] at hi; subst hi; simp [_warning]
        · simp at hi
      · simp only [List.mem_singleton] at hi; subst hi; simp [_error]
    · simp only [List.mem_singleton] at hi; subst hi; simp [_error]

theorem fileEntryIssues_code_ne (k : Nat) (fe : JValue) :
    ∀ i ∈ fileEntryIssues k fe, i.code ≠ "duplicate_anchor_id" := by
  intro i hi
  unfold fileEntryIssues at hi
  cases fe with
  | obj fields =>
    rcases List.mem_append.mp hi with h | h
    · rcases List.mem_append.mp h with h | h
      · rw [mem_ite_nil h]; simp [_error]
      · rw [(mem_ite_nil' h).1]; simp [_error]
    · split at h
      · simp only [List.mem_singleton] at h; subst h; simp [_error]
      · rcases List.mem_join.mp h with ⟨l, hl, hil⟩
        rcases List.mem_map.mp hl with ⟨p, -, rfl⟩
        cases hp2 : p.2 with
        | obj afields =>
          rw [hp2] at hil
          rcases List.mem_append.mp hil with h2 | h2
          · rw [mem_ite_nil h2]; simp [_error]
          · exact anchorCommonIssues_code_ne _ _ i h2
        | null => rw [hp2] at hil; simp only [List.mem_singleton] at hil; subst hil; simp [_error]
        | bool b => rw [hp2] at hil; simp only [List.mem_singleton] at hil; subst hil; simp [_error]
        | num n => rw [hp2] at hil; simp only [List.mem_singleton] at hil; subst hil; simp [_error]
        | str s => rw [hp2] at hil; simp only [List.mem_singleton] at hil; subst hil; simp [_error]
        | arr l2 => rw [hp2] at hil; simp only [List.mem_singleton] at hil; subst hil; simp [_error]
  | null => simp only [List.mem_singleton] at hi; subst hi; simp [_error]
  | bool b => simp only [List.mem_singleton] at hi; subst hi; simp [_error]
  | num n => simp only [List.mem_singleton] at hi; subst hi; simp [_error]
  | str s => simp only [List.mem_singleton] at hi; subst hi; simp [_error]
  | arr l => simp only [List.mem_singleton] at hi; subst hi; simp [_error]

theorem validate_annotation_schema_no_duplicate_code (doc : JValue) :
    ∀ i ∈ validate_annotation_schema doc, i.code ≠ "duplicate_anchor_id" := by
  intro i hi
  unfold validate_annotation_schema at hi
  cases doc with
  | obj fields =>
    rcases List.mem_append.mp hi with h | h
    · rcases List.mem_append.mp h with h | h
      · rcases List.mem_append.mp h with h | h
        · rw [mem_ite_nil h]; simp [_error]
        · rw [mem_ite_nil h]; simp [_error]
      · exact overviewIssues_code_ne _ i h
    · split at h
      · simp only [List.mem_singleton] at h; subst h; simp [_error]
      · rcases List.mem_join.mp h with ⟨l, hl, hil⟩
        rcases List.mem_map.mp hl with ⟨p, -, rfl⟩
        exact fileEntryIssues_code_ne _ _ i hil
  | null => simp only [List.mem_singleton] at hi; subst hi; simp [_error]
  | bool b => simp only [List.mem_singleton] at hi; subst hi; simp [_error]
  | num n => simp only [List.mem_singleton] at hi; subst hi; simp [_error]
  | str s => simp only [List.mem_singleton] at hi; subst hi; simp [_error]
  | arr l => simp only [List.mem_singleton] at hi; subst hi; simp [_error]

theorem notesAnchorIssues_seen_dup {s : String} (hs : s ≠ "") :
    ∀ (l : List JValue) (idx : Nat) (seen : List String), s ∈ seen →
    (∃ a ∈ l, a.isObj = true ∧ (a.pyGet "anchor_id").asStr = some s) →
    ∃ i ∈ notesAnchorIssues idx seen l, i.code = "duplicate_anchor_id" := by
  intro l
  induction l with
  | nil =>
    rintro idx seen hseen ⟨a, ha, -⟩
    simp at ha
  | cons a rest ih =>
    rintro idx seen hseen ⟨b, hb, hobj, hid⟩
    rcases List.mem_cons.mp hb with rfl | hbrest
    · cases b with
      | obj fields =>
        rw [notesAnchorIssues]
        simp only [hid, if_neg hs, List.elem_eq_true_of_mem hseen]
        refine ⟨_error "duplicate_anchor_id"
          ("anchor_id " ++ pyReprStr s ++ " is duplicated in notes.")
          ("$.anchors[" ++ natRepr idx ++ "]" ++ ".anchor_id"), ?_, rfl⟩
        simp
      | null => simp [JValue.isObj] at hobj
      | bool c => simp [JValue.isObj] at hobj
      | num n => simp [JValue.isObj] at hobj
      | str t => simp [JValue.isObj] at hobj
      | arr l2 => simp [JValue.isObj] at hobj
    · cases a with
      | obj fields =>
        rw [notesAnchorIssues]
        cases hid' : ((JValue.obj fields).pyGet "anchor_id").asStr with
        | none =>
          obtain ⟨i, hi, hc⟩ := ih (idx + 1) seen hseen ⟨b, hbrest, hobj, hid⟩
          refine ⟨i, ?_, hc⟩
          simp only [hid']
          exact List.mem_append.mpr (Or.inr hi)
        | some t =>
          by_cases ht : t = ""
          · obtain ⟨i, hi, hc⟩ := ih (idx + 1) seen hseen ⟨b, hbrest, hobj, hid⟩
            refine ⟨i, ?_, hc⟩
            simp only [hid', if_pos ht]
            exact List.mem_append.mpr (Or.inr hi)
          · by_cases hc2 : seen.contains t = true
            · obtain ⟨i, hi, hc⟩ := ih (idx + 1) seen hseen ⟨b, hbrest, hobj, hid⟩
              refine ⟨i, ?_, hc⟩
              simp only [hid', if_neg ht, hc2, if_pos]
              exact List.mem_append.mpr (Or.inr hi)
            · obtain ⟨i, hi, hc⟩ := ih (idx + 1) (t :: seen) (by simp [hseen])
                ⟨b, hbrest, hobj, hid⟩
              refine ⟨i, ?_, hc⟩
              simp only [hid', if_neg ht, hc2]
              simp only [Bool.false_eq_true, if_false]
              exact List.mem_append.mpr (Or.inr hi)
      | null =>
        obtain ⟨i, hi, hc⟩ := ih (idx + 1) seen hseen ⟨b, hbrest, hobj, hid⟩
        refine ⟨i, ?_, hc⟩
        rw [notesAnchorIssues]
        · exact List.mem_append.mpr (Or.inr hi)
        · intro a h
          exact JValue.noConfusion h
      | bool c =>
        obtain ⟨i, hi, hc⟩ := ih (idx + 1) seen hseen ⟨b, hbrest, hobj, hid⟩
        refine ⟨i, ?_, hc⟩
        rw [notesAnchorIssues]
        · exact List.mem_append.mpr (Or.inr hi)
        · intro a h
          exact JValue.noConfusion h
      | num n =>
        obtain ⟨i, hi, hc⟩ := ih (idx + 1) seen hseen ⟨b, hbrest, hobj, hid⟩
        refine ⟨i, ?_, hc⟩
        rw [notesAnchorIssues]
        · exact List.mem_append.mpr (Or.inr hi)
        · intro a h
          exact JValue.noConfusion h
      | str t =>
        obtain ⟨i, hi, hc⟩ := ih (idx + 1) seen hseen ⟨b, hbrest, hobj, hid⟩
        refine ⟨i, ?_, hc⟩
        rw [notesAnchorIssues]
        · exact List.mem_append.mpr (Or.inr hi)
        · intro a h
          exact JValue.noConfusion h
      | arr l2 =>
        obtain ⟨i, hi, hc⟩ := ih (idx + 1) seen hseen ⟨b, hbrest, hobj, hid⟩
        refine ⟨i, ?_, hc⟩
        rw [notesAnchorIssues]
        · exact List.mem_append.mpr (Or.inr hi)
        · intro a h
          exact JValue.noConfusion h

theorem notesAnchorIssues_two_dup {s : String} (hs : s ≠ "") :
    ∀ (l₁ : List JValue) (a : JValue) (l₂ : List JValue) (idx : Nat)
      (seen : List String),
    a.isObj = true → (a.pyGet "anchor_id").asStr = some s →
    (∃ b ∈ l₂, b.isObj = true ∧ (b.pyGet "anchor_id").asStr = some s) →
    ∃ i ∈ notesAnchorIssues idx seen (l₁ ++ a :: l₂),
      i.code = "duplicate_anchor_id" := by
  intro l₁
  induction l₁ with
  | nil =>
    intro a l₂ idx seen hobj hid hex
    rw [List.nil_append]
    cases a with
    | obj fields =>
      rw [notesAnchorIssues]
      by_cases hc2 : seen.contains s = true
      · refine ⟨_error "duplicate_anchor_id"
          ("anchor_id " ++ pyReprStr s ++ " is duplicated in notes.")
          ("$.anchors[" ++ natRepr idx ++ "]" ++ ".anchor_id"), ?_, rfl⟩
        simp only [hid, if_neg hs, hc2, if_pos]
        simp
      · obtain ⟨i, hi, hcode⟩ := notesAnchorIssues_seen_dup hs l₂ (idx + 1)
          (s :: seen) (by simp) hex
        refine ⟨i, ?_, hcode⟩
        simp only [hid, if_neg hs, hc2]
        simp only [Bool.false_eq_true, if_false]
        exact List.mem_append.mpr (Or.inr hi)
    | null => simp [JValue.isObj] at hobj
    | bool c => simp [JValue.isObj] at hobj
    | num n => simp [JValue.isObj] at hobj
    | str t => simp [JValue.isObj] at hobj
    | arr l => simp [JValue.isObj] at hobj
  | cons x rest ih =>
    intro a l₂ idx seen hobj hid hex
    rw [List.cons_append]
    cases x with
    | obj fields =>
      rw [notesAnchorIssues]
      cases hid' : ((JValue.obj fields).pyGet "anchor_id").asStr with
      | none =>
        obtain ⟨i, hi, hc⟩ := ih a l₂ (idx + 1) seen hobj hid hex
        refine ⟨i, ?_, hc⟩
        simp only [hid']
        exact List.mem_append.mpr (Or.inr hi)
      | some t =>
        by_cases ht : t = ""
        · obtain ⟨i, hi, hc⟩ := ih a l₂ (idx + 1) seen hobj hid hex
          refine ⟨i, ?_, hc⟩
          simp only [hid', if_pos ht]
          exact List.mem_append.mpr (Or.inr hi)
        · by_cases hc2 : seen.contains t = true
          · obtain ⟨i, hi, hc⟩ := ih a l₂ (idx + 1) seen hobj hid hex
            refine ⟨i, ?_, hc⟩
            simp only [hid', if_neg ht, hc2, if_pos]
            exact List.mem_append.mpr (Or.inr hi)
          · obtain ⟨i, hi, hc⟩ := ih a l₂ (idx + 1) (t :: seen) hobj hid hex
            refine ⟨i, ?_, hc⟩
            simp only [hid', if_neg ht, hc2]
            simp only [Bool.false_eq_true, if_false]
            exact List.mem_append.mpr (Or.inr hi)
    | null =>
      obtain ⟨i, hi, hc⟩ := ih a l₂ (idx + 1) seen hobj hid hex
      refine ⟨i, ?_, hc⟩
      rw [notesAnchorIssues]
      · exact List.mem_append.mpr (Or.inr hi)
      · intro p h
        exact JValue.noConfusion h
    | bool c =>
      obtain ⟨i, hi, hc⟩ := ih a l₂ (idx + 1) seen hobj hid hex
      refine ⟨i, ?_, hc⟩
      rw [notesAnchorIssues]
      · exact List.mem_append.mpr (Or.inr hi)
      · intro p h
        exact JValue.noConfusion h
    | num n =>
      obtain ⟨i, hi, hc⟩ := ih a l₂ (idx + 1) seen hobj hid hex
      refine ⟨i, ?_, hc⟩
      rw [notesAnchorIssues]
      · exact List.mem_append.mpr (Or.inr hi)
      · intro p h
        exact JValue.noConfusion h
    | str t =>
      obtain ⟨i, hi, hc⟩ := ih a l₂ (idx + 1) seen hobj hid hex
      refine ⟨i, ?_, hc⟩
      rw [notesAnchorIssues]
      · exact List.mem_append.mpr (Or.inr hi)
      · intro p h
        exact JValue.noConfusion h
    | arr l =>
      obtain ⟨i, hi, hc⟩ := ih a l₂ (idx + 1) seen hobj hid hex
      refine ⟨i, ?_, hc⟩
      rw [notesAnchorIssues]
      · exact List.mem_append.mpr (Or.inr hi)
      · intro p h
        exact JValue.noConfusion h

/-- C7 (corrected): a duplicated `anchor_id` is an error in the NOTES schema
validator — any notes document whose anchors list carries two object entries
with the same non-empty id gets a `duplicate_anchor_id` error — but the
annotations-document validator performs no such check: no input whatsoever
makes `validate_annotation_schema` emit that code. -/
theorem duplicate_anchor_id_notes_only (notes : JValue)
    (pre mid post : List JValue) (a b : JValue) (s : String)
    (hobj : notes.isObj = true)
    (hanch : (notes.pyGet "anchors").asArr = some (pre ++ a :: (mid ++ b :: post)))
    (ha : a.isObj = true) (hb : b.isObj = true)
    (hsa : (a.pyGet "anchor_id").asStr = some s)
    (hsb : (b.pyGet "anchor_id").asStr = some s) (hs : s ≠ "") :
    (∃ i ∈ validate_annotation_notes_schema notes, i.code = "duplicate_anchor_id") ∧
    (∀ doc : JValue, ∀ i ∈ validate_annotation_schema doc,
      i.code ≠ "duplicate_anchor_id") := by
  refine ⟨?_, validate_annotation_schema_no_duplicate_code⟩
  obtain ⟨i, hi, hcode⟩ := notesAnchorIssues_two_dup hs pre a (mid ++ b :: post)
    0 [] ha hsa ⟨b, by simp, hb, hsb⟩
  cases notes with
  | obj fields =>
    refine ⟨i, ?_, hcode⟩
    unfold validate_annotation_notes_schema
    rw [hanch]
    refine List.mem_append.mpr (Or.inr ?_)
    exact List.mem_append.mpr (Or.inl hi)
  | null => simp [JValue.isObj] at hobj
  | bool c => simp [JValue.isObj] at hobj
  | num n => simp [JValue.isObj] at hobj
  | str t => simp [JValue.isObj] at hobj
  | arr l => simp [JValue.isObj] at hobj

theorem duplicate_anchor_id_notes_only_witness :
    (∃ i ∈ validate_annotation_notes_schema (JValue.obj
        [("anchors", JValue.arr
          [JValue.obj [("anchor_id", JValue.str "a")],
           JValue.obj [("anchor_id", JValue.str "a")]])]),
      i.code = "duplicate_anchor_id") ∧
    (∀ doc : JValue, ∀ i ∈ validate_annotation_schema doc,
      i.code ≠ "duplicate_anchor_id") :=
  duplicate_anchor_id_notes_only
    (JValue.obj [("anchors", JValue.arr
      [JValue.obj [("anchor_id", JValue.str "a")],
       JValue.obj [("anchor_id", JValue.str "a")]])])
    [] [] [] (JValue.obj [("anchor_id", JValue.str "a")])
    (JValue.obj [("anchor_id", JValue.str "a")]) "a"
    rfl rfl rfl rfl rfl rfl (by decide)

/-- C7 counterexample to the claim's annotations-document half: an
annotations document whose single file repeats the same `anchor_id` twice
passes `validate_annotation_schema` with no issues at all, while the
analogous notes document is flagged with `duplicate_anchor_id`. -/
theorem duplicate_anchor_id_schema_counterexample :
    validate_annotation_schema (JValue.obj
      [("version", JValue.str "2"), ("target_context_id", JValue.str "t"),
       ("files", JValue.arr [JValue.obj
         [("path", JValue.str "f"),
          ("anchors", JValue.arr
            [JValue.obj [("anchor_id", JValue.str "a"),
              ("what_changed", JValue.str "w"), ("why_changed", JValue.str "y")],
             JValue.obj [("anchor_id", JValue.str "a"),
              ("what_changed", JValue.str "w"), ("why_changed", JValue.str "y")]])]])])
      = [] ∧
    (∃ i ∈ validate_annotation_notes_schema (JValue.obj
      [("version", JValue.str "1"), ("target_context_id", JValue.str "t"),
       ("anchors", JValue.arr
         [JValue.obj [("anchor_id", JValue.str "a"),
           ("what_changed", JValue.str "w"), ("why_changed", JValue.str "y")],
          JValue.obj [("anchor_id", JValue.str "a"),
           ("what_changed", JValue.str "w"), ("why_changed", JValue.str "y")]])]),
      i.code = "duplicate_anchor_id") :=
  ⟨rfl, by decide⟩

/-! ## C3: stale contexts -/

theorem recompute_ok_inv {env : Env} {context : JValue} {rt : Runtime} {raw : String}
    (hrec : recompute_runtime_from_context env context = .ok rt)
    (hcollect : env.collectPatch (context.pyGet "source_spec") = .ok raw) :
    ∃ files, _parse_files env raw (specExcludePaths (context.pyGet "source_spec"))
        (specExcludeBinary (context.pyGet "source_spec")) = .ok files ∧
      rt = { diff_fingerprint := env.hashText raw, stats := _stats files,
             files := files, anchor_index := anchorIndexOf env files } := by
  unfold recompute_runtime_from_context at hrec
  simp only [] at hrec
  split at hrec
  · exact absurd hrec (by simp)
  · rw [hcollect] at hrec
    simp only [] at hrec
    cases hp : _parse_files env raw (specExcludePaths (context.pyGet "source_spec"))
        (specExcludeBinary (context.pyGet "source_spec")) with
    | error e => rw [hp] at hrec; exact absurd hrec (by simp)
    | ok files =>
      rw [hp] at hrec
      simp only [Except.ok.injEq] at hrec
      exact ⟨files, rfl, hrec.symm⟩

/-- C3: when the live source still yields diff text whose fingerprint
differs from the context's stored `diff_fingerprint`, `evaluate_annotations`
emits the error-level `context_stale` issue and returns the non-null runtime
recomputed from the current diff text (its fingerprint is the hash of the
freshly collected patch, not the stored one). -/
theorem context_stale_reported (env : Env) (context annotations : JValue)
    (strict : Bool) (rt : Runtime) (raw fp : String)
    (hobj : context.isObj = true)
    (hcollect : env.collectPatch (context.pyGet "source_spec") = .ok raw)
    (hrec : recompute_runtime_from_context env context = .ok rt)
    (hfp : (context.pyGet "diff_fingerprint").asStr = some fp)
    (hne : fp ≠ rt.diff_fingerprint) :
    ∃ report, evaluate_annotations env context annotations strict =
        .ok (report, some rt) ∧
      (⟨"error", "context_stale",
        "Current diff fingerprint does not match context; regenerate context before validating/building.",
        "$.diff_fingerprint"⟩ : Issue) ∈ report.issues ∧
      rt.diff_fingerprint = env.hashText raw := by
  obtain ⟨files, -, hrt⟩ := recompute_ok_inv hrec hcollect
  have hfing : rt.diff_fingerprint = env.hashText raw := by rw [hrt]
  unfold evaluate_annotations
  rw [hobj]
  simp only [Bool.not_true, Bool.false_eq_true, if_false]
  rw [hrec, hfp]
  simp only []
  rw [if_pos hne]
  refine ⟨_, rfl, ?_, hfing⟩
  have hmem : (⟨"error", "context_stale",
      "Current diff fingerprint does not match context; regenerate context before validating/building.",
      "$.diff_fingerprint"⟩ : Issue) ∈
      (validate_annotation_schema annotations ++
        (match (context.pyGet "context_id").asStr,
              (if annotations.isObj then (annotations.pyGet "target_context_id").asStr
               else none) with
        | some context_id, some target =>
          if target ≠ context_id then
            [_issue "error" "context_mismatch"
              "target_context_id does not match context_id." "$.target_context_id"]
          else []
        | _, _ => [])) ++
      [_issue "error" "context_stale"
        "Current diff fingerprint does not match context; regenerate context before validating/building."
        "$.diff_fingerprint"] := by
    exact List.mem_append.mpr (Or.inr (by simp [_issue]))
  cases strict with
  | false =>
    exact List.mem_append.mpr (Or.inl hmem)
  | true =>
    refine List.mem_map.mpr ⟨_, List.mem_append.mpr (Or.inl hmem), rfl⟩

theorem context_stale_reported_witness :
    ∃ report, evaluate_annotations envW
        (JValue.obj [("source_spec", JValue.obj []),
          ("diff_fingerprint", JValue.str "stale")]) JValue.null true =
        .ok (report, some ⟨"#", ⟨0, 0, 0⟩, [], []⟩) ∧
      (⟨"error", "context_stale",
        "Current diff fingerprint does not match context; regenerate context before validating/building.",
        "$.diff_fingerprint"⟩ : Issue) ∈ report.issues ∧
      (⟨"#", ⟨0, 0, 0⟩, [], []⟩ : Runtime).diff_fingerprint = envW.hashText "" :=
  context_stale_reported envW
    (JValue.obj [("source_spec", JValue.obj []),
      ("diff_fingerprint", JValue.str "stale")])
    JValue.null true ⟨"#", ⟨0, 0, 0⟩, [], []⟩ "" "stale"
    rfl rfl rfl rfl (by decide)

/-! ## C6: strict mode as a severity promotion -/

theorem promoteIssue_idem (i : Issue) : promoteIssue (promoteIssue i) = promoteIssue i := by
  unfold promoteIssue
  by_cases h : i.level = "warning"
  · simp [h]
  · simp [h]

theorem walkFileAnchors_strict (location path : String)
    (fai : List (String × AnchorMeta)) :
    ∀ (idx : Nat) (l : List JValue),
    walkFileAnchors true location path fai idx l =
      ((walkFileAnchors false location path fai idx l).1,
       (walkFileAnchors false location path fai idx l).2.1,
       (walkFileAnchors false location path fai idx l).2.2.map promoteIssue) := by
  intro idx l
  induction l generalizing idx with
  | nil => rfl
  | cons anchor rest ih =>
    rw [walkFileAnchors]
    conv_rhs => rw [walkFileAnchors]
    cases (anchor.pyGet "anchor_id").asStr with
    | none => exact ih (idx + 1)
    | some aid =>
      simp only []
      split
      · rw [ih (idx + 1)]
        simp [promoteIssue, _issue]
      · rw [ih (idx + 1)]

theorem walkFiles_strict (runtimePaths : List String)
    (anchor_index : List (String × List (String × AnchorMeta))) :
    ∀ (idx : Nat) (l : List JValue),
    walkFiles true runtimePaths anchor_index idx l =
      ((walkFiles false runtimePaths anchor_index idx l).1,
       (walkFiles false runtimePaths anchor_index idx l).2.1,
       (walkFiles false runtimePaths anchor_index idx l).2.2.1,
       (walkFiles false runtimePaths anchor_index idx l).2.2.2.map promoteIssue) := by
  intro idx l
  induction l generalizing idx with
  | nil => rfl
  | cons fa rest ih =>
    rw [walkFiles]
    conv_rhs => rw [walkFiles]
    by_cases hobj : fa.isObj = true
    · simp only [hobj, Bool.not_true, Bool.false_eq_true, if_false]
      cases (fa.pyGet "path").asStr with
      | none => rw [ih (idx + 1)]
      | some path =>
        simp only []
        split
        · rw [ih (idx + 1)]
          simp [promoteIssue, _issue]
        · rw [ih (idx + 1), walkFileAnchors_strict]
          simp [List.map_append]
    · simp only [hobj]
      simp only [Bool.not_false, if_true]
      exact ih (idx + 1)

/-- C6 (corrected): on any JSON-object context, evaluating strictly is
exactly the lenient evaluation followed by the warning-to-error promotion of
the report (same issues up to level, validity recomputed over the promoted
issues, same stats and runtime); the promotion never changes an issue's code
or location.  (On a non-object context the promotion pass is skipped by the
early return, which is the corrected part.) -/
theorem strict_is_promotion_of_lenient (env : Env) (context annotations : JValue)
    (hobj : context.isObj = true) :
    evaluate_annotations env context annotations true =
      (evaluate_annotations env context annotations false).map
        (fun p => (promoteReport p.1, p.2)) ∧
    ∀ report : Report,
      (promoteReport report).issues.map (fun i => (i.code, i.location)) =
        report.issues.map (fun i => (i.code, i.location)) := by
  constructor
  · unfold evaluate_annotations
    rw [hobj]
    simp only [Bool.not_true, Bool.false_eq_true, if_false]
    cases hres : recompute_runtime_from_context env context with
    | error pe =>
      cases pe with
      | valueError e => simp [Except.map]
      | runtimeError e => simp [promoteReport, Except.map]
    | ok rt =>
      simp only []
      by_cases hann : annotations.isObj = true
      · simp only [hann, if_true]
        cases hfl : (annotations.pyGet "files").asArr with
        | none =>
          simp [promoteReport, Except.map]
        | some fl =>
          simp only []
          rw [walkFiles_strict]
          simp [promoteReport, Except.map, List.map_append, List.map_map,
            Function.comp_def, promoteIssue_idem]
      · simp only [hann]
        simp only [Bool.false_eq_true, if_false]
        simp [promoteReport, Except.map]
  · intro report
    simp only [promoteReport, List.map_map]
    refine List.map_congr_left ?_
    intro i _
    simp only [Function.comp_apply]
    unfold promoteIssue
    split <;> rfl

theorem strict_is_promotion_of_lenient_witness :
    (evaluate_annotations envW (JValue.obj []) JValue.null true =
      (evaluate_annotations envW (JValue.obj []) JValue.null false).map
        (fun p => (promoteReport p.1, p.2))) ∧
    ∀ report : Report,
      (promoteReport report).issues.map (fun i => (i.code, i.location)) =
        report.issues.map (fun i => (i.code, i.location)) :=
  strict_is_promotion_of_lenient envW (JValue.obj []) JValue.null rfl

/-- C6 counterexample to the uniform-promotion claim: with a non-object
context, the strict report equals the lenient one and still carries a
warning-level issue (the overview-length warning), which strict mode was
claimed to always promote to an error. -/
theorem strict_skips_promotion_on_bad_context :
    evaluate_annotations envW JValue.null
        (JValue.obj [("version", JValue.str "2"),
          ("target_context_id", JValue.str "t"),
          ("overview", JValue.arr
            [JValue.str "a", JValue.str "b", JValue.str "c", JValue.str "d",
             JValue.str "e", JValue.str "f", JValue.str "g", JValue.str "h",
             JValue.str "i"]),
          ("files", JValue.arr [])]) true =
      evaluate_annotations envW JValue.null
        (JValue.obj [("version", JValue.str "2"),
          ("target_context_id", JValue.str "t"),
          ("overview", JValue.arr
            [JValue.str "a", JValue.str "b", JValue.str "c", JValue.str "d",
             JValue.str "e", JValue.str "f", JValue.str "g", JValue.str "h",
             JValue.str "i"]),
          ("files", JValue.arr [])]) false ∧
    ∃ report rt,
      evaluate_annotations envW JValue.null
        (JValue.obj [("version", JValue.str "2"),
          ("target_context_id", JValue.str "t"),
          ("overview", JValue.arr
            [JValue.str "a", JValue.str "b", JValue.str "c", JValue.str "d",
             JValue.str "e", JValue.str "f", JValue.str "g", JValue.str "h",
             JValue.str "i"]),
          ("files", JValue.arr [])]) true = .ok (report, rt) ∧
      ∃ i ∈ report.issues, i.level = "warning" :=
  ⟨rfl, ⟨_, _, rfl, by decide⟩⟩

/-! ## C9: per-line rejection in the notes reader -/

/-- The payload portion of the notes-reader state: what the compiled notes
are assembled from (issues and rejected entries are reporting only). -/
def notesPayloadProj (st : NotesState) :
    List String × List (String × String) × List (String × JValue) :=
  (st.overview, st.file_summaries_by_path, st.anchors_by_id)

theorem processNoteLine_payload_congr (env : Env) (fileName : String)
    (known_paths : List String) (known_anchors : List (String × String))
    (st st' : NotesState) (line_no : Nat) (raw_line : String)
    (h : notesPayloadProj st = notesPayloadProj st') :
    notesPayloadProj
        (processNoteLine env fileName known_paths known_anchors st line_no raw_line) =
      notesPayloadProj
        (processNoteLine env fileName known_paths known_anchors st' line_no raw_line) := by
  obtain ⟨o, fs, ab, i, r⟩ := st
  obtain ⟨o', fs', ab', i', r'⟩ := st'
  simp only [notesPayloadProj, Prod.mk.injEq] at h
  obtain ⟨h1, h2, h3⟩ := h
  subst h1; subst h2; subst h3
  rfl

theorem foldl_payload_congr (env : Env) (fileName : String)
    (known_paths : List String) (known_anchors : List (String × String)) :
    ∀ (l : List (Nat × String)) (st st' : NotesState),
    notesPayloadProj st = notesPayloadProj st' →
    notesPayloadProj (l.foldl
        (fun s p => processNoteLine env fileName known_paths known_anchors s p.1 p.2) st) =
      notesPayloadProj (l.foldl
        (fun s p => processNoteLine env fileName known_paths known_anchors s p.1 p.2) st') := by
  intro l
  induction l with
  | nil => intro st st' h; exact h
  | cons p rest ih =>
    intro st st' h
    exact ih _ _ (processNoteLine_payload_congr env fileName known_paths known_anchors
      st st' p.1 p.2 h)

theorem overviewLineEffect_cases (loc : String) (m : Nat) (record : JValue)
    (o : List String) (fs : List (String × String)) (ab : List (String × JValue)) :
    (overviewLineEffect loc m record o fs ab).2.2 = [] ∨
    ∃ code message msg2,
      overviewLineEffect loc m record o fs ab =
        ((o, fs, ab), [_warning code message loc],
         [⟨m, code, msg2, .record record⟩]) := by
  unfold overviewLineEffect
  repeat' split
  all_goals first
    | exact Or.inl rfl
    | exact Or.inr ⟨_, _, _, rfl⟩

theorem fileSummaryLineEffect_cases (kp : List String) (loc : String) (m : Nat)
    (record : JValue) (o : List String) (fs : List (String × String))
    (ab : List (String × JValue)) :
    (fileSummaryLineEffect kp loc m record o fs ab).2.2 = [] ∨
    ∃ code message msg2,
      fileSummaryLineEffect kp loc m record o fs ab =
        ((o, fs, ab), [_warning code message loc],
         [⟨m, code, msg2, .record record⟩]) := by
  unfold fileSummaryLineEffect
  repeat' split
  all_goals first
    | exact Or.inl rfl
    | exact Or.inr ⟨_, _, _, rfl⟩

theorem anchorNoteLineEffect_cases (ka : List (String × String)) (loc : String)
    (m : Nat) (record : JValue) (o : List String) (fs : List (String × String))
    (ab : List (String × JValue)) :
    (anchorNoteLineEffect ka loc m record o fs ab).2.2 = [] ∨
    ∃ code message msg2,
      anchorNoteLineEffect ka loc m record o fs ab =
        ((o, fs, ab), [_warning code message loc],
         [⟨m, code, msg2, .record record⟩]) := by
  unfold anchorNoteLineEffect
  repeat' split
  all_goals first
    | exact Or.inl rfl
    | exact Or.inr ⟨_, _, _, rfl⟩

/-- For a non-blank, non-comment line whose JSON parses, the loop body
either rejects nothing or rejects exactly this line: the payload is left
untouched and one warning plus one rejected entry — carrying the line
number, a reason code and the parsed record — are appended. -/
theorem noteLineEffect_parsed_cases (env : Env) (fileName : String)
    (kp : List String) (ka : List (String × String)) (o : List String)
    (fs : List (String × String)) (ab : List (String × JValue)) (m : Nat)
    (r : String) (record : JValue)
    (hnb : pyStrip r ≠ "") (hnc : pyStartsWith (pyStrip r) "#" = false)
    (hok : env.jsonParse (pyStrip r) = .ok record) :
    (noteLineEffect env fileName kp ka o fs ab m r).2.2 = [] ∨
    ∃ code message msg2,
      noteLineEffect env fileName kp ka o fs ab m r =
        ((o, fs, ab), [_warning code message (fileName ++ ":" ++ natRepr m)],
         [⟨m, code, msg2, .record record⟩]) := by
  unfold noteLineEffect
  rw [if_neg (by simp [hnb, hnc]), hok]
  simp only []
  repeat' split
  all_goals first
    | exact Or.inl rfl
    | exact Or.inr ⟨_, _, _, rfl⟩
    | exact overviewLineEffect_cases _ _ _ _ _ _
    | exact fileSummaryLineEffect_cases _ _ _ _ _ _ _
    | exact anchorNoteLineEffect_cases _ _ _ _ _ _ _

/-- Every line either leaves the rejected list unchanged or is rejected
individually: the payload is untouched and exactly one warning issue and
one rejected entry (line number, reason code, and the line's content — the
raw text for invalid JSON, the parsed record otherwise) are appended. -/
theorem processNoteLine_cases (env : Env) (fileName : String) (kp : List String)
    (ka : List (String × String)) (s : NotesState) (m : Nat) (r : String) :
    (processNoteLine env fileName kp ka s m r).rejected = s.rejected ∨
    ∃ code message msg2 pl,
      (pl = RejectedPayload.raw r ∨
        ∃ record, env.jsonParse (pyStrip r) = .ok record ∧
          pl = RejectedPayload.record record) ∧
      processNoteLine env fileName kp ka s m r =
        { s with
          issues := s.issues ++
            [_warning code message (fileName ++ ":" ++ natRepr m)],
          rejected := s.rejected ++ [⟨m, code, msg2, pl⟩] } := by
  by_cases hsk : pyStrip r = "" ∨ pyStartsWith (pyStrip r) "#" = true
  · left
    unfold processNoteLine noteLineEffect
    rw [if_pos ?_]
    · simp
    · rcases hsk with h | h
      · simp [h]
      · simp [h]
  · push_neg at hsk
    obtain ⟨hnb, hncp⟩ := hsk
    have hnc : pyStartsWith (pyStrip r) "#" = false := by
      cases hx : pyStartsWith (pyStrip r) "#"
      · rfl
      · exact absurd hx hncp
    cases hp : env.jsonParse (pyStrip r) with
    | error msg =>
      right
      refine ⟨"invalid_jsonl",
        "Rejected line " ++ natRepr m ++ ": invalid JSON (" ++ msg ++ ").",
        msg, .raw r, Or.inl rfl, ?_⟩
      unfold processNoteLine noteLineEffect
      rw [if_neg (by simp [hnb, hnc]), hp]
    | ok record =>
      rcases noteLineEffect_parsed_cases env fileName kp ka s.overview
          s.file_summaries_by_path s.anchors_by_id m r record hnb hnc hp
        with h | ⟨code, message, msg2, h⟩
      · left
        unfold processNoteLine
        simp only []
        rw [h, List.append_nil]
      · right
        refine ⟨code, message, msg2, .record record, Or.inr ⟨record, rfl, rfl⟩, ?_⟩
        unfold processNoteLine
        simp only []
        rw [h]

/-- C9: in the notes JSONL reader, blank lines and `#` comment lines leave
the state untouched; a line that is not valid JSON is rejected individually
— one warning issue and one rejected entry carrying its line number, its
original text and the reason code, with the compiled payload unchanged — and
removing such a line from the input changes nothing in the compiled payload.
The same individual-rejection discipline covers every line that fails record
validation: any line either leaves the rejected list unchanged or appends
exactly one warning and one rejected entry (line number, reason code,
content snapshot) with the payload untouched — shown concretely for the
`missing_type` and `unknown_anchor_id` failures — and any such rejected
line can be removed without changing the compiled payload, so every other
valid line is still compiled. -/
theorem notes_bad_line_rejected_individually (env : Env) (fileName : String)
    (known_paths : List String) (known_anchors : List (String × String))
    (st st0 : NotesState) (line_no : Nat) (raw_line msg : String)
    (pre post : List (Nat × String))
    (hbad : env.jsonParse (pyStrip raw_line) = .error msg)
    (hnb : pyStrip raw_line ≠ "")
    (hnc : pyStartsWith (pyStrip raw_line) "#" = false) :
    (∀ (r : String) (m : Nat), pyStrip r = "" ∨ pyStartsWith (pyStrip r) "#" = true →
      processNoteLine env fileName known_paths known_anchors st m r = st) ∧
    processNoteLine env fileName known_paths known_anchors st line_no raw_line =
      { st with
        issues := st.issues ++
          [_warning "invalid_jsonl"
            ("Rejected line " ++ natRepr line_no ++ ": invalid JSON (" ++ msg ++ ").")
            (fileName ++ ":" ++ natRepr line_no)],
        rejected := st.rejected ++
          [⟨line_no, "invalid_jsonl", msg, .raw raw_line⟩] } ∧
    notesPayloadProj ((pre ++ (line_no, raw_line) :: post).foldl
        (fun s p => processNoteLine env fileName known_paths known_anchors s p.1 p.2) st0) =
      notesPayloadProj ((pre ++ post).foldl
        (fun s p => processNoteLine env fileName known_paths known_anchors s p.1 p.2) st0) ∧
    (∀ (s : NotesState) (m : Nat) (r : String),
      (processNoteLine env fileName known_paths known_anchors s m r).rejected =
        s.rejected ∨
      ∃ code message msg2 pl,
        (pl = RejectedPayload.raw r ∨
          ∃ record, env.jsonParse (pyStrip r) = .ok record ∧
            pl = RejectedPayload.record record) ∧
        processNoteLine env fileName known_paths known_anchors s m r =
          { s with
            issues := s.issues ++
              [_warning code message (fileName ++ ":" ++ natRepr m)],
            rejected := s.rejected ++ [⟨m, code, msg2, pl⟩] }) ∧
    (∀ (m : Nat) (r : String),
      (∀ s : NotesState,
        (processNoteLine env fileName known_paths known_anchors s m r).rejected ≠
          s.rejected) →
      ∀ (pre2 post2 : List (Nat × String)) (st1 : NotesState),
      notesPayloadProj ((pre2 ++ (m, r) :: post2).foldl
          (fun s p => processNoteLine env fileName known_paths known_anchors s p.1 p.2)
          st1) =
        notesPayloadProj ((pre2 ++ post2).foldl
          (fun s p => processNoteLine env fileName known_paths known_anchors s p.1 p.2)
          st1)) ∧
    (∀ (s : NotesState) (m : Nat) (r : String) (record : JValue),
      pyStrip r ≠ "" → pyStartsWith (pyStrip r) "#" = false →
      env.jsonParse (pyStrip r) = .ok record → record.isObj = true →
      (record.pyGet "type").asStr = none →
      processNoteLine env fileName known_paths known_anchors s m r =
        { s with
          issues := s.issues ++
            [_warning "missing_type"
              ("Rejected line " ++ natRepr m ++ ": missing record type.")
              (fileName ++ ":" ++ natRepr m)],
          rejected := s.rejected ++
            [⟨m, "missing_type", "missing record type", .record record⟩] }) ∧
    (∀ (s : NotesState) (m : Nat) (r : String) (record : JValue) (aid : String),
      pyStrip r ≠ "" → pyStartsWith (pyStrip r) "#" = false →
      env.jsonParse (pyStrip r) = .ok record → record.isObj = true →
      (record.pyGet "type").asStr = some "anchor_note" →
      (record.pyGet "anchor_id").asStr = some aid → aid ≠ "" →
      (alistGet? aid known_anchors).isNone = true →
      processNoteLine env fileName known_paths known_anchors s m r =
        { s with
          issues := s.issues ++
            [_warning "unknown_anchor_id"
              ("Rejected line " ++ natRepr m ++ ": unknown anchor_id " ++
                pyReprStr aid ++ ".")
              (fileName ++ ":" ++ natRepr m)],
          rejected := s.rejected ++
            [⟨m, "unknown_anchor_id", "unknown anchor_id " ++ pyReprStr aid,
              .record record⟩] }) := by
  have hstep : ∀ s : NotesState,
      processNoteLine env fileName known_paths known_anchors s line_no raw_line =
        { s with
          issues := s.issues ++
            [_warning "invalid_jsonl"
              ("Rejected line " ++ natRepr line_no ++ ": invalid JSON (" ++ msg ++ ").")
              (fileName ++ ":" ++ natRepr line_no)],
          rejected := s.rejected ++
            [⟨line_no, "invalid_jsonl", msg, .raw raw_line⟩] } := by
    intro s
    unfold processNoteLine noteLineEffect
    rw [if_neg (by simp [hnb, hnc]), hbad]
  refine ⟨?_, hstep st, ?_, ?_, ?_, ?_, ?_⟩
  · intro r m hr
    unfold processNoteLine noteLineEffect
    rw [if_pos ?_]
    · simp
    · rcases hr with h | h
      · simp [h]
      · simp [h]
  · rw [List.foldl_append, List.foldl_append, List.foldl_cons]
    refine foldl_payload_congr env fileName known_paths known_anchors post _ _ ?_
    rw [hstep]
    rfl
  · intro s m r
    exact processNoteLine_cases env fileName known_paths known_anchors s m r
  · intro m r hrej pre2 post2 st1
    rw [List.foldl_append, List.foldl_append, List.foldl_cons]
    refine foldl_payload_congr env fileName known_paths known_anchors post2 _ _ ?_
    rcases processNoteLine_cases env fileName known_paths known_anchors
        (pre2.foldl
          (fun s p => processNoteLine env fileName known_paths known_anchors s p.1 p.2)
          st1) m r with h | ⟨code, message, msg2, pl, -, h⟩
    · exact absurd h (hrej _)
    · rw [h]
      rfl
  · intro s m r record h1 h2 h3 h4 h5
    unfold processNoteLine noteLineEffect
    rw [if_neg (by simp [h1, h2]), h3]
    simp only [h4, Bool.not_true, Bool.false_eq_true, if_false]
    rw [h5]
  · intro s m r record aid h1 h2 h3 h4 h5 h6 h7 h8
    unfold processNoteLine noteLineEffect
    rw [if_neg (by simp [h1, h2]), h3]
    simp only [h4, Bool.not_true, Bool.false_eq_true, if_false]
    rw [h5]
    simp only []
    rw [if_neg (show ¬pyStrip "anchor_note" = "" from by decide),
      if_neg (show ¬("anchor_note" : String) = "overview" from by decide),
      if_neg (show ¬("anchor_note" : String) = "file_summary" from by decide)]
    rw [if_pos trivial]
    unfold anchorNoteLineEffect
    rw [h6]
    simp only []
    rw [if_neg h7, h8]
    simp only [if_true]

theorem notes_bad_line_rejected_individually_witness :
    (∀ (r : String) (m : Nat), pyStrip r = "" ∨ pyStartsWith (pyStrip r) "#" = true →
      processNoteLine envW "notes.jsonl" [] [] ⟨[], [], [], [], []⟩ m r =
        ⟨[], [], [], [], []⟩) ∧
    processNoteLine envW "notes.jsonl" [] [] ⟨[], [], [], [], []⟩ 2 "oops" =
      { (⟨[], [], [], [], []⟩ : NotesState) with
        issues := (⟨[], [], [], [], []⟩ : NotesState).issues ++
          [_warning "invalid_jsonl"
            ("Rejected line " ++ natRepr 2 ++ ": invalid JSON (" ++
              "Expecting value" ++ ").")
            ("notes.jsonl" ++ ":" ++ natRepr 2)],
        rejected := (⟨[], [], [], [], []⟩ : NotesState).rejected ++
          [⟨2, "invalid_jsonl", "Expecting value", .raw "oops"⟩] } ∧
    notesPayloadProj ((([(1, "# c")] : List (Nat × String)) ++
          ((2, "oops") : Nat × String) :: ([(3, "x")] : List (Nat × String))).foldl
        (fun (s : NotesState) (p : Nat × String) =>
          processNoteLine envW "notes.jsonl" [] [] s p.1 p.2)
        ⟨[], [], [], [], []⟩) =
      notesPayloadProj ((([(1, "# c")] : List (Nat × String)) ++
          ([(3, "x")] : List (Nat × String))).foldl
        (fun (s : NotesState) (p : Nat × String) =>
          processNoteLine envW "notes.jsonl" [] [] s p.1 p.2)
        ⟨[], [], [], [], []⟩) ∧
    (∀ (s : NotesState) (m : Nat) (r : String),
      (processNoteLine envW "notes.jsonl" [] [] s m r).rejected = s.rejected ∨
      ∃ code message msg2 pl,
        (pl = RejectedPayload.raw r ∨
          ∃ record, envW.jsonParse (pyStrip r) = .ok record ∧
            pl = RejectedPayload.record record) ∧
        processNoteLine envW "notes.jsonl" [] [] s m r =
          { s with
            issues := s.issues ++
              [_warning code message ("notes.jsonl" ++ ":" ++ natRepr m)],
            rejected := s.rejected ++ [⟨m, code, msg2, pl⟩] }) ∧
    (∀ (m : Nat) (r : String),
      (∀ s : NotesState,
        (processNoteLine envW "notes.jsonl" [] [] s m r).rejected ≠ s.rejected) →
      ∀ (pre2 post2 : List (Nat × String)) (st1 : NotesState),
      notesPayloadProj ((pre2 ++ (m, r) :: post2).foldl
          (fun (s : NotesState) (p : Nat × String) =>
            processNoteLine envW "notes.jsonl" [] [] s p.1 p.2) st1) =
        notesPayloadProj ((pre2 ++ post2).foldl
          (fun (s : NotesState) (p : Nat × String) =>
            processNoteLine envW "notes.jsonl" [] [] s p.1 p.2) st1)) ∧
    (∀ (s : NotesState) (m : Nat) (r : String) (record : JValue),
      pyStrip r ≠ "" → pyStartsWith (pyStrip r) "#" = false →
      envW.jsonParse (pyStrip r) = .ok record → record.isObj = true →
      (record.pyGet "type").asStr = none →
      processNoteLine envW "notes.jsonl" [] [] s m r =
        { s with
          issues := s.issues ++
            [_warning "missing_type"
              ("Rejected line " ++ natRepr m ++ ": missing record type.")
              ("notes.jsonl" ++ ":" ++ natRepr m)],
          rejected := s.rejected ++
            [⟨m, "missing_type", "missing record type", .record record⟩] }) ∧
    (∀ (s : NotesState) (m : Nat) (r : String) (record : JValue) (aid : String),
      pyStrip r ≠ "" → pyStartsWith (pyStrip r) "#" = false →
      envW.jsonParse (pyStrip r) = .ok record → record.isObj = true →
      (record.pyGet "type").asStr = some "anchor_note" →
      (record.pyGet "anchor_id").asStr = some aid → aid ≠ "" →
      (alistGet? aid ([] : List (String × String))).isNone = true →
      processNoteLine envW "notes.jsonl" [] [] s m r =
        { s with
          issues := s.issues ++
            [_warning "unknown_anchor_id"
              ("Rejected line " ++ natRepr m ++ ": unknown anchor_id " ++
                pyReprStr aid ++ ".")
              ("notes.jsonl" ++ ":" ++ natRepr m)],
          rejected := s.rejected ++
            [⟨m, "unknown_anchor_id", "unknown anchor_id " ++ pyReprStr aid,
              .record record⟩] }) :=
  notes_bad_line_rejected_individually envW "notes.jsonl" [] []
    ⟨[], [], [], [], []⟩ ⟨[], [], [], [], []⟩ 2 "oops" "Expecting value"
    [(1, "# c")] [(3, "x")] rfl (by decide) (by decide)

/-! ## C10: duplicate notes keep the latest record; output follows context order -/

theorem alistGet?_alistSet {α : Type} (k k' : String) (v : α) :
    ∀ l : List (String × α),
    alistGet? k' (alistSet k v l) = if k' = k then some v else alistGet? k' l := by
  intro l
  induction l with
  | nil =>
    simp only [alistSet, alistGet?]
    by_cases h1 : k = k'
    · rw [if_pos h1, if_pos h1.symm]
    · rw [if_neg h1, if_neg (fun hh => h1 hh.symm)]
  | cons p rest ih =>
    obtain ⟨k0, v0⟩ := p
    simp only [alistSet]
    by_cases h0 : k0 = k
    · subst h0
      rw [if_pos rfl]
      simp only [alistGet?]
      by_cases h1 : k0 = k'
      · rw [if_pos h1, if_pos h1.symm]
      · rw [if_neg h1, if_neg (fun hh => h1 hh.symm), if_neg h1]
    · rw [if_neg h0]
      simp only [alistGet?]
      by_cases h1 : k0 = k'
      · subst h1
        rw [if_pos rfl, if_neg (fun hh => h0 hh), if_pos rfl]
      · rw [if_neg h1, if_neg h1, ih]

theorem pyGet_cons_head (key : String) (v : JValue) (t : List (String × JValue)) :
    (JValue.obj ((key, v) :: t)).pyGet key = v := by
  simp [JValue.pyGet, JValue.getKey, List.lookup]

/-- The anchor map stores, under each key, a record whose `anchor_id` field
is that key. -/
def AnchorsKeyed (ab : List (String × JValue)) : Prop :=
  ∀ k v, alistGet? k ab = some v → v.pyGet "anchor_id" = JValue.str k

theorem overviewLineEffect_anchors (location : String) (n : Nat) (record : JValue)
    (ov : List String) (fs : List (String × String)) (ab : List (String × JValue)) :
    (overviewLineEffect location n record ov fs ab).1.2.2 = ab := by
  unfold overviewLineEffect
  repeat' split
  all_goals rfl

theorem fileSummaryLineEffect_anchors (known_paths : List String)
    (location : String) (n : Nat) (record : JValue) (ov : List String)
    (fs : List (String × String)) (ab : List (String × JValue)) :
    (fileSummaryLineEffect known_paths location n record ov fs ab).1.2.2 = ab := by
  unfold fileSummaryLineEffect
  repeat' split
  all_goals rfl

theorem anchorNoteLineEffect_anchors (known_anchors : List (String × String))
    (location : String) (n : Nat) (record : JValue) (ov : List String)
    (fs : List (String × String)) (ab : List (String × JValue)) :
    (anchorNoteLineEffect known_anchors location n record ov fs ab).1.2.2 = ab ∨
    ∃ aid tail,
      (anchorNoteLineEffect known_anchors location n record ov fs ab).1.2.2 =
        alistSet aid (JValue.obj (("anchor_id", JValue.str aid) :: tail)) ab := by
  unfold anchorNoteLineEffect
  repeat' split
  all_goals first
    | exact Or.inl rfl
    | exact Or.inr ⟨_, _, rfl⟩

theorem noteLineEffect_anchors (env : Env) (fileName : String)
    (known_paths : List String) (known_anchors : List (String × String))
    (ov : List String) (fs : List (String × String)) (ab : List (String × JValue))
    (n : Nat) (raw : String) :
    (noteLineEffect env fileName known_paths known_anchors ov fs ab n raw).1.2.2 = ab ∨
    ∃ aid tail,
      (noteLineEffect env fileName known_paths known_anchors ov fs ab n raw).1.2.2 =
        alistSet aid (JValue.obj (("anchor_id", JValue.str aid) :: tail)) ab := by
  unfold noteLineEffect
  simp only []
  repeat' split
  all_goals first
    | exact Or.inl rfl
    | exact Or.inl (overviewLineEffect_anchors _ _ _ _ _ _)
    | exact Or.inl (fileSummaryLineEffect_anchors _ _ _ _ _ _ _)
    | exact anchorNoteLineEffect_anchors _ _ _ _ _ _ _

theorem anchorsKeyed_effect (env : Env) (fileName : String)
    (known_paths : List String) (known_anchors : List (String × String))
    (ov : List String) (fs : List (String × String)) (ab : List (String × JValue))
    (n : Nat) (raw : String) (h : AnchorsKeyed ab) :
    AnchorsKeyed ((noteLineEffect env fileName known_paths known_anchors
      ov fs ab n raw).1.2.2) := by
  rcases noteLineEffect_anchors env fileName known_paths known_anchors ov fs ab n raw
    with he | ⟨aid, tail, he⟩
  · rw [he]; exact h
  · rw [he]
    intro k v hk
    rw [alistGet?_alistSet] at hk
    split at hk
    · rename_i hkk
      subst hkk
      injection hk with hv
      subst hv
      exact pyGet_cons_head _ _ _
    · exact h k v hk

theorem anchorsKeyed_fold (env : Env) (fileName : String)
    (known_paths : List String) (known_anchors : List (String × String)) :
    ∀ (l : List (Nat × String)) (st : NotesState),
    AnchorsKeyed st.anchors_by_id →
    AnchorsKeyed ((l.foldl
      (fun s p => processNoteLine env fileName known_paths known_anchors s (p.1 + 1) p.2)
      st).anchors_by_id) := by
  intro l
  induction l with
  | nil => intro st h; exact h
  | cons p rest ih =>
    intro st h
    exact ih _ (anchorsKeyed_effect env fileName known_paths known_anchors
      st.overview st.file_summaries_by_path st.anchors_by_id (p.1 + 1) p.2 h)

theorem map_filterMap_sublist (proj : JValue → JValue) (f : String → Option JValue)
    (hf : ∀ k v, f k = some v → proj v = JValue.str k) :
    ∀ order : List String,
    ((order.filterMap f).map proj).Sublist (order.map JValue.str) := by
  intro order
  induction order with
  | nil => simp
  | cons k rest ih =>
    cases h : f k with
    | none =>
      simp only [List.filterMap_cons, h, List.map_cons]
      exact ih.cons _
    | some v =>
      simp only [List.filterMap_cons, h, List.map_cons, hf k v h]
      exact ih.cons₂ _

/-- C10: a valid anchor-note line whose anchor already has a note replaces
the stored record (keeping the latest), appends one warning-level
`duplicate_anchor_note` issue, and rejects nothing; a valid file-summary
line whose path already has a summary likewise replaces the stored summary,
appends one warning-level `duplicate_file_summary` issue, and rejects
nothing; and in the payload that `parse_review_notes_jsonl` assembles, the
anchor entries follow the context's anchor order and the file summaries the
context's file order (their key sequences are sublists of those orders),
regardless of the order the records appeared in the input file. -/
theorem duplicate_note_keeps_latest_and_orders_by_context (env : Env)
    (fileName : String) (known_paths : List String)
    (known_anchors : List (String × String)) (st : NotesState) (line_no : Nat)
    (raw_line : String) (record : JValue) (aid w y : String)
    (text : String) (context : JValue)
    (st2 : NotesState) (line_no2 : Nat) (raw_line2 : String) (record2 : JValue)
    (p summ : String)
    (hnb : pyStrip raw_line ≠ "")
    (hnc : pyStartsWith (pyStrip raw_line) "#" = false)
    (hparse : env.jsonParse (pyStrip raw_line) = .ok record)
    (hro : record.isObj = true)
    (hty : (record.pyGet "type").asStr = some "anchor_note")
    (hid : (record.pyGet "anchor_id").asStr = some aid) (haid : aid ≠ "")
    (hknown : (alistGet? aid known_anchors).isNone = false)
    (hw : (record.pyGet "what_changed").asStr = some w) (hwnb : ¬pyStrip w = "")
    (hy : (record.pyGet "why_changed").asStr = some y) (hynb : ¬pyStrip y = "")
    (htitle : (record.pyGet "title").asStr = none)
    (hrf : (record.pyGet "reviewer_focus").asStr = none)
    (hrisk : (record.pyGet "risk").asStr = none)
    (hsev : (record.pyGet "severity").asStr = none)
    (hdup : (alistGet? aid st.anchors_by_id).isSome = true)
    (hnb2 : pyStrip raw_line2 ≠ "")
    (hnc2 : pyStartsWith (pyStrip raw_line2) "#" = false)
    (hparse2 : env.jsonParse (pyStrip raw_line2) = .ok record2)
    (hro2 : record2.isObj = true)
    (hty2 : (record2.pyGet "type").asStr = some "file_summary")
    (hpath2 : (record2.pyGet "path").asStr = some p) (hpne2 : p ≠ "")
    (hknown2 : known_paths.contains p = true)
    (hsumm2 : (record2.pyGet "summary").asStr = some summ)
    (hsnb2 : ¬pyStrip summ = "")
    (hdup2 : (alistGet? p st2.file_summaries_by_path).isSome = true) :
    processNoteLine env fileName known_paths known_anchors st line_no raw_line =
      { st with
        issues := st.issues ++
          [_warning "duplicate_anchor_note"
            ("Duplicate anchor note for " ++ pyReprStr aid ++ "; keeping the latest.")
            (fileName ++ ":" ++ natRepr line_no)],
        anchors_by_id := alistSet aid
          (JValue.obj [("anchor_id", JValue.str aid),
            ("what_changed", JValue.str (pyStrip w)),
            ("why_changed", JValue.str (pyStrip y))]) st.anchors_by_id } ∧
    processNoteLine env fileName known_paths known_anchors st2 line_no2
        raw_line2 =
      { st2 with
        issues := st2.issues ++
          [_warning "duplicate_file_summary"
            ("Duplicate file_summary for " ++ pyReprStr p ++
              "; keeping the latest.")
            (fileName ++ ":" ++ natRepr line_no2)],
        file_summaries_by_path := alistSet p (pyStrip summ)
          st2.file_summaries_by_path } ∧
    (∀ entries, (parse_review_notes_jsonl env fileName text context).1.pyGet "anchors" =
        JValue.arr entries →
      (entries.map (fun a => a.pyGet "anchor_id")).Sublist
        (((reviewContextScan context).2.1).map JValue.str)) ∧
    (∀ fentries, (parse_review_notes_jsonl env fileName text context).1.getKey
        "file_summaries" = some (JValue.arr fentries) →
      (fentries.map (fun a => a.pyGet "path")).Sublist
        (((reviewContextScan context).1).map JValue.str)) := by
  have hsevr : anchorNoteSeverity record = some [] := by
    unfold anchorNoteSeverity
    rw [hsev]
  have hopt : anchorNoteOptFields record = [] := by
    unfold anchorNoteOptFields
    rw [htitle, hrf, hrisk]
    rfl
  have heff : noteLineEffect env fileName known_paths known_anchors st.overview
      st.file_summaries_by_path st.anchors_by_id line_no raw_line =
      ((st.overview, st.file_summaries_by_path,
        alistSet aid
          (JValue.obj [("anchor_id", JValue.str aid),
            ("what_changed", JValue.str (pyStrip w)),
            ("why_changed", JValue.str (pyStrip y))]) st.anchors_by_id),
       [_warning "duplicate_anchor_note"
         ("Duplicate anchor note for " ++ pyReprStr aid ++ "; keeping the latest.")
         (fileName ++ ":" ++ natRepr line_no)],
       []) := by
    unfold noteLineEffect
    rw [if_neg (by simp [hnb, hnc]), hparse]
    simp only [hro, Bool.not_true, Bool.false_eq_true, if_false]
    rw [hty]
    simp only []
    rw [if_neg (show ¬pyStrip "anchor_note" = "" from by decide),
      if_neg (show ¬("anchor_note" : String) = "overview" from by decide),
      if_neg (show ¬("anchor_note" : String) = "file_summary" from by decide)]
    rw [if_pos trivial]
    unfold anchorNoteLineEffect
    rw [hid]
    simp only []
    rw [if_neg haid]
    rw [hknown]
    simp only [Bool.false_eq_true, if_false]
    rw [hw]
    simp only []
    rw [if_neg hwnb, hy]
    simp only []
    rw [if_neg hynb, hsevr]
    simp only []
    rw [hopt]
    simp only [hdup, if_true]
    rfl
  have heff2 : noteLineEffect env fileName known_paths known_anchors st2.overview
      st2.file_summaries_by_path st2.anchors_by_id line_no2 raw_line2 =
      ((st2.overview, alistSet p (pyStrip summ) st2.file_summaries_by_path,
        st2.anchors_by_id),
       [_warning "duplicate_file_summary"
         ("Duplicate file_summary for " ++ pyReprStr p ++ "; keeping the latest.")
         (fileName ++ ":" ++ natRepr line_no2)],
       []) := by
    unfold noteLineEffect
    rw [if_neg (by simp [hnb2, hnc2]), hparse2]
    simp only [hro2, Bool.not_true, Bool.false_eq_true, if_false]
    rw [hty2]
    simp only []
    rw [if_neg (show ¬pyStrip "file_summary" = "" from by decide),
      if_neg (show ¬("file_summary" : String) = "overview" from by decide)]
    rw [if_pos trivial]
    unfold fileSummaryLineEffect
    rw [hpath2]
    simp only []
    rw [if_neg hpne2, hknown2]
    simp only [Bool.not_true, Bool.false_eq_true, if_false]
    rw [hsumm2]
    simp only []
    rw [if_neg hsnb2]
    simp only [hdup2, if_true]
  refine ⟨?_, ?_, ?_, ?_⟩
  · unfold processNoteLine
    rw [heff]
    simp
  · unfold processNoteLine
    rw [heff2]
    simp
  · intro entries heq
    unfold parse_review_notes_jsonl at heq
    simp only [] at heq
    have heq2 : JValue.arr (((reviewContextScan context).2.1).filterMap
        (fun anchor_id => alistGet? anchor_id
          (((pySplitlines text).enum.foldl
            (fun s p => processNoteLine env fileName (reviewContextScan context).1
              (reviewContextScan context).2.2 s (p.1 + 1) p.2)
            ⟨[], [], [], [], []⟩).anchors_by_id))) = JValue.arr entries := heq
    injection heq2 with heq3
    subst heq3
    refine map_filterMap_sublist _ _ ?_ _
    intro k v hk
    exact anchorsKeyed_fold env fileName (reviewContextScan context).1
      (reviewContextScan context).2.2 _ ⟨[], [], [], [], []⟩
      (fun k v hkv => by simp [alistGet?] at hkv) k v hk
  · intro fentries heq
    unfold parse_review_notes_jsonl at heq
    simp only [] at heq
    by_cases hemp : (((reviewContextScan context).1).filterMap
        (fun file_path => (alistGet? file_path
          (((pySplitlines text).enum.foldl
            (fun s p => processNoteLine env fileName (reviewContextScan context).1
              (reviewContextScan context).2.2 s (p.1 + 1) p.2)
            ⟨[], [], [], [], []⟩).file_summaries_by_path)).map
          (fun s => JValue.obj [("path", JValue.str file_path),
            ("summary", JValue.str s)]))).isEmpty = true
    · rw [if_pos hemp] at heq
      simp [JValue.getKey, List.lookup] at heq
    · rw [if_neg (by simpa using hemp)] at heq
      have heq2 : some (JValue.arr _) = some (JValue.arr fentries) := heq
      injection heq2 with heq3
      injection heq3 with heq4
      subst heq4
      refine map_filterMap_sublist _ _ ?_ _
      intro k v hk
      rcases Option.map_eq_some'.mp hk with ⟨s, -, rfl⟩
      exact pyGet_cons_head _ _ _

/-- A witness environment whose JSON parser recognizes one concrete
anchor-note line and one concrete file-summary line. -/
def envN : Env where
  hashText s := "#" ++ s
  collectPatch _ := .ok ""
  fnmatchcase _ _ := false
  jsonParse s :=
    if s = "\x7b\"type\":\"anchor_note\",\"anchor_id\":\"a1\",\"what_changed\":\"w\",\"why_changed\":\"y\"\x7d" then
      .ok (.obj [("type", .str "anchor_note"), ("anchor_id", .str "a1"),
        ("what_changed", .str "w"), ("why_changed", .str "y")])
    else if s = "\x7b\"type\":\"file_summary\",\"path\":\"f\",\"summary\":\"s\"\x7d" then
      .ok (.obj [("type", .str "file_summary"), ("path", .str "f"),
        ("summary", .str "s")])
    else .error "Expecting value"
  posixStr s := s
  jsonDumpsSorted _ := "\x7b\x7d"

theorem duplicate_note_keeps_latest_and_orders_by_context_witness :
    processNoteLine envN "notes.jsonl" ["f"] [("a1", "f")]
        ⟨[], [], [("a1", JValue.obj [("anchor_id", JValue.str "a1")])], [], []⟩ 4
        "\x7b\"type\":\"anchor_note\",\"anchor_id\":\"a1\",\"what_changed\":\"w\",\"why_changed\":\"y\"\x7d" =
      { (⟨[], [], [("a1", JValue.obj [("anchor_id", JValue.str "a1")])], [], []⟩ :
          NotesState) with
        issues := (⟨[], [], [("a1", JValue.obj [("anchor_id", JValue.str "a1")])],
            [], []⟩ : NotesState).issues ++
          [_warning "duplicate_anchor_note"
            ("Duplicate anchor note for " ++ pyReprStr "a1" ++ "; keeping the latest.")
            ("notes.jsonl" ++ ":" ++ natRepr 4)],
        anchors_by_id := alistSet "a1"
          (JValue.obj [("anchor_id", JValue.str "a1"),
            ("what_changed", JValue.str (pyStrip "w")),
            ("why_changed", JValue.str (pyStrip "y"))])
          (⟨[], [], [("a1", JValue.obj [("anchor_id", JValue.str "a1")])], [], []⟩ :
            NotesState).anchors_by_id } ∧
    processNoteLine envN "notes.jsonl" ["f"] [("a1", "f")]
        ⟨[], [("f", "old")], [], [], []⟩ 7
        "\x7b\"type\":\"file_summary\",\"path\":\"f\",\"summary\":\"s\"\x7d" =
      { (⟨[], [("f", "old")], [], [], []⟩ : NotesState) with
        issues := (⟨[], [("f", "old")], [], [], []⟩ : NotesState).issues ++
          [_warning "duplicate_file_summary"
            ("Duplicate file_summary for " ++ pyReprStr "f" ++
              "; keeping the latest.")
            ("notes.jsonl" ++ ":" ++ natRepr 7)],
        file_summaries_by_path := alistSet "f" (pyStrip "s")
          (⟨[], [("f", "old")], [], [], []⟩ : NotesState).file_summaries_by_path } ∧
    (∀ entries, (parse_review_notes_jsonl envN "notes.jsonl" "" JValue.null).1.pyGet
        "anchors" = JValue.arr entries →
      (entries.map (fun a => a.pyGet "anchor_id")).Sublist
        (((reviewContextScan JValue.null).2.1).map JValue.str)) ∧
    (∀ fentries, (parse_review_notes_jsonl envN "notes.jsonl" "" JValue.null).1.getKey
        "file_summaries" = some (JValue.arr fentries) →
      (fentries.map (fun a => a.pyGet "path")).Sublist
        (((reviewContextScan JValue.null).1).map JValue.str)) :=
  duplicate_note_keeps_latest_and_orders_by_context envN "notes.jsonl" ["f"]
    [("a1", "f")]
    ⟨[], [], [("a1", JValue.obj [("anchor_id", JValue.str "a1")])], [], []⟩ 4
    "\x7b\"type\":\"anchor_note\",\"anchor_id\":\"a1\",\"what_changed\":\"w\",\"why_changed\":\"y\"\x7d"
    (.obj [("type", .str "anchor_note"), ("anchor_id", .str "a1"),
      ("what_changed", .str "w"), ("why_changed", .str "y")])
    "a1" "w" "y" "" JValue.null
    ⟨[], [("f", "old")], [], [], []⟩ 7
    "\x7b\"type\":\"file_summary\",\"path\":\"f\",\"summary\":\"s\"\x7d"
    (.obj [("type", .str "file_summary"), ("path", .str "f"),
      ("summary", .str "s")])
    "f" "s"
    (by decide) (by decide) rfl rfl rfl rfl (by decide) rfl rfl (by decide)
    rfl (by decide) rfl rfl rfl rfl rfl
    (by decide) (by decide) rfl rfl rfl rfl (by decide) rfl rfl (by decide) rfl

/-! ## C2: the compile/validate round trip -/


theorem pyStrip_idem (s : String) : pyStrip (pyStrip s) = pyStrip s := by
  rw [string_eq_iff_data]
  show ((((pyStrip s).data.dropWhile isPySpace).reverse.dropWhile isPySpace).reverse) =
    (pyStrip s).data
  have hfront : (pyStrip s).data.dropWhile isPySpace = (pyStrip s).data := by
    cases hr : (pyStrip s).data with
    | nil => rfl
    | cons c cs =>
      have hd : s.data.dropWhile isPySpace =
          (c :: cs) ++ ((s.data.dropWhile isPySpace).reverse.takeWhile isPySpace).reverse := by
        have h1 : (s.data.dropWhile isPySpace).reverse.reverse =
            ((s.data.dropWhile isPySpace).reverse.takeWhile isPySpace ++
              (s.data.dropWhile isPySpace).reverse.dropWhile isPySpace).reverse := by
          rw [List.takeWhile_append_dropWhile]
        rw [List.reverse_reverse, List.reverse_append] at h1
        have h2 : ((s.data.dropWhile isPySpace).reverse.dropWhile isPySpace).reverse =
            c :: cs := hr
        rw [h2] at h1
        exact h1
      have hne : s.data.dropWhile isPySpace ≠ [] := by rw [hd]; simp
      have hhead := List.head_dropWhile_not isPySpace s.data hne
      have hsome : (s.data.dropWhile isPySpace).head? = some c := by rw [hd]; rfl
      rw [List.head?_eq_head hne] at hsome
      injection hsome with hc
      rw [hc] at hhead
      rw [List.dropWhile_cons, hhead]
      simp
  rw [hfront]
  have hback : (pyStrip s).data.reverse.dropWhile isPySpace = (pyStrip s).data.reverse := by
    show (((s.data.dropWhile isPySpace).reverse.dropWhile isPySpace).reverse).reverse.dropWhile
        isPySpace = _
    rw [List.reverse_reverse, List.dropWhile_idempotent]
    conv_rhs => rw [show (pyStrip s).data =
      ((s.data.dropWhile isPySpace).reverse.dropWhile isPySpace).reverse from rfl,
      List.reverse_reverse]
  rw [hback, List.reverse_reverse]

theorem alistGet?_append_left {α : Type} {k : String} {v : α} :
    ∀ {l₁ : List (String × α)}, alistGet? k l₁ = some v →
    ∀ l₂ : List (String × α), alistGet? k (l₁ ++ l₂) = some v := by
  intro l₁ h l₂
  induction l₁ with
  | nil => exact absurd h (by simp [alistGet?])
  | cons p t ih =>
    obtain ⟨k0, v0⟩ := p
    simp only [alistGet?, List.cons_append] at h ⊢
    by_cases h0 : k0 = k
    · rw [if_pos h0] at h ⊢; exact h
    · rw [if_neg h0] at h ⊢; exact ih h

theorem alistGet?_append_right {α : Type} {k : String} :
    ∀ {l₁ : List (String × α)}, alistGet? k l₁ = none →
    ∀ l₂ : List (String × α), alistGet? k (l₁ ++ l₂) = alistGet? k l₂ := by
  intro l₁ h l₂
  induction l₁ with
  | nil => rfl
  | cons p t ih =>
    obtain ⟨k0, v0⟩ := p
    simp only [alistGet?, List.cons_append] at h ⊢
    by_cases h0 : k0 = k
    · rw [if_pos h0] at h; exact absurd h (by simp)
    · rw [if_neg h0] at h ⊢; exact ih h

theorem alistGet?_mem {α : Type} {k : String} {v : α} :
    ∀ {l : List (String × α)}, alistGet? k l = some v → (k, v) ∈ l := by
  intro l h
  induction l with
  | nil => exact absurd h (by simp [alistGet?])
  | cons p t ih =>
    obtain ⟨k0, v0⟩ := p
    simp only [alistGet?] at h
    by_cases h0 : k0 = k
    · rw [if_pos h0] at h
      injection h with h
      subst h0; subst h
      exact List.mem_cons_self _ _
    · rw [if_neg h0] at h
      exact List.mem_cons_of_mem _ (ih h)

theorem alistGet?_isSome_alistSet {α : Type} (k k' : String) (v : α)
    (l : List (String × α)) (h : (alistGet? k' l).isSome = true) :
    (alistGet? k' (alistSet k v l)).isSome = true := by
  rw [alistGet?_alistSet]
  by_cases hk : k' = k
  · rw [if_pos hk]; rfl
  · rw [if_neg hk]; exact h

theorem alistGet?_alistAppend {α : Type} (k k' : String) (v : α) :
    ∀ l : List (String × List α),
    alistGet? k' (alistAppend k v l) =
      if k' = k then some (((alistGet? k l).getD []) ++ [v]) else alistGet? k' l := by
  intro l
  induction l with
  | nil =>
    simp only [alistAppend, alistGet?]
    by_cases h1 : k' = k
    · rw [if_pos h1.symm, if_pos h1]; rfl
    · rw [if_neg (fun hh => h1 hh.symm), if_neg h1]
  | cons p rest ih =>
    obtain ⟨k0, vs⟩ := p
    simp only [alistAppend]
    by_cases h0 : k0 = k
    · subst h0
      rw [if_pos rfl]
      simp only [alistGet?, if_pos rfl]
      by_cases h1 : k0 = k'
      · rw [if_pos h1, if_pos h1.symm]; rfl
      · rw [if_neg h1, if_neg (fun hh => h1 hh.symm), if_neg h1]
    · rw [if_neg h0]
      simp only [alistGet?]
      by_cases h1 : k0 = k'
      · subst h1
        rw [if_neg h0, if_pos rfl, if_pos rfl]
      · rw [if_neg h1, ih, if_neg h0, if_neg h1]

/-- A fold-invariant principle: if every element of the list preserves the
invariant, the fold preserves it. -/
theorem foldl_inv {β σ : Type} (P : σ → Prop) (step : σ → β → σ) :
    ∀ (l : List β) (s : σ), (∀ x ∈ l, ∀ t, P t → P (step t x)) → P s →
      P (l.foldl step s) := by
  intro l
  induction l with
  | nil => intro s _ hs; exact hs
  | cons x t ih =>
    intro s hstep hs
    exact ih (step s x) (fun y hy u hu => hstep y (List.mem_cons_of_mem _ hy) u hu)
      (hstep x (List.mem_cons_self _ _) s hs)

theorem getKey_cons_eq (k : String) (v : JValue) (t : List (String × JValue)) :
    JValue.getKey (.obj ((k, v) :: t)) k = some v := by
  show List.lookup k ((k, v) :: t) = some v
  simp [List.lookup]

theorem getKey_cons_ne (k k' : String) (hne : k ≠ k') (v : JValue)
    (t : List (String × JValue)) :
    JValue.getKey (.obj ((k', v) :: t)) k = JValue.getKey (.obj t) k := by
  show List.lookup k ((k', v) :: t) = List.lookup k t
  simp [List.lookup, beq_eq_false_iff_ne.mpr hne]

theorem getKey_obj_eq (k : String) :
    ∀ l : List (String × JValue), JValue.getKey (.obj l) k = alistGet? k l := by
  intro l
  induction l with
  | nil => rfl
  | cons p t ih =>
    obtain ⟨k0, v0⟩ := p
    by_cases h0 : k0 = k
    · subst h0
      rw [getKey_cons_eq]
      simp [alistGet?]
    · rw [getKey_cons_ne k k0 (fun hh => h0 hh.symm), ih]
      simp [alistGet?, h0]

/-- The context object produced by the success branch of
`build_review_context`. -/
def builtContext (env : Env) (raw_patch : String) (source_spec : JValue)
    (generated_at : String) (files : List FilePatch) : JValue :=
  .obj
    [("version", .str "2"),
     ("generated_at", .str generated_at),
     ("source_spec", source_spec),
     ("diff_fingerprint", .str (env.hashText raw_patch)),
     ("stats", statsJ (_stats files)),
     ("files", .arr (_build_context_files env files)),
     ("context_id", .str (env.hashText (env.jsonDumpsSorted
       (contextIdPayload source_spec (env.hashText raw_patch)
         (_build_context_files env files)))))]

theorem build_ok_inv {env : Env} {raw_patch : String} {source_spec : JValue}
    {generated_at : String} {ctx : JValue}
    (hbuild : build_review_context env raw_patch source_spec generated_at = .ok ctx) :
    ∃ files, _parse_files env raw_patch (specExcludePaths source_spec)
        (specExcludeBinary source_spec) = .ok files ∧
      ctx = builtContext env raw_patch source_spec generated_at files := by
  unfold build_review_context at hbuild
  cases hp : _parse_files env raw_patch (specExcludePaths source_spec)
      (specExcludeBinary source_spec) with
  | error e => rw [hp] at hbuild; exact absurd hbuild (by simp)
  | ok files =>
    rw [hp] at hbuild
    simp only [Except.ok.injEq] at hbuild
    exact ⟨files, rfl, hbuild.symm⟩

theorem builtContext_isObj (env : Env) (raw_patch : String) (source_spec : JValue)
    (generated_at : String) (files : List FilePatch) :
    (builtContext env raw_patch source_spec generated_at files).isObj = true := rfl

theorem builtContext_source_spec (env : Env) (raw_patch : String)
    (source_spec : JValue) (generated_at : String) (files : List FilePatch) :
    (builtContext env raw_patch source_spec generated_at files).pyGet "source_spec" =
      source_spec := by
  simp [builtContext, JValue.pyGet, JValue.getKey, List.lookup]

theorem builtContext_fingerprint (env : Env) (raw_patch : String)
    (source_spec : JValue) (generated_at : String) (files : List FilePatch) :
    (builtContext env raw_patch source_spec generated_at files).pyGet
        "diff_fingerprint" = .str (env.hashText raw_patch) := by
  simp [builtContext, JValue.pyGet, JValue.getKey, List.lookup]

theorem builtContext_files (env : Env) (raw_patch : String)
    (source_spec : JValue) (generated_at : String) (files : List FilePatch) :
    (builtContext env raw_patch source_spec generated_at files).pyGetD "files"
        (.arr []) = .arr (_build_context_files env files) := by
  simp [builtContext, JValue.pyGetD, JValue.getKey, List.lookup]

theorem builtContext_context_id (env : Env) (raw_patch : String)
    (source_spec : JValue) (generated_at : String) (files : List FilePatch) :
    (builtContext env raw_patch source_spec generated_at files).pyGet "context_id" =
      .str (env.hashText (env.jsonDumpsSorted
        (contextIdPayload source_spec (env.hashText raw_patch)
          (_build_context_files env files)))) := by
  simp [builtContext, JValue.pyGet, JValue.getKey, List.lookup]

/-- Runtime recomputation on a freshly built context succeeds and reproduces
the parsed files when the source spec still yields the same patch text. -/
theorem recompute_built (env : Env) (raw_patch : String) (source_spec : JValue)
    (generated_at : String) (files : List FilePatch)
    (hspec : source_spec.isObj = true)
    (hcollect : env.collectPatch source_spec = .ok raw_patch)
    (hparse : _parse_files env raw_patch (specExcludePaths source_spec)
      (specExcludeBinary source_spec) = .ok files) :
    recompute_runtime_from_context env
        (builtContext env raw_patch source_spec generated_at files) =
      .ok { diff_fingerprint := env.hashText raw_patch, stats := _stats files,
            files := files, anchor_index := anchorIndexOf env files } := by
  unfold recompute_runtime_from_context
  rw [builtContext_source_spec]
  simp only []
  rw [hspec]
  simp only [Bool.not_true, Bool.false_eq_true, if_false]
  rw [hcollect]
  simp only []
  rw [hparse]

/-- One anchor entry of a context file as built by `_build_context_files`. -/
def buildAnchorEntry (env : Env) (path : String) (p : Nat × Hunk) : JValue :=
  .obj [("anchor_id", .str (_anchor_id env path p.2)),
        ("title", .str (_anchor_title path (p.1 + 1))),
        ("focus_snippets", .arr ((_focus_snippets p.2.lines).map JValue.str)),
        ("risk_hint",
          match _risk_hint p.2.lines with
          | some s => .str s
          | none => .null)]

/-- One file entry of a context as built by `_build_context_files`. -/
def buildFileEntry (env : Env) (file_patch : FilePatch) : JValue :=
  .obj [("path", .str file_patch.path),
        ("status", .str file_patch.status),
        ("anchors", .arr (file_patch.hunks.enum.map
          (buildAnchorEntry env file_patch.path)))]

theorem build_context_files_eq (env : Env) (files : List FilePatch) :
    _build_context_files env files = files.map (buildFileEntry env) := rfl

theorem buildFileEntry_isObj (env : Env) (f : FilePatch) :
    (buildFileEntry env f).isObj = true := rfl

theorem buildFileEntry_path (env : Env) (f : FilePatch) :
    (buildFileEntry env f).pyGet "path" = .str f.path :=
  pyGet_cons_head _ _ _

theorem buildFileEntry_anchors (env : Env) (f : FilePatch) :
    (buildFileEntry env f).pyGetD "anchors" (.arr []) =
      .arr (f.hunks.enum.map (buildAnchorEntry env f.path)) := by
  unfold buildFileEntry JValue.pyGetD
  rw [getKey_cons_ne _ "path" (by decide), getKey_cons_ne _ "status" (by decide),
    getKey_cons_eq]
  rfl

theorem buildAnchorEntry_isObj (env : Env) (path : String) (p : Nat × Hunk) :
    (buildAnchorEntry env path p).isObj = true := rfl

theorem buildAnchorEntry_id (env : Env) (path : String) (p : Nat × Hunk) :
    (buildAnchorEntry env path p).pyGet "anchor_id" =
      .str (_anchor_id env path p.2) :=
  pyGet_cons_head _ _ _

/-- Every binding of the compiled anchor-to-path map resolves to a real file
of the parsed diff and an anchor id computed from one of its hunks. -/
def ScanInv (env : Env) (files : List FilePatch) (m : List (String × String)) :
    Prop :=
  ∀ aid p, alistGet? aid m = some p →
    ∃ f, f ∈ files ∧ f.path = p ∧ ∃ h, h ∈ f.hunks ∧
      aid = env.hashText (f.path ++ ":" ++ h.stable_hunk_id)

theorem scanAnchorStep_inv (env : Env) (files : List FilePatch) (f : FilePatch)
    (hf : f ∈ files) (x : Nat × Hunk) (hx : x ∈ f.hunks.enum)
    (m : List (String × String) × List (String × String))
    (hm : ScanInv env files m.1) :
    ScanInv env files (scanAnchorStep f.path m (buildAnchorEntry env f.path x)).1 := by
  unfold scanAnchorStep
  rw [buildAnchorEntry_isObj, buildAnchorEntry_id]
  simp only [Bool.not_true, Bool.false_eq_true, if_false, JValue.asStr]
  by_cases hz : _anchor_id env f.path x.2 = ""
  · rw [if_pos hz]; exact hm
  · rw [if_neg hz]
    simp only []
    intro aid p hget
    rw [alistGet?_alistSet] at hget
    by_cases ha : aid = _anchor_id env f.path x.2
    · rw [if_pos ha] at hget
      injection hget with hget
      exact ⟨f, hf, hget, x.2, List.snd_mem_of_mem_enum hx, ha⟩
    · rw [if_neg ha] at hget
      exact hm aid p hget

theorem scan_inv (env : Env) (files : List FilePatch) :
    ScanInv env files (compileContextScan (_build_context_files env files)).2.1 := by
  unfold compileContextScan
  rw [build_context_files_eq]
  refine foldl_inv (fun acc => ScanInv env files acc.2.1) scanFileStep _ _ ?_ ?_
  · intro x hx t ht
    obtain ⟨f, hf, rfl⟩ := List.mem_map.mp hx
    unfold scanFileStep
    rw [buildFileEntry_isObj, buildFileEntry_path]
    simp only [Bool.not_true, Bool.false_eq_true, if_false, JValue.asStr]
    by_cases hz : f.path = ""
    · rw [if_pos hz]; exact ht
    · rw [if_neg hz]
      simp only [buildFileEntry_anchors, JValue.asArr, Option.getD_some]
      exact foldl_inv (fun (m : List (String × String) × List (String × String)) =>
          ScanInv env files m.1) (scanAnchorStep f.path) _ (t.2.1, t.2.2)
        (fun y hy u hu => by
          obtain ⟨q, hq, rfl⟩ := List.mem_map.mp hy
          exact scanAnchorStep_inv env files f hf q hq u hu) ht
  · intro aid p h
    exact absurd h (by simp [alistGet?])

theorem scan_order_aux (env : Env) :
    ∀ (l : List FilePatch)
      (acc : List String × List (String × String) × List (String × String)),
      (∀ f ∈ l, f.path ≠ "") →
      ((l.map (buildFileEntry env)).foldl scanFileStep acc).1 =
        acc.1 ++ l.map FilePatch.path := by
  intro l
  induction l with
  | nil => intro acc _; simp
  | cons f t ih =>
    intro acc hne
    rw [List.map_cons, List.foldl_cons,
      ih _ (fun g hg => hne g (List.mem_cons_of_mem _ hg))]
    have hstep : (scanFileStep acc (buildFileEntry env f)).1 = acc.1 ++ [f.path] := by
      unfold scanFileStep
      rw [buildFileEntry_isObj, buildFileEntry_path]
      simp only [Bool.not_true, Bool.false_eq_true, if_false, JValue.asStr]
      rw [if_neg (hne f (List.mem_cons_self _ _))]
    rw [hstep, List.map_cons, List.append_assoc, List.singleton_append]

theorem scan_order (env : Env) (files : List FilePatch)
    (hne : ∀ f ∈ files, f.path ≠ "") :
    (compileContextScan (_build_context_files env files)).1 =
      files.map FilePatch.path := by
  unfold compileContextScan
  rw [build_context_files_eq, scan_order_aux env files _ hne, List.nil_append]

theorem foldl_setIndex_not_mem (env : Env) :
    ∀ (l : List FilePatch) (acc : List (String × List (String × AnchorMeta)))
      (p : String), (∀ g ∈ l, g.path ≠ p) →
      alistGet? p (l.foldl (fun idx f => alistSet f.path (fileAnchorMapOf env f) idx)
          acc) = alistGet? p acc := by
  intro l
  induction l with
  | nil => intro acc p _; rfl
  | cons g t ih =>
    intro acc p hne
    rw [List.foldl_cons, ih _ _ (fun x hx => hne x (List.mem_cons_of_mem _ hx)),
      alistGet?_alistSet, if_neg (fun hh => hne g (List.mem_cons_self _ _) hh.symm)]

theorem anchorIndexOf_get_aux (env : Env) :
    ∀ (l : List FilePatch) (acc : List (String × List (String × AnchorMeta)))
      (f : FilePatch), f ∈ l → (l.map FilePatch.path).Nodup →
      alistGet? f.path
          (l.foldl (fun idx g => alistSet g.path (fileAnchorMapOf env g) idx) acc) =
        some (fileAnchorMapOf env f) := by
  intro l
  induction l with
  | nil => intro acc f hf; exact absurd hf (by simp)
  | cons g t ih =>
    intro acc f hf hnd
    rw [List.map_cons, List.nodup_cons] at hnd
    rw [List.foldl_cons]
    rcases List.mem_cons.mp hf with hfg | hft
    · subst hfg
      rw [foldl_setIndex_not_mem env t _ f.path
          (fun x hx hxp => hnd.1 (hxp ▸ List.mem_map_of_mem FilePatch.path hx)),
        alistGet?_alistSet, if_pos rfl]
    · exact ih _ f hft hnd.2

theorem anchorIndexOf_get (env : Env) (files : List FilePatch) (f : FilePatch)
    (hf : f ∈ files) (hnd : (files.map FilePatch.path).Nodup) :
    alistGet? f.path (anchorIndexOf env files) = some (fileAnchorMapOf env f) := by
  unfold anchorIndexOf
  exact anchorIndexOf_get_aux env files [] f hf hnd

theorem anchorMapFold_preserve (env : Env) (p aidq : String) :
    ∀ (l : List Hunk) (acc : List (String × AnchorMeta)),
      (alistGet? aidq acc).isSome = true →
      (alistGet? aidq (l.foldl
        (fun m h => if h.stable_hunk_id = "" then m
          else alistSet (env.hashText (p ++ ":" ++ h.stable_hunk_id))
            (anchorMetaOf env p h) m) acc)).isSome = true := by
  intro l
  induction l with
  | nil => intro acc h; exact h
  | cons g t ih =>
    intro acc hacc
    rw [List.foldl_cons]
    apply ih
    by_cases hs : g.stable_hunk_id = ""
    · rw [if_pos hs]; exact hacc
    · rw [if_neg hs]; exact alistGet?_isSome_alistSet _ _ _ _ hacc

theorem fileAnchorMapOf_has_aux (env : Env) (p : String) (h : Hunk)
    (hst : h.stable_hunk_id ≠ "") :
    ∀ (l : List Hunk) (acc : List (String × AnchorMeta)), h ∈ l →
      (alistGet? (env.hashText (p ++ ":" ++ h.stable_hunk_id))
        (l.foldl (fun m h' => if h'.stable_hunk_id = "" then m
          else alistSet (env.hashText (p ++ ":" ++ h'.stable_hunk_id))
            (anchorMetaOf env p h') m) acc)).isSome = true := by
  intro l
  induction l with
  | nil => intro acc hm; exact absurd hm (by simp)
  | cons g t ih =>
    intro acc hm
    rw [List.foldl_cons]
    rcases List.mem_cons.mp hm with hg | hmt
    · subst hg
      apply anchorMapFold_preserve
      rw [if_neg hst, alistGet?_alistSet, if_pos rfl]
      rfl
    · exact ih _ hmt

theorem fileAnchorMapOf_has (env : Env) (f : FilePatch) (h : Hunk)
    (hmem : h ∈ f.hunks) (hst : h.stable_hunk_id ≠ "") :
    (alistGet? (env.hashText (f.path ++ ":" ++ h.stable_hunk_id))
      (fileAnchorMapOf env f)).isSome = true := by
  unfold fileAnchorMapOf
  exact fileAnchorMapOf_has_aux env f.path h hst f.hunks [] hmem

theorem compiledAnchor_isObj (adt : List (String × String)) (aid : String)
    (a : JValue) : (compiledAnchor adt aid a).isObj = true := by
  unfold compiledAnchor
  rfl

theorem compiledAnchor_aid (adt : List (String × String)) (aid : String)
    (a : JValue) :
    (compiledAnchor adt aid a).pyGet "anchor_id" = .str aid := by
  unfold compiledAnchor
  exact pyGet_cons_head _ _ _

theorem compiledAnchor_what (adt : List (String × String)) (aid : String)
    (a : JValue) :
    (compiledAnchor adt aid a).pyGet "what_changed" =
      .str (pyStrip (pyStr (a.pyGetD "what_changed" (.str "")))) := by
  unfold compiledAnchor JValue.pyGet
  simp only [List.append_assoc, List.cons_append, List.nil_append]
  rw [getKey_cons_ne _ "anchor_id" (by decide), getKey_cons_eq]
  rfl

theorem compiledAnchor_why (adt : List (String × String)) (aid : String)
    (a : JValue) :
    (compiledAnchor adt aid a).pyGet "why_changed" =
      .str (pyStrip (pyStr (a.pyGetD "why_changed" (.str "")))) := by
  unfold compiledAnchor JValue.pyGet
  simp only [List.append_assoc, List.cons_append, List.nil_append]
  rw [getKey_cons_ne _ "anchor_id" (by decide), getKey_cons_ne _ "what_changed" (by decide),
    getKey_cons_eq]
  rfl

theorem compiledAnchor_values_str (adt : List (String × String)) (aid : String)
    (a : JValue) :
    ∀ k v, JValue.getKey (compiledAnchor adt aid a) k = some v →
      ∃ s, v = JValue.str s := by
  intro k v hk
  unfold compiledAnchor at hk
  rw [getKey_obj_eq] at hk
  have hmem := alistGet?_mem hk
  simp only [List.append_assoc, List.cons_append, List.nil_append, List.mem_cons,
    List.mem_append] at hmem
  rcases hmem with h | h | h | h
  · exact ⟨aid, congrArg Prod.snd h⟩
  · exact ⟨_, congrArg Prod.snd h⟩
  · exact ⟨_, congrArg Prod.snd h⟩
  · rcases h with h | h | h | h
    · split at h
      · split at h
        · simp at h; exact ⟨_, h.2⟩
        · split at h
          · simp at h; exact ⟨_, h.2⟩
          · exact absurd h (by simp)
      · split at h
        · simp at h; exact ⟨_, h.2⟩
        · exact absurd h (by simp)
    · split at h
      · split at h
        · simp at h; exact ⟨_, h.2⟩
        · exact absurd h (by simp)
      · exact absurd h (by simp)
    · split at h
      · split at h
        · simp at h; exact ⟨_, h.2⟩
        · exact absurd h (by simp)
      · exact absurd h (by simp)
    · split at h
      · split at h
        · simp at h; exact ⟨_, h.2⟩
        · exact absurd h (by simp)
      · exact absurd h (by simp)

theorem compiledAnchor_strfield (adt : List (String × String)) (aid : String)
    (a : JValue) (k : String) :
    ((compiledAnchor adt aid a).hasKey k &&
      ((compiledAnchor adt aid a).pyGet k).asStr.isNone) = false := by
  cases hk : JValue.getKey (compiledAnchor adt aid a) k with
  | none => simp [JValue.hasKey, hk]
  | some v =>
    obtain ⟨s, rfl⟩ := compiledAnchor_values_str adt aid a _ _ hk
    simp [JValue.hasKey, JValue.pyGet, hk, JValue.asStr]

theorem compiledAnchor_severity (adt : List (String × String)) (aid : String)
    (a : JValue) :
    (compiledAnchor adt aid a).pyGet "severity" = JValue.null ∨
    ∃ s, (a.pyGet "severity").asStr = some s ∧ pyStrip s ≠ "" ∧
      (compiledAnchor adt aid a).pyGet "severity" = JValue.str (pyStrip s) := by
  unfold compiledAnchor JValue.pyGet
  rw [getKey_obj_eq]
  simp only [List.append_assoc, List.cons_append, List.nil_append]
  simp only [alistGet?, show ("anchor_id" = "severity") = False by simp,
    show ("what_changed" = "severity") = False by simp,
    show ("why_changed" = "severity") = False by simp, if_false]
  rw [alistGet?_append_right ?_, alistGet?_append_right ?_, alistGet?_append_right ?_]
  · split
    · rename_i s hs
      split
      · rename_i hne
        exact Or.inr ⟨s, hs, hne, by simp [alistGet?]⟩
      · exact Or.inl rfl
    · exact Or.inl rfl
  · split
    · split
      · simp [alistGet?]
      · rfl
    · rfl
  · split
    · split
      · simp [alistGet?]
      · rfl
    · rfl
  · split
    · split
      · simp [alistGet?]
      · split
        · simp [alistGet?]
        · rfl
    · split
      · simp [alistGet?]
      · rfl

/-- The field conditions on an anchor note under which its compiled form
passes the per-anchor schema checks. -/
def NoteFieldsOK (a : JValue) : Prop :=
  pyStrip (pyStr (a.pyGetD "what_changed" (.str ""))) ≠ "" ∧
  pyStrip (pyStr (a.pyGetD "why_changed" (.str ""))) ≠ "" ∧
  ∀ s, (a.pyGet "severity").asStr = some s →
    pyStrip s = "" ∨ _ALLOWED_SEVERITIES.contains (pyStrip s) = true

theorem anchorCommonIssues_compiled (adt : List (String × String)) (aid : String)
    (a : JValue) (loc : String) (hok : NoteFieldsOK a) :
    anchorCommonIssues loc (compiledAnchor adt aid a) = [] := by
  obtain ⟨hwhat, hwhy, hsev⟩ := hok
  unfold anchorCommonIssues
  rw [compiledAnchor_what, compiledAnchor_why]
  rw [if_pos (by simp [JValue.isNonblankStr, pyStrip_idem, hwhat]),
    if_pos (by simp [JValue.isNonblankStr, pyStrip_idem, hwhy])]
  rw [if_neg (by rw [compiledAnchor_strfield]; exact Bool.false_ne_true),
    if_neg (by rw [compiledAnchor_strfield]; exact Bool.false_ne_true),
    if_neg (by rw [compiledAnchor_strfield]; exact Bool.false_ne_true)]
  have hsevcond : (!((compiledAnchor adt aid a).pyGet "severity").isNull &&
      !severityAllowed ((compiledAnchor adt aid a).pyGet "severity")) = false := by
    rcases compiledAnchor_severity adt aid a with hnull | ⟨s, hs, hne, hval⟩
    · rw [hnull]; rfl
    · rw [hval]
      rcases hsev s hs with hblank | hallow
      · exact absurd hblank hne
      · have : severityAllowed (JValue.str (pyStrip s)) = true := by
          simpa [severityAllowed] using hallow
        rw [this]
        simp
  rw [if_neg (by rw [hsevcond]; exact Bool.false_ne_true)]
  rfl

/-- Every compiled anchor grouped under a path came from an anchor note with
valid fields whose id resolves to that path in the context scan. -/
def AbfInv (a2p adt : List (String × String))
    (abf : List (String × List JValue)) : Prop :=
  ∀ p l, alistGet? p abf = some l → ∀ x ∈ l,
    ∃ aid a, x = compiledAnchor adt aid a ∧ aid ≠ "" ∧
      alistGet? aid a2p = some p ∧ NoteFieldsOK a

theorem compileNotesAnchors_inv (a2p adt : List (String × String)) :
    ∀ (na : List JValue) (idx : Nat) (abf : List (String × List JValue))
      (issues : List Issue),
      (∀ a ∈ na, a.isObj = true → NoteFieldsOK a) →
      AbfInv a2p adt abf →
      AbfInv a2p adt (compileNotesAnchors a2p adt idx abf issues na).1 := by
  intro na
  induction na with
  | nil => intro idx abf issues _ hinv; exact hinv
  | cons a rest ih =>
    intro idx abf issues hall hinv
    have htail : ∀ x ∈ rest, x.isObj = true → NoteFieldsOK x :=
      fun x hx => hall x (List.mem_cons_of_mem _ hx)
    rw [compileNotesAnchors]
    by_cases hobj : a.isObj = true
    · rw [hobj]
      simp only [Bool.not_true, Bool.false_eq_true, if_false]
      cases han : (a.pyGet "anchor_id").asStr with
      | none => exact ih _ _ _ htail hinv
      | some aid =>
        simp only []
        by_cases haid : aid = ""
        · rw [if_pos haid]; exact ih _ _ _ htail hinv
        · rw [if_neg haid]
          cases hpath : alistGet? aid a2p with
          | none => exact ih _ _ _ htail hinv
          | some p =>
            apply ih _ _ _ htail
            intro q l hq x hx
            rw [alistGet?_alistAppend] at hq
            by_cases hqp : q = p
            · rw [if_pos hqp] at hq
              injection hq with hq
              subst hq
              rcases List.mem_append.mp hx with hold | hnew
              · cases hget : alistGet? p abf with
                | none => rw [hget] at hold; exact absurd hold (by simp)
                | some l0 =>
                  rw [hget] at hold
                  rw [hqp]
                  exact hinv p l0 hget x hold
              · simp only [List.mem_singleton] at hnew
                subst hnew
                exact ⟨aid, a, rfl, haid, hqp ▸ hpath,
                  hall a (List.mem_cons_self _ _) hobj⟩
            · rw [if_neg hqp] at hq
              exact hinv q l hq x hx
    · rw [show a.isObj = false from by
        cases h : a.isObj
        · rfl
        · exact absurd h hobj]
      simp only [Bool.not_false, if_true]
      exact ih _ _ _ htail hinv

theorem overviewIssues_arr_ok (ov : List JValue)
    (h1 : ov.all JValue.isNonblankStr = true) (h2 : ov.length ≤ 8) :
    overviewIssues (.arr ov) = [] := by
  unfold overviewIssues
  rw [show (JValue.arr ov).isNull = false from rfl]
  simp only [Bool.false_eq_true, if_false, JValue.asArr]
  rw [if_pos h1, if_neg (by omega)]

theorem anchorEntryIssues_compiled (loc : String) (y : JValue)
    (hy : ∃ adt aid a, y = compiledAnchor adt aid a ∧ aid ≠ "" ∧ NoteFieldsOK a) :
    (match y with
     | .obj _ =>
       (if (y.pyGet "anchor_id").isNonemptyStr then []
        else [_error "anchor_id" "anchor_id must be a non-empty string."
          (loc ++ ".anchor_id")]) ++
       anchorCommonIssues loc y
     | _ => [_error "anchor_type" "Anchor must be an object." loc]) = [] := by
  obtain ⟨adt, aid, a, rfl, haid, hok⟩ := hy
  rcases hje : compiledAnchor adt aid a with _ | b | n | s | l | fields
  · exact absurd (hje ▸ compiledAnchor_isObj adt aid a) (by simp [JValue.isObj])
  · exact absurd (hje ▸ compiledAnchor_isObj adt aid a) (by simp [JValue.isObj])
  · exact absurd (hje ▸ compiledAnchor_isObj adt aid a) (by simp [JValue.isObj])
  · exact absurd (hje ▸ compiledAnchor_isObj adt aid a) (by simp [JValue.isObj])
  · exact absurd (hje ▸ compiledAnchor_isObj adt aid a) (by simp [JValue.isObj])
  · have h1 : (JValue.obj fields).pyGet "anchor_id" = .str aid :=
      hje ▸ compiledAnchor_aid adt aid a
    have h2 : anchorCommonIssues loc (JValue.obj fields) = [] :=
      hje ▸ anchorCommonIssues_compiled adt aid a loc hok
    simp only []
    rw [h1, h2, if_pos (by simp [JValue.isNonemptyStr, haid])]
    rfl

theorem fileEntryIssues_compiled (k : Nat) (p : String) (hp : p ≠ "")
    (anchors : List JValue) (sumE : List (String × JValue))
    (hsum : sumE = [] ∨ ∃ s, sumE = [("summary", JValue.str s)])
    (hanch : ∀ y ∈ anchors, ∃ adt aid a, y = compiledAnchor adt aid a ∧ aid ≠ "" ∧
      NoteFieldsOK a) :
    fileEntryIssues k
      (.obj ([("path", JValue.str p), ("anchors", JValue.arr anchors)] ++ sumE)) =
      [] := by
  unfold fileEntryIssues
  simp only [List.cons_append, List.nil_append]
  have hpathval : (JValue.obj (("path", JValue.str p) ::
      ("anchors", JValue.arr anchors) :: sumE)).pyGet "path" = .str p :=
    pyGet_cons_head _ _ _
  have hps : (JValue.str p).isNonemptyStr = true := by
    simp [JValue.isNonemptyStr, hp]
  have hkey : (JValue.obj (("path", JValue.str p) ::
      ("anchors", JValue.arr anchors) :: sumE)).getKey "summary" =
      (JValue.obj sumE).getKey "summary" := by
    rw [getKey_cons_ne _ "path" (by decide), getKey_cons_ne _ "anchors" (by decide)]
  have hsumcond : ((JValue.obj (("path", JValue.str p) ::
      ("anchors", JValue.arr anchors) :: sumE)).hasKey "summary" &&
      ((JValue.obj (("path", JValue.str p) ::
        ("anchors", JValue.arr anchors) :: sumE)).pyGet "summary").asStr.isNone) =
      false := by
    rcases hsum with rfl | ⟨s, rfl⟩
    · simp [JValue.hasKey, hkey, JValue.getKey]
    · rw [JValue.hasKey, JValue.pyGet, hkey, getKey_cons_eq]
      rfl
  have hanchget : (JValue.obj (("path", JValue.str p) ::
      ("anchors", JValue.arr anchors) :: sumE)).pyGet "anchors" = .arr anchors := by
    unfold JValue.pyGet
    rw [getKey_cons_ne _ "path" (by decide), getKey_cons_eq]
    rfl
  simp only [hpathval, hps, if_true, hsumcond, Bool.false_eq_true, if_false,
    hanchget, JValue.asArr, List.nil_append, List.append_nil]
  rw [List.join_eq_nil_iff]
  intro y hy
  obtain ⟨q, hq, rfl⟩ := List.mem_map.mp hy
  exact anchorEntryIssues_compiled _ _ (hanch q.2 (List.snd_mem_of_mem_enum hq))

/-- A compiled annotation file entry built by `compile_annotations_from_notes`,
together with the facts needed to pass the document validator. -/
def CompiledFileOK (x : JValue) : Prop :=
  ∃ p anchors sumE, p ≠ "" ∧
    (sumE = [] ∨ ∃ s, sumE = [("summary", JValue.str s)]) ∧
    x = .obj ([("path", JValue.str p), ("anchors", JValue.arr anchors)] ++ sumE) ∧
    ∀ y ∈ anchors, ∃ adt aid a, y = compiledAnchor adt aid a ∧ aid ≠ "" ∧
      NoteFieldsOK a

theorem validate_schema_compiled (tgt : String) (htgt : tgt ≠ "")
    (ov : List JValue) (hov : ov.all JValue.isNonblankStr = true)
    (hlen : ov.length ≤ 8) (afs : List JValue)
    (hafs : ∀ x ∈ afs, CompiledFileOK x) :
    validate_annotation_schema (.obj
      [("version", JValue.str "2"), ("target_context_id", JValue.str tgt),
       ("overview", JValue.arr ov), ("files", JValue.arr afs)]) = [] := by
  unfold validate_annotation_schema
  simp only []
  have hver : (JValue.obj
      [("version", JValue.str "2"), ("target_context_id", JValue.str tgt),
       ("overview", JValue.arr ov), ("files", JValue.arr afs)]).pyGet "version" =
      .str "2" := pyGet_cons_head _ _ _
  have htgtv : (JValue.obj
      [("version", JValue.str "2"), ("target_context_id", JValue.str tgt),
       ("overview", JValue.arr ov), ("files", JValue.arr afs)]).pyGet
        "target_context_id" = .str tgt := by
    unfold JValue.pyGet
    rw [getKey_cons_ne _ "version" (by decide), getKey_cons_eq]
    rfl
  have hovv : (JValue.obj
      [("version", JValue.str "2"), ("target_context_id", JValue.str tgt),
       ("overview", JValue.arr ov), ("files", JValue.arr afs)]).pyGet "overview" =
      .arr ov := by
    unfold JValue.pyGet
    rw [getKey_cons_ne _ "version" (by decide),
      getKey_cons_ne _ "target_context_id" (by decide), getKey_cons_eq]
    rfl
  have hfsv : (JValue.obj
      [("version", JValue.str "2"), ("target_context_id", JValue.str tgt),
       ("overview", JValue.arr ov), ("files", JValue.arr afs)]).pyGet "files" =
      .arr afs := by
    unfold JValue.pyGet
    rw [getKey_cons_ne _ "version" (by decide),
      getKey_cons_ne _ "target_context_id" (by decide),
      getKey_cons_ne _ "overview" (by decide), getKey_cons_eq]
    rfl
  have htgts : (JValue.str tgt).isNonemptyStr = true := by
    simp [JValue.isNonemptyStr, htgt]
  simp only [hver, htgtv, hovv, hfsv, JValue.asArr,
    show (JValue.str "2").isStrVal "2" = true from rfl, if_true, htgts,
    overviewIssues_arr_ok ov hov hlen, List.nil_append, List.append_nil]
  rw [List.join_eq_nil_iff]
  intro y hy
  obtain ⟨q, hq, rfl⟩ := List.mem_map.mp hy
  obtain ⟨p, anchors, sumE, hp, hsum, hx, hanch⟩ := hafs q.2 (List.snd_mem_of_mem_enum hq)
  rw [hx]
  exact fileEntryIssues_compiled q.1 p hp anchors sumE hsum hanch

theorem walkFileAnchors_clean (strict : Bool) (loc path : String)
    (fai : List (String × AnchorMeta)) :
    ∀ (al : List JValue) (idx : Nat),
      (∀ a ∈ al, ∀ aid, (a.pyGet "anchor_id").asStr = some aid →
        (alistGet? aid fai).isSome = true) →
      (walkFileAnchors strict loc path fai idx al).2.2 = [] := by
  intro al
  induction al with
  | nil => intro idx _; rfl
  | cons a rest ih =>
    intro idx hall
    rw [walkFileAnchors]
    cases han : (a.pyGet "anchor_id").asStr with
    | none => exact ih _ (fun x hx => hall x (List.mem_cons_of_mem _ hx))
    | some aid =>
      simp only []
      obtain ⟨v, hv⟩ := Option.isSome_iff_exists.mp
        (hall a (List.mem_cons_self _ _) aid han)
      rw [hv]
      simp only [Option.isNone_some, Bool.false_eq_true, if_false]
      exact ih _ (fun x hx => hall x (List.mem_cons_of_mem _ hx))

theorem walkFiles_clean (strict : Bool) (rtPaths : List String)
    (aidx : List (String × List (String × AnchorMeta))) :
    ∀ (fl : List JValue) (idx : Nat),
      (∀ x ∈ fl, ∀ p, (x.pyGet "path").asStr = some p →
        rtPaths.contains p = true ∧
        ∀ a ∈ iter_file_anchors x, ∀ aid, (a.pyGet "anchor_id").asStr = some aid →
          (alistGet? aid ((alistGet? p aidx).getD [])).isSome = true) →
      (walkFiles strict rtPaths aidx idx fl).2.2.2 = [] := by
  intro fl
  induction fl with
  | nil => intro idx _; rfl
  | cons x rest ih =>
    intro idx hall
    have htail : ∀ y ∈ rest, ∀ p, (y.pyGet "path").asStr = some p →
        rtPaths.contains p = true ∧
        ∀ a ∈ iter_file_anchors y, ∀ aid, (a.pyGet "anchor_id").asStr = some aid →
          (alistGet? aid ((alistGet? p aidx).getD [])).isSome = true :=
      fun y hy => hall y (List.mem_cons_of_mem _ hy)
    rw [walkFiles]
    simp only []
    by_cases hobj : x.isObj = true
    · rw [hobj]
      simp only [Bool.not_true, Bool.false_eq_true, if_false]
      cases hp : (x.pyGet "path").asStr with
      | none => exact ih _ htail
      | some p =>
        simp only []
        obtain ⟨hcont, hanch⟩ := hall x (List.mem_cons_self _ _) p hp
        rw [hcont]
        simp only [Bool.not_true, Bool.false_eq_true, if_false]
        rw [walkFileAnchors_clean strict _ p _ _ _ hanch, List.nil_append]
        exact ih _ htail
    · rw [show x.isObj = false from by
        cases h : x.isObj
        · rfl
        · exact absurd h hobj]
      simp only [Bool.not_false, if_true]
      exact ih _ htail

theorem compile_built_doc (env : Env) (raw : String) (spec : JValue)
    (genAt : String) (files : List FilePatch) (notes : JValue)
    (hnotes : notes.isObj = true) (NA : List JValue)
    (hna : (notes.pyGet "anchors").asArr = some NA) :
    (compile_annotations_from_notes (builtContext env raw spec genAt files)
        notes).1 =
      .obj [("version", .str "2"),
            ("target_context_id", notes.pyGetD "target_context_id" (.str "")),
            ("overview", .arr (((notes.pyGet "overview").asArr).getD [])),
            ("files", .arr
              ((compileContextScan (_build_context_files env files)).1.filterMap
                (fun path =>
                  let anchors := (alistGet? path
                    (compileNotesAnchors
                      (compileContextScan (_build_context_files env files)).2.1
                      (compileContextScan (_build_context_files env files)).2.2
                      0 [] [] NA).1).getD []
                  let summary := alistGet? path
                    (match (notes.pyGet "file_summaries").asArr with
                     | some l => compileFileSummaries
                         (compileContextScan (_build_context_files env files)).1
                         0 [] [] l
                     | none => ([], [])).1
                  if anchors.isEmpty && summary.isNone then none
                  else some (JValue.obj
                    ([("path", JValue.str path), ("anchors", JValue.arr anchors)] ++
                     (match summary with
                      | some s => [("summary", JValue.str s)]
                      | none => []))))))] := by
  unfold compile_annotations_from_notes
  simp only [hnotes, builtContext_isObj, eq_self_iff_true, if_true,
    builtContext_files, JValue.asArr, Option.getD_some, hna]
  simp only [JValue.asArr] at hna
  simp only [hna]

/-- One entry of the `files` list assembled by
`compile_annotations_from_notes` (`annotations.py` lines 455-466). -/
def compiledFileEntry (abf : List (String × List JValue))
    (sbp : List (String × String)) (path : String) : Option JValue :=
  let anchors := (alistGet? path abf).getD []
  let summary := alistGet? path sbp
  if anchors.isEmpty && summary.isNone then none
  else some (JValue.obj
    ([("path", JValue.str path), ("anchors", JValue.arr anchors)] ++
     (match summary with
      | some s => [("summary", JValue.str s)]
      | none => [])))

theorem compile_built_doc_entries (env : Env) (raw : String) (spec : JValue)
    (genAt : String) (files : List FilePatch) (notes : JValue)
    (hnotes : notes.isObj = true) (NA : List JValue)
    (hna : (notes.pyGet "anchors").asArr = some NA) :
    (compile_annotations_from_notes (builtContext env raw spec genAt files)
        notes).1 =
      .obj [("version", .str "2"),
            ("target_context_id", notes.pyGetD "target_context_id" (.str "")),
            ("overview", .arr (((notes.pyGet "overview").asArr).getD [])),
            ("files", .arr
              ((compileContextScan (_build_context_files env files)).1.filterMap
                (compiledFileEntry
                  (compileNotesAnchors
                    (compileContextScan (_build_context_files env files)).2.1
                    (compileContextScan (_build_context_files env files)).2.2
                    0 [] [] NA).1
                  (match (notes.pyGet "file_summaries").asArr with
                   | some l => compileFileSummaries
                       (compileContextScan (_build_context_files env files)).1
                       0 [] [] l
                   | none => ([], [])).1)))] := by
  rw [compile_built_doc env raw spec genAt files notes hnotes NA hna]
  rfl

theorem abfInv_nil (a2p adt : List (String × String)) : AbfInv a2p adt [] := by
  intro p l h
  exact absurd h (by simp [alistGet?])

theorem compiledFileEntry_ok (abf : List (String × List JValue))
    (sbp : List (String × String)) (order : List String)
    (horder : ∀ p ∈ order, p ≠ "")
    (habf : ∀ q l, alistGet? q abf = some l → ∀ y ∈ l,
      ∃ adt aid a, y = compiledAnchor adt aid a ∧ aid ≠ "" ∧ NoteFieldsOK a) :
    ∀ x ∈ order.filterMap (compiledFileEntry abf sbp), CompiledFileOK x := by
  intro x hx
  obtain ⟨p, hpmem, hpe⟩ := List.mem_filterMap.mp hx
  unfold compiledFileEntry at hpe
  simp only [] at hpe
  split at hpe
  · exact absurd hpe (by simp)
  · injection hpe with hpe
    subst hpe
    refine ⟨p, _, _, horder p hpmem, ?_, rfl, ?_⟩
    · cases alistGet? p sbp with
      | none => exact Or.inl rfl
      | some s => exact Or.inr ⟨s, rfl⟩
    · intro y hy
      cases hget : alistGet? p abf with
      | none => rw [hget] at hy; exact absurd hy (by simp)
      | some l =>
        rw [hget] at hy
        exact habf p l hget y hy

theorem compiledFileEntry_walk_ok (env : Env) (files : List FilePatch)
    (abf : List (String × List JValue)) (sbp : List (String × String))
    (hnodup : (files.map FilePatch.path).Nodup)
    (hstable : ∀ f ∈ files, ∀ h ∈ f.hunks, h.stable_hunk_id ≠ "")
    (habf : ∀ q l, alistGet? q abf = some l → ∀ y ∈ l,
      ∃ adt aid a, y = compiledAnchor adt aid a ∧
        ∃ f, f ∈ files ∧ f.path = q ∧ ∃ h, h ∈ f.hunks ∧
          aid = env.hashText (f.path ++ ":" ++ h.stable_hunk_id)) :
    ∀ x ∈ (files.map FilePatch.path).filterMap (compiledFileEntry abf sbp),
      ∀ p, (x.pyGet "path").asStr = some p →
        (files.map FilePatch.path).contains p = true ∧
        ∀ a ∈ iter_file_anchors x, ∀ aid, (a.pyGet "anchor_id").asStr = some aid →
          (alistGet? aid ((alistGet? p (anchorIndexOf env files)).getD
            [])).isSome = true := by
  intro x hx p hpth
  obtain ⟨q, hqmem, hqe⟩ := List.mem_filterMap.mp hx
  unfold compiledFileEntry at hqe
  simp only [] at hqe
  split at hqe
  · exact absurd hqe (by simp)
  · injection hqe with hqe
    subst hqe
    simp only [List.cons_append, List.nil_append] at hpth ⊢
    rw [pyGet_cons_head] at hpth
    simp only [JValue.asStr, Option.some.injEq] at hpth
    subst hpth
    have hmembers : ∀ y ∈ (alistGet? q abf).getD [],
        ∃ adt aid a, y = compiledAnchor adt aid a ∧
          ∃ f, f ∈ files ∧ f.path = q ∧ ∃ h, h ∈ f.hunks ∧
            aid = env.hashText (f.path ++ ":" ++ h.stable_hunk_id) := by
      intro y hy
      cases hget : alistGet? q abf with
      | none => rw [hget] at hy; exact absurd hy (by simp)
      | some l => rw [hget] at hy; exact habf q l hget y hy
    constructor
    · exact List.elem_eq_true_of_mem hqmem
    · intro a ha aid haid
      have hiter : iter_file_anchors (JValue.obj (("path", JValue.str q) ::
          ("anchors", JValue.arr ((alistGet? q abf).getD [])) ::
          (match alistGet? q sbp with
           | some s => [("summary", JValue.str s)]
           | none => []))) = (alistGet? q abf).getD [] := by
        unfold iter_file_anchors JValue.pyGetD
        rw [getKey_cons_ne _ "path" (by decide), getKey_cons_eq]
        simp only [Option.getD_some, JValue.asArr]
        refine List.filter_eq_self.mpr ?_
        intro y hy
        obtain ⟨adt0, aid0, a0, hya, -⟩ := hmembers y hy
        rw [hya]
        exact compiledAnchor_isObj _ _ _
      rw [hiter] at ha
      obtain ⟨adt0, aid0, a0, rfl, f, hf, hfp, h, hh, haide⟩ := hmembers a ha
      rw [compiledAnchor_aid] at haid
      simp only [JValue.asStr, Option.some.injEq] at haid
      subst haid
      rw [← hfp, anchorIndexOf_get env files f hf hnodup]
      simp only [Option.getD_some]
      rw [haide]
      exact fileAnchorMapOf_has env f h hh (hstable f hf h hh)

/-- C2 (corrected): compiling a Notes document against a freshly built
context and validating the compiled annotations against that same context
with `strict = true` yields `valid = true`, provided the notes target the
context's `context_id`, anchor-note text fields are non-blank, present
severities are drawn from the allowed set, the overview has at most eight
non-blank lines, and the recomputation reproduces the same diff over files
with distinct non-empty paths and non-empty stable hunk ids.  (Anchor notes
whose ids are unknown are dropped by the compiler, so the claim's
drawn-from-context premise is not needed.) -/
theorem compile_validate_round_trip (env : Env) (raw genAt cid : String)
    (spec notes ctx : JValue) (files : List FilePatch) (NA : List JValue)
    (hbuild : build_review_context env raw spec genAt = .ok ctx)
    (hparse : _parse_files env raw (specExcludePaths spec)
      (specExcludeBinary spec) = .ok files)
    (hspec : spec.isObj = true)
    (hcollect : env.collectPatch spec = .ok raw)
    (hpaths : ∀ f ∈ files, f.path ≠ "")
    (hnodup : (files.map FilePatch.path).Nodup)
    (hstable : ∀ f ∈ files, ∀ h ∈ f.hunks, h.stable_hunk_id ≠ "")
    (hnotes : notes.isObj = true)
    (hcid : ctx.pyGet "context_id" = JValue.str cid)
    (hcidne : cid ≠ "")
    (htarget : notes.pyGetD "target_context_id" (JValue.str "") = JValue.str cid)
    (hna : (notes.pyGet "anchors").asArr = some NA)
    (hfields : ∀ a ∈ NA, a.isObj = true → NoteFieldsOK a)
    (hov : (((notes.pyGet "overview").asArr).getD []).all JValue.isNonblankStr =
      true)
    (hovlen : (((notes.pyGet "overview").asArr).getD []).length ≤ 8) :
    ∃ report rt, evaluate_annotations env ctx
        (compile_annotations_from_notes ctx notes).1 true =
          .ok (report, some rt) ∧
      report.valid = true := by
  obtain ⟨files', hparse', hctx⟩ := build_ok_inv hbuild
  rw [hparse] at hparse'
  injection hparse' with hfe
  subst hfe
  subst hctx
  rw [builtContext_context_id] at hcid
  injection hcid with hcideq
  have hcdoc := compile_built_doc_entries env raw spec genAt files notes hnotes
    NA hna
  rw [htarget, scan_order env files hpaths] at hcdoc
  have hABF := compileNotesAnchors_inv
    (compileContextScan (_build_context_files env files)).2.1
    (compileContextScan (_build_context_files env files)).2.2
    NA 0 [] [] hfields (abfInv_nil _ _)
  have habf1 : ∀ q l, alistGet? q (compileNotesAnchors
      (compileContextScan (_build_context_files env files)).2.1
      (compileContextScan (_build_context_files env files)).2.2
      0 [] [] NA).1 = some l → ∀ y ∈ l,
      ∃ adt aid a, y = compiledAnchor adt aid a ∧ aid ≠ "" ∧ NoteFieldsOK a := by
    intro q l hql y hy
    obtain ⟨aid, a, hya, haid, -, hok⟩ := hABF q l hql y hy
    exact ⟨_, aid, a, hya, haid, hok⟩
  have habf2 : ∀ q l, alistGet? q (compileNotesAnchors
      (compileContextScan (_build_context_files env files)).2.1
      (compileContextScan (_build_context_files env files)).2.2
      0 [] [] NA).1 = some l → ∀ y ∈ l,
      ∃ adt aid a, y = compiledAnchor adt aid a ∧
        ∃ f, f ∈ files ∧ f.path = q ∧ ∃ h, h ∈ f.hunks ∧
          aid = env.hashText (f.path ++ ":" ++ h.stable_hunk_id) := by
    intro q l hql y hy
    obtain ⟨aid, a, hya, -, hmap, -⟩ := hABF q l hql y hy
    exact ⟨_, aid, a, hya, scan_inv env files aid q hmap⟩
  have horder : ∀ p ∈ files.map FilePatch.path, p ≠ "" := by
    intro p hp
    obtain ⟨f, hf, rfl⟩ := List.mem_map.mp hp
    exact hpaths f hf
  have hval : validate_annotation_schema
      (compile_annotations_from_notes
        (builtContext env raw spec genAt files) notes).1 = [] := by
    rw [hcdoc]
    exact validate_schema_compiled cid hcidne _ hov hovlen _
      (compiledFileEntry_ok _ _ _ horder habf1)
  have hcobj : (compile_annotations_from_notes
      (builtContext env raw spec genAt files) notes).1.isObj = true := by
    rw [hcdoc]; rfl
  have htgtc : ((compile_annotations_from_notes
      (builtContext env raw spec genAt files) notes).1.pyGet
        "target_context_id") = .str cid := by
    rw [hcdoc]
    unfold JValue.pyGet
    rw [getKey_cons_ne _ "version" (by decide), getKey_cons_eq]
    rfl
  have hfilesc : ((compile_annotations_from_notes
      (builtContext env raw spec genAt files) notes).1.pyGet "files") =
      .arr ((files.map FilePatch.path).filterMap
        (compiledFileEntry
          (compileNotesAnchors
            (compileContextScan (_build_context_files env files)).2.1
            (compileContextScan (_build_context_files env files)).2.2
            0 [] [] NA).1
          (match (notes.pyGet "file_summaries").asArr with
           | some l => compileFileSummaries (files.map FilePatch.path) 0 [] [] l
           | none => ([], [])).1)) := by
    rw [hcdoc]
    unfold JValue.pyGet
    rw [getKey_cons_ne _ "version" (by decide),
      getKey_cons_ne _ "target_context_id" (by decide),
      getKey_cons_ne _ "overview" (by decide), getKey_cons_eq]
    rfl
  have hwalk := walkFiles_clean true (files.map FilePatch.path)
    (anchorIndexOf env files) ((files.map FilePatch.path).filterMap
      (compiledFileEntry
        (compileNotesAnchors
          (compileContextScan (_build_context_files env files)).2.1
          (compileContextScan (_build_context_files env files)).2.2
          0 [] [] NA).1
        (match (notes.pyGet "file_summaries").asArr with
         | some l => compileFileSummaries (files.map FilePatch.path) 0 [] [] l
         | none => ([], [])).1)) 0
    (compiledFileEntry_walk_ok env files _ _ hnodup hstable habf2)
  unfold evaluate_annotations
  rw [builtContext_isObj]
  simp only [Bool.not_true, Bool.false_eq_true, if_false]
  rw [builtContext_context_id, hcobj]
  simp only [JValue.asStr, if_true, eq_self_iff_true]
  rw [htgtc]
  simp only [JValue.asStr]
  rw [if_neg (fun hne => hne hcideq.symm)]
  rw [recompute_built env raw spec genAt files hspec hcollect hparse]
  simp only []
  rw [builtContext_fingerprint]
  simp only [JValue.asStr]
  rw [if_neg (fun hne => hne rfl)]
  rw [hfilesc]
  simp only [JValue.asArr]
  simp only [JValue.asArr] at hwalk
  rw [hval, hwalk]
  exact ⟨_, _, rfl, rfl⟩

/-- C2 counterexample to the claim as stated: with an empty diff context,
notes whose `target_context_id` is the non-empty string `"x"`, every anchor
id (vacuously) drawn from the context and the recomputation reproducing the
same raw diff text, the compiled document still validates to
`valid = false` under `strict = true`, because the target does not equal
the context's `context_id`. -/
theorem round_trip_needs_matching_target :
    ∃ ctx, build_review_context envW "" (JValue.obj []) "t" = .ok ctx ∧
      envW.collectPatch (JValue.obj []) = .ok "" ∧
      (JValue.str "x").isNonemptyStr = true ∧
      ∃ report rt0,
        evaluate_annotations envW ctx
          (compile_annotations_from_notes ctx
            (JValue.obj [("version", JValue.str "1"),
              ("target_context_id", JValue.str "x"),
              ("anchors", JValue.arr [])])).1 true = .ok (report, rt0) ∧
        report.valid = false := by
  exact ⟨_, rfl, rfl, rfl, _, _, rfl, rfl⟩

theorem compile_validate_round_trip_witness :
    ∃ ctx, build_review_context envW "" (JValue.obj []) "t" = .ok ctx ∧
      ∃ report rt,
        evaluate_annotations envW ctx
          (compile_annotations_from_notes ctx
            (JValue.obj [("version", JValue.str "1"),
              ("target_context_id", JValue.str "#\x7b\x7d"),
              ("anchors", JValue.arr [])])).1 true = .ok (report, some rt) ∧
        report.valid = true := by
  refine ⟨builtContext envW "" (JValue.obj []) "t" [], rfl, ?_⟩
  exact compile_validate_round_trip envW "" "t" "#\x7b\x7d" (JValue.obj [])
    (JValue.obj [("version", JValue.str "1"),
      ("target_context_id", JValue.str "#\x7b\x7d"),
      ("anchors", JValue.arr [])])
    (builtContext envW "" (JValue.obj []) "t" []) [] []
    rfl rfl rfl rfl (by simp) (by simp) (by simp) rfl rfl (by decide) rfl rfl
    (by simp) rfl (by decide)
